import Mathlib

/-!
The dispatch core of midjourney-proxy

A shallow embedding of the worker-selection policy
(`internal/infrastructure/discord/account_selector.go`), the pool that owns the
workers (`internal/infrastructure/discord/manager.go`), the job record and its
status transitions (`internal/domain/entity/task.go`,
`internal/domain/entity/discord_account.go`) and the submission handlers
(`internal/api/handler/task.go`).

Conventions of the embedding:

* Go `int` is the 64-bit two's-complement integer; arithmetic that can leave the
  range is wrapped with `wrapInt`.
* A Go panic is the `Except.error` outcome, a normal return is `Except.ok`.
* A nil pointer result is `none`.
* `time.Time` values are natural numbers (a monotone clock reading); `After` is `>`.
* The values drawn from `math/rand`, `time.Now`, `uuid.New` and the outcome of the
  storage calls are explicit inputs of the functions that consume them.
* A Go map is the list of its entries in the order one `range` loop visits them;
  every theorem holds for every such order.
-/

namespace MjProxy

/-! ## Machine integers and runtime primitives -/

/-- Wrap an integer into the range of Go's `int`, `[-2^63, 2^63)`. -/
def wrapInt (z : Int) : Int := (z + 2 ^ 63) % 2 ^ 64 - 2 ^ 63

/-- Go's `rand.Intn(n)`: panics when `n <= 0`, otherwise some value of `[0, n)`;
`draw` is the raw output of the random source. -/
def Intn (draw : Nat) (n : Int) : Except String Int :=
  if n ≤ 0 then .error "invalid argument to Intn" else .ok ((draw : Int) % n)

/-- Slice indexing `xs[i]` with Go's bounds check. -/
def index {α : Type} (xs : List α) (i : Int) : Except String α :=
  if i < 0 then .error "index out of range"
  else
    match xs[i.toNat]? with
    | some x => .ok x
    | none => .error "index out of range"

/-- Insert `x` into a list ordered by `less`: before the first element that `x` is less
than, so after every element that is not greater than `x`. -/
def orderedInsertLess {α : Type} (less : α → α → Bool) (x : α) : List α → List α
  | [] => [x]
  | y :: ys => if less x y then x :: y :: ys else y :: orderedInsertLess less x ys

/-- Go's `sort.Slice(xs, less)`: the slice reordered so that it is sorted by `less`.
The runtime sorts slices of up to 12 elements by insertion, which is the algorithm
used here; for elements that `less` does not separate Go promises no particular
order on longer slices. -/
def sortSlice {α : Type} (less : α → α → Bool) (xs : List α) : List α :=
  xs.foldl (fun acc x => orderedInsertLess less x acc) []

/-! ## Configuration (`config.go`) -/

namespace config

/-- The account record of the configuration file (`config.DiscordAccount`), which is
what an `Instance` carries. `SortKey` stands for the field `Sort` that `selectByPolling`
reads from this record (`Sort` is a reserved word in Lean); the struct declaration in
`config.go` does not list it, the stored account of `discord_account.go` does. -/
structure DiscordAccount where
  ID : String := ""
  ChannelID : String := ""
  GuildID : String := ""
  UserToken : String := ""
  Enabled : Bool := false
  EnableMJ : Bool := false
  EnableNiji : Bool := false
  CoreSize : Int := 0
  QueueSize : Int := 0
  TimeoutMinutes : Int := 0
  Weight : Int := 0
  SortKey : Int := 0
  DayDrawLimit : Int := 0
  RemixAutoSubmit : Bool := false
  Mode : String := ""
deriving DecidableEq, Repr

end config

/-! ## Entities (`task.go`, `discord_account.go`) -/

namespace entity

/-- The six values of `TaskStatus`. -/
inductive TaskStatus where
  | NotStart
  | Submitted
  | InProgress
  | Failure
  | Success
  | Cancel
deriving DecidableEq, Repr

/-- A `TaskAction` is a string (`"IMAGINE"`, `"UPSCALE"`, ...). -/
abbrev TaskAction := String

def TaskActionImagine : TaskAction := "IMAGINE"
def TaskActionUpscale : TaskAction := "UPSCALE"
def TaskActionVariation : TaskAction := "VARIATION"
def TaskActionReroll : TaskAction := "REROLL"
def TaskActionDescribe : TaskAction := "DESCRIBE"
def TaskActionBlend : TaskAction := "BLEND"
def TaskActionShorten : TaskAction := "SHORTEN"
def TaskActionShow : TaskAction := "SHOW"
def TaskActionModal : TaskAction := "MODAL"
def TaskActionAction : TaskAction := "ACTION"

/-- A `BotType` is a string. -/
abbrev BotType := String

def BotTypeMidjourney : BotType := "MID_JOURNEY"
def BotTypeNijijourney : BotType := "NIJI_JOURNEY"

/-- A `GenerationSpeedMode` is a string (`"FAST"`, `"RELAX"`, `"TURBO"`). -/
abbrev GenerationSpeedMode := String

def SpeedModeFast : GenerationSpeedMode := "FAST"
def SpeedModeRelax : GenerationSpeedMode := "RELAX"
def SpeedModeTurbo : GenerationSpeedMode := "TURBO"

/-- The per-submission selection filter. -/
structure AccountFilter where
  InstanceID : String := ""
  Mode : GenerationSpeedMode := ""
  BotType : BotType := ""
  RemixEnabled : Bool := false
  Modes : List GenerationSpeedMode := []
deriving DecidableEq, Repr

/-- The job record; the fields the dispatch path reads or writes. -/
structure Task where
  ID : String := ""
  ParentID : String := ""
  UserID : String := ""
  BotType : BotType := ""
  RealBotType : Option entity.BotType := none
  InstanceID : String := ""
  Action : TaskAction := ""
  Status : TaskStatus := TaskStatus.NotStart
  Prompt : String := ""
  PromptEn : String := ""
  Description : String := ""
  State : String := ""
  SubmitTime : Option Nat := none
  StartTime : Option Nat := none
  FinishTime : Option Nat := none
  ImageURL : String := ""
  Progress : String := ""
  FailReason : String := ""
  ClientIP : String := ""
  Mode : GenerationSpeedMode := ""
  AccountFilter : Option AccountFilter := none
deriving DecidableEq, Repr

namespace Task

/-- The method `Start`; `now` is the reading of `time.Now()`. -/
def Start (t : Task) (now : Nat) : Task :=
  { t with StartTime := some now, Status := TaskStatus.Submitted, Progress := "0%" }

/-- The method `Success`. -/
def Success (t : Task) (now : Nat) : Task :=
  { t with FinishTime := some now, Status := TaskStatus.Success, Progress := "100%" }

/-- The method `Fail`. -/
def Fail (t : Task) (reason : String) (now : Nat) : Task :=
  { t with FinishTime := some now, Status := TaskStatus.Failure, FailReason := reason,
           Progress := "" }

/-- The method `Cancel`. -/
def Cancel (t : Task) (now : Nat) : Task :=
  { t with FinishTime := some now, Status := TaskStatus.Cancel, Progress := "" }

/-- The method `IsFinished`. -/
def IsFinished (t : Task) : Bool :=
  t.Status == TaskStatus.Success || t.Status == TaskStatus.Failure
    || t.Status == TaskStatus.Cancel

end Task

/-- The dynamic value of an `interface{}` field after `json.Unmarshal`: a JSON string is
held as a `string`, a number as a `float64`, a boolean as a `bool`, an object as a
`map[string]interface{}` and an array as a `[]interface{}` (the last three with their JSON
text); JSON null and an absent key leave the field nil (`none`). -/
inductive AnyValue where
  | string (s : String)
  | float64 (text : String)
  | bool (b : Bool)
  | object (text : String)
  | array (text : String)
deriving DecidableEq, Repr

namespace AnyValue

/-- The name of the dynamic type, as the runtime prints it. -/
def typeName : AnyValue → String
  | .string _ => "string"
  | .float64 _ => "float64"
  | .bool _ => "bool"
  | .object _ => "map[string]interface \x7b\x7d"
  | .array _ => "[]interface \x7b\x7d"

/-- The unchecked type assertion `v.(string)` on a non-nil value: it panics unless the
dynamic type is `string`. -/
def assertString : AnyValue → Except String String
  | .string s => .ok s
  | v => .error ("interface conversion: interface \x7b\x7d is " ++ v.typeName ++ ", not string")

end AnyValue

/-- The child of a component (`ComponentDetail`); `Kind` is its field `Type` and
`CustomID` is an `interface{}`. The `Emoji` map is not read by the code embedded here. -/
structure ComponentDetail where
  Kind : Int := 0
  CustomID : Option AnyValue := none
  Style : Int := 0
  Label : String := ""
  Disabled : Bool := false
deriving DecidableEq, Repr

/-- A message component (`Component`); `Kind` is its field `Type`. -/
structure Component where
  Kind : Int := 0
  Components : List ComponentDetail := []
  CustomID : String := ""
  Style : Int := 0
  Label : String := ""
  Disabled : Bool := false
deriving DecidableEq, Repr

/-- A button (`CustomComponent`, declared in `task.go`); `Kind` is its field `Type`. -/
structure CustomComponent where
  Kind : Int := 0
  Style : Int := 0
  Label : String := ""
  Emoji : String := ""
  CustomID : String := ""
deriving DecidableEq, Repr

/-- The stored account record (`entity.DiscordAccount`); the fields read by
`IsAcceptNewTask`, `IsContinueDrawing`, `GetMJButtons` and `GetNijiButtons`. -/
structure DiscordAccount where
  ID : String := ""
  Enabled : Bool := false
  Lock : Bool := false
  CoreSize : Int := 0
  QueueSize : Int := 0
  MaxQueueSize : Int := 0
  Weight : Int := 0
  SortKey : Int := 0
  DayDrawLimit : Int := 0
  DayDrawCount : Int := 0
  Components : List Component := []
  NijiComponents : List Component := []
deriving DecidableEq, Repr

/-- The inner loop of `GetMJButtons` and `GetNijiButtons` over the children of one
component, entered with the buttons collected so far. -/
def detailButtons (buttons : List CustomComponent) :
    List ComponentDetail → Except String (List CustomComponent)
  | [] => .ok buttons
  | detail :: rest =>
    match detail.CustomID with
    | none => detailButtons buttons rest
    | some v =>
      match v.assertString with
      | .error e => .error e
      | .ok customID =>
        detailButtons
          (buttons ++ [{ Kind := detail.Kind, Style := detail.Style, Label := detail.Label,
                         CustomID := customID }])
          rest

/-- The outer loop of `GetMJButtons` and `GetNijiButtons` (the two bodies are the same
text, over `d.Components` and over `d.NijiComponents`), entered with the buttons
collected so far. -/
def componentButtons (buttons : List CustomComponent) :
    List Component → Except String (List CustomComponent)
  | [] => .ok buttons
  | comp :: rest =>
    if comp.Kind ≠ 1 then componentButtons buttons rest
    else
      match detailButtons buttons comp.Components with
      | .error e => .error e
      | .ok buttons => componentButtons buttons rest

namespace DiscordAccount

/-- The method `IsAcceptNewTask`. -/
def IsAcceptNewTask (d : DiscordAccount) : Bool :=
  if !d.Enabled || d.Lock then false
  else if d.DayDrawLimit > 0 && d.DayDrawCount ≥ d.DayDrawLimit then false
  else true

/-- The method `IsContinueDrawing`. -/
def IsContinueDrawing (d : DiscordAccount) : Bool :=
  d.DayDrawLimit ≤ -1 || d.DayDrawCount < d.DayDrawLimit

/-- The method `GetMJButtons`. -/
def GetMJButtons (d : DiscordAccount) : Except String (List CustomComponent) :=
  componentButtons [] d.Components

/-- The method `GetNijiButtons`. -/
def GetNijiButtons (d : DiscordAccount) : Except String (List CustomComponent) :=
  componentButtons [] d.NijiComponents

end DiscordAccount

end entity

/-! ## Worker pool and selector (`manager.go`, `account_selector.go`) -/

namespace discord

/-- A worker of the pool (`Instance`): its identity, its account, the readiness flag
and the time of the last heartbeat acknowledgement. `hasConn` says whether the socket
handle `conn` is non-nil and `connClosed` whether `conn.Close()` has been called;
`hasCancel` says whether `cancel` is non-nil and `ctxDone` whether it has been called. -/
structure Instance where
  ID : String := ""
  Account : config.DiscordAccount := {}
  Connected : Bool := false
  LastPing : Nat := 0
  hasConn : Bool := false
  connClosed : Bool := false
  hasCancel : Bool := false
  ctxDone : Bool := false
deriving DecidableEq, Repr

namespace Instance

/-- The method `IsConnected`. -/
def IsConnected (i : Instance) : Bool := i.Connected

/-- The method `GetAccount`. -/
def GetAccount (i : Instance) : config.DiscordAccount := i.Account

end Instance

/-- An `AccountSelectMode` is a string. -/
abbrev AccountSelectMode := String

def AccountSelectBestWaitIdle : AccountSelectMode := "BestWaitIdle"
def AccountSelectRandom : AccountSelectMode := "Random"
def AccountSelectWeight : AccountSelectMode := "Weight"
def AccountSelectPolling : AccountSelectMode := "Polling"

/-- The selector state: the strategy and the round-robin cursor. -/
structure AccountSelector where
  mode : AccountSelectMode := AccountSelectBestWaitIdle
  pollingIndex : Int := 0
deriving DecidableEq, Repr

/-- The constructor `NewAccountSelector`. -/
def NewAccountSelector (mode : AccountSelectMode) : AccountSelector :=
  { mode := mode, pollingIndex := 0 }

/-- The map `map[string]*Instance`, as the entries one `range` loop visits. -/
abbrev InstanceMap := List (String × Instance)

/-- The body of the loop of `getAvailableInstances`: `true` when the instance is
appended, `false` when an iteration ends in `continue`. The three checks on
`filter.Mode`, `filter.BotType` and `filter.RemixEnabled` have empty bodies in the
source. -/
def isAvailable (filter : Option entity.AccountFilter) (inst : Instance) : Bool :=
  if !inst.IsConnected then false
  else
    let account := inst.GetAccount
    if !account.Enabled then false
    else
      match filter with
      | none => true
      | some f =>
        if f.InstanceID ≠ "" ∧ f.InstanceID ≠ inst.ID then false
        else true

/-- The method `getAvailableInstances`. -/
def getAvailableInstances (instances : InstanceMap) (filter : Option entity.AccountFilter) :
    List Instance :=
  (instances.map Prod.snd).filter (isAvailable filter)

/-- The comparator of `selectBestWaitIdle`: `instances[i].LastPing.After(instances[j].LastPing)`. -/
def bestWaitIdleLess (a b : Instance) : Bool := decide (a.LastPing > b.LastPing)

/-- The method `selectBestWaitIdle`. -/
def selectBestWaitIdle (instances : List Instance) : Option Instance :=
  if instances.length = 0 then none
  else (sortSlice bestWaitIdleLess instances).head?

/-- The method `selectRandom`. -/
def selectRandom (draw : Nat) (instances : List Instance) : Except String (Option Instance) :=
  if instances.length = 0 then .ok none
  else do
    let idx ← Intn draw instances.length
    let selected ← index instances idx
    pure (some selected)

/-- The weight a candidate counts with in `selectByWeight`: `Weight`, or 1 when
`Weight <= 0`. -/
def effectiveWeight (inst : Instance) : Int :=
  if inst.GetAccount.Weight ≤ 0 then 1 else inst.GetAccount.Weight

/-- The first loop of `selectByWeight`: the sum of the effective weights, in `int`. -/
def totalWeight (instances : List Instance) : Int :=
  instances.foldl (fun acc inst => wrapInt (acc + effectiveWeight inst)) 0

/-- The second loop of `selectByWeight`, entered with `currentWeight`: the first
candidate at which the running sum exceeds `randomWeight`, or `none` when the loop
ends without returning. -/
def weightScan (randomWeight : Int) : Int → List Instance → Option Instance
  | _, [] => none
  | currentWeight, inst :: rest =>
    let currentWeight := wrapInt (currentWeight + effectiveWeight inst)
    if currentWeight > randomWeight then some inst
    else weightScan randomWeight currentWeight rest

/-- The method `selectByWeight`. -/
def selectByWeight (draw : Nat) (instances : List Instance) : Except String (Option Instance) :=
  if instances.length = 0 then .ok none
  else
    let total := totalWeight instances
    if total = 0 then selectRandom draw instances
    else do
      let randomWeight ← Intn draw total
      match weightScan randomWeight 0 instances with
      | some inst => pure (some inst)
      | none => pure instances.head?

/-- The comparator of `selectByPolling`: by `Sort`, then by account `ID`. -/
def pollingLess (a b : Instance) : Bool :=
  if a.GetAccount.SortKey ≠ b.GetAccount.SortKey then decide (a.GetAccount.SortKey < b.GetAccount.SortKey)
  else decide (a.GetAccount.ID < b.GetAccount.ID)

/-- The method `selectByPolling`; returns the selected instance and the selector with
the advanced cursor. -/
def selectByPolling (s : AccountSelector) (instances : List Instance) :
    Except String (Option Instance × AccountSelector) :=
  if instances.length = 0 then .ok (none, s)
  else do
    let sorted := sortSlice pollingLess instances
    let selected ← index sorted (Int.tmod s.pollingIndex sorted.length)
    pure (some selected, { s with pollingIndex := wrapInt (s.pollingIndex + 1) })

/-- The method `SelectAccount`. -/
def SelectAccount (s : AccountSelector) (instances : InstanceMap)
    (filter : Option entity.AccountFilter) (draw : Nat) :
    Except String (Option Instance × AccountSelector) :=
  let availableInstances := getAvailableInstances instances filter
  if availableInstances.length = 0 then .ok (none, s)
  else if s.mode = AccountSelectBestWaitIdle then
    .ok (selectBestWaitIdle availableInstances, s)
  else if s.mode = AccountSelectRandom then
    (selectRandom draw availableInstances).map (fun r => (r, s))
  else if s.mode = AccountSelectWeight then
    (selectByWeight draw availableInstances).map (fun r => (r, s))
  else if s.mode = AccountSelectPolling then
    selectByPolling s availableInstances
  else
    .ok (selectBestWaitIdle availableInstances, s)

/-- The method `SetSelectMode`. -/
def SetSelectMode (_s : AccountSelector) (mode : AccountSelectMode) : AccountSelector :=
  { mode := mode, pollingIndex := 0 }

/-- The lookup `m[k]` of a Go map. -/
def mapGet {β : Type} (m : List (String × β)) (k : String) : Option β :=
  (m.find? (fun e => e.1 == k)).map Prod.snd

/-- The assignment `m[k] = v` of a Go map. -/
def mapSet {β : Type} (m : List (String × β)) (k : String) (v : β) : List (String × β) :=
  if m.any (fun e => e.1 == k) then m.map (fun e => if e.1 == k then (k, v) else e)
  else m ++ [(k, v)]

/-- The call `delete(m, k)` of a Go map. -/
def mapDelete {β : Type} (m : List (String × β)) (k : String) : List (String × β) :=
  m.filter (fun e => e.1 != k)

/-- The pool owner (`Manager`): the configured accounts, the instance map, the
selector, the `started` flag, and whether the channel `stopCh` has been closed. -/
structure Manager where
  accounts : List config.DiscordAccount := []
  instances : InstanceMap := []
  selector : AccountSelector := {}
  started : Bool := false
  stopChClosed : Bool := false
deriving DecidableEq, Repr

namespace Manager

/-- The method `GetAvailableInstanceWithFilter`; the manager comes back with the
selector state the call leaves. -/
def GetAvailableInstanceWithFilter (m : Manager) (filter : Option entity.AccountFilter)
    (draw : Nat) : Except String (Option Instance × Manager) :=
  (SelectAccount m.selector m.instances filter draw).map
    (fun r => (r.1, { m with selector := r.2 }))

/-- The method `GetAvailableInstance`. -/
def GetAvailableInstance (m : Manager) (draw : Nat) :
    Except String (Option Instance × Manager) :=
  m.GetAvailableInstanceWithFilter none draw

end Manager

/-- A gateway message (`DiscordMessage`); `D` is the raw payload. -/
structure DiscordMessage where
  Op : Int := 0
  D : String := ""
  S : Int := 0
  T : String := ""
deriving DecidableEq, Repr

/-- What the network does while `connectWebSocket` runs: whether the dial fails, the
first message read (`none` when `ReadJSON` fails), whether its payload fails to parse
as a `HelloPayload`, and whether writing the Identify message fails. -/
structure Handshake where
  dialErr : Bool := false
  hello : Option DiscordMessage := none
  payloadErr : Bool := false
  writeErr : Bool := false
deriving DecidableEq, Repr

/-- What `connectWebSocket` leaves: the instance, the messages written to the socket
and the error returned (`none` for nil). -/
structure ConnectResult where
  inst : Instance
  sent : List DiscordMessage
  err : Option String
deriving DecidableEq, Repr

/-- The Identify message of `connectWebSocket`: opcode 2, the payload carrying the
user token of the account (the payload text is abridged to the token). -/
def identifyMessage (inst : Instance) : DiscordMessage :=
  { Op := 2, D := inst.Account.UserToken }

/-- The method `connectWebSocket`. -/
def connectWebSocket (inst : Instance) (g : Handshake) : ConnectResult :=
  if g.dialErr then ⟨inst, [], some "failed to dial WebSocket"⟩
  else
    let inst := { inst with hasConn := true }
    match g.hello with
    | none => ⟨inst, [], some "failed to read hello message"⟩
    | some hello =>
      if hello.Op ≠ 10 then ⟨inst, [], some "expected hello message"⟩
      else if g.payloadErr then ⟨inst, [], some "failed to parse hello payload"⟩
      else if g.writeErr then ⟨inst, [], some "failed to send identify"⟩
      else ⟨inst, [identifyMessage inst], none⟩

/-- What `startInstance` leaves: the instance, the messages written to the socket, and
whether the goroutines `handleMessages` and `heartbeatLoop` have been started. -/
structure StartResult where
  inst : Instance
  sent : List DiscordMessage
  messageLoop : Bool
  heartbeatLoop : Bool
deriving DecidableEq, Repr

/-- The method `startInstance`; `now` is the reading of `time.Now()` after the
connection is made. -/
def startInstance (inst : Instance) (g : Handshake) (now : Nat) : StartResult :=
  let inst := { inst with hasCancel := true }
  let r := connectWebSocket inst g
  match r.err with
  | some _ => ⟨r.inst, r.sent, false, false⟩
  | none => ⟨{ r.inst with Connected := true, LastPing := now }, r.sent, true, true⟩

/-- The method `handleDispatch`. -/
def handleDispatch (inst : Instance) (msg : DiscordMessage) : Instance :=
  if msg.T = "READY" then { inst with Connected := true }
  else inst

/-- The Heartbeat message of `sendHeartbeat`: opcode 1 with the payload `null`. -/
def heartbeatMessage : DiscordMessage := { Op := 1, D := "null" }

/-- The method `sendHeartbeat`; `writeErr` says whether `WriteJSON` fails. Calling
`WriteJSON` on a nil socket panics. -/
def sendHeartbeat (inst : Instance) (writeErr : Bool) : Except String Instance :=
  if !inst.hasConn then .error "nil pointer dereference"
  else if writeErr then .ok { inst with Connected := false }
  else .ok inst

/-- The `switch msg.Op` of `handleMessages` on a message that has been read: the
instance it leaves and whether the loop returns. `now` is the reading of `time.Now()`
and `writeErr` says whether a write to the socket fails. -/
def handleMessage (inst : Instance) (msg : DiscordMessage) (now : Nat) (writeErr : Bool) :
    Except String (Instance × Bool) :=
  if msg.Op = 0 then .ok (handleDispatch inst msg, false)
  else if msg.Op = 1 then (sendHeartbeat inst writeErr).map (fun i => (i, false))
  else if msg.Op = 7 then .ok (inst, false)
  else if msg.Op = 9 then .ok ({ inst with Connected := false }, true)
  else if msg.Op = 11 then .ok ({ inst with LastPing := now }, false)
  else .ok (inst, false)

/-- What one pass of the loop of `handleMessages` meets: the result of `ReadJSON`
(`none` when it fails), the reading of `time.Now()` and whether a write to the socket
fails. -/
structure GatewayEvent where
  read : Option DiscordMessage := none
  now : Nat := 0
  writeErr : Bool := false
deriving DecidableEq, Repr

/-- The deferred function of `handleMessages`: the socket is closed when there is one. -/
def closeOnReturn (inst : Instance) : Instance :=
  if inst.hasConn then { inst with connClosed := true } else inst

/-- The method `handleMessages` on the events its passes meet, no other goroutine
touching the instance meanwhile: the instance it leaves and whether the loop has
returned (it has not when the events end while it waits in `ReadJSON`). -/
def handleMessages (inst : Instance) : List GatewayEvent → Except String (Instance × Bool)
  | [] => .ok (inst, false)
  | ev :: rest =>
    if inst.ctxDone then .ok (closeOnReturn inst, true)
    else if !inst.hasConn then .error "nil pointer dereference"
    else
      match ev.read with
      | none => .ok (closeOnReturn { inst with Connected := false }, true)
      | some msg =>
        match handleMessage inst msg ev.now ev.writeErr with
        | .error e => .error e
        | .ok (inst, true) => .ok (closeOnReturn inst, true)
        | .ok (inst, false) => handleMessages inst rest

namespace Instance

/-- The method `SendMessage`: the instance after the call and the error returned
(`none` for nil). -/
def SendMessage (i : Instance) (_channelID _content : String) : Instance × Option String :=
  if !i.Connected || !i.hasConn then (i, some "instance not connected")
  else (i, none)

/-- The method `SubmitImagine` of an instance: the instance after the call and the
error returned (`none` for nil). -/
def SubmitImagine (i : Instance) (_prompt : String) : Instance × Option String :=
  if !i.Connected then (i, some "instance not connected")
  else (i, none)

end Instance

/-- The method `stopInstance`. -/
def stopInstance (inst : Instance) : Instance :=
  let inst := if inst.hasCancel then { inst with ctxDone := true } else inst
  let inst := if inst.hasConn then { inst with connClosed := true } else inst
  { inst with Connected := false }

/-- The constructor `NewManager`. -/
def NewManager (accounts : List config.DiscordAccount) : Manager :=
  { accounts := accounts, instances := [],
    selector := NewAccountSelector AccountSelectBestWaitIdle, started := false,
    stopChClosed := false }

/-- The instance `Start` and `AddAccount` build for an account, `now` being the
reading of `time.Now()`. -/
def newInstance (account : config.DiscordAccount) (now : Nat) : Instance :=
  { ID := account.ID, Account := account, Connected := false, LastPing := now }

namespace Manager

/-- The method `Start`, up to its return; `now` gives the reading of `time.Now()` when
the loop reaches an account. The `startInstance` goroutines it spawns run later. The
error returned is always nil. -/
def Start (m : Manager) (now : config.DiscordAccount → Nat) : Manager :=
  if m.started then m
  else
    let instances := m.accounts.foldl
      (fun acc account =>
        if account.Enabled then mapSet acc account.ID (newInstance account (now account))
        else acc)
      m.instances
    { m with instances := instances, started := true }

/-- The method `Stop`; closing the closed channel `stopCh` panics. -/
def Stop (m : Manager) : Except String Manager :=
  if !m.started then .ok m
  else if m.stopChClosed then .error "close of closed channel"
  else
    .ok { m with stopChClosed := true,
                 instances := m.instances.map (fun e => (e.1, stopInstance e.2)),
                 started := false }

/-- The method `GetInstance`. -/
def GetInstance (m : Manager) (id : String) : Option Instance :=
  mapGet m.instances id

/-- The method `GetAllInstances`: a copy of the map. -/
def GetAllInstances (m : Manager) : InstanceMap :=
  m.instances.foldl (fun result e => mapSet result e.1 e.2) []

/-- The method `AddAccount`, up to its return. -/
def AddAccount (m : Manager) (account : config.DiscordAccount) (now : Nat) : Manager :=
  if account.Enabled then
    { m with instances := mapSet m.instances account.ID (newInstance account now) }
  else m

/-- The method `RemoveAccount`: the manager it leaves and, when the map had an entry
for `id`, the instance it stopped. The error returned is always nil. -/
def RemoveAccount (m : Manager) (id : String) : Manager × Option Instance :=
  match mapGet m.instances id with
  | some inst => ({ m with instances := mapDelete m.instances id }, some (stopInstance inst))
  | none => (m, none)

/-- The method `SetAccountSelectMode`. -/
def SetAccountSelectMode (m : Manager) (mode : AccountSelectMode) : Manager :=
  { m with selector := SetSelectMode m.selector mode }

end Manager

end discord

/-! ## Submission handlers (`handler/task.go`) -/

namespace handler

open entity discord

/-- The response body `SubmitResultVO`. -/
structure SubmitResultVO where
  Code : Int
  Message : String
  Result : String := ""
deriving DecidableEq, Repr

/-- The function `SuccessResult`. -/
def SuccessResult (taskID : String) : SubmitResultVO :=
  { Code := 1, Message := "提交成功", Result := taskID }

/-- The function `ErrorResult`. -/
def ErrorResult (code : Int) (message : String) : SubmitResultVO :=
  { Code := code, Message := message }

/-- What `c.JSON(status, body)` sends. -/
structure Response where
  status : Nat
  body : SubmitResultVO
deriving DecidableEq, Repr

/-- The table `tasks`: its rows, `ID` being the primary key. -/
abbrev DB := List Task

/-- The query `db.Where("id = ?", id).First(&task)` when it finds a row. -/
def DB.First (db : DB) (id : String) : Option Task :=
  db.find? (fun t => t.ID == id)

/-- A successful `db.Create(task)`. -/
def DB.Create (db : DB) (task : Task) : DB := db ++ [task]

/-- The call `db.Save(task)`: update the row with the primary key of `task`, insert it
when there is none. -/
def DB.Save (db : DB) (task : Task) : DB :=
  if db.any (fun t => t.ID == task.ID) then
    db.map (fun t => if t.ID == task.ID then task else t)
  else db ++ [task]

/-- The handler `TaskHandler`: the storage handle and the pool. -/
structure TaskHandler where
  db : DB := []
  discordManager : Manager := {}
deriving DecidableEq, Repr

/-- What one request reads from its environment: the `user_id` of the gin context,
the client IP, the fresh `uuid`, the clock at the time `SubmitTime` is stamped
(`now`) and inside the task method called afterwards (`methodNow`), whether the
parent query fails with an error other than "record not found" (`queryErr`), whether
`db.Create` fails (`createErr`), and the random draw. -/
structure Context where
  userID : Option String := none
  ClientIP : String := ""
  uuid : String := ""
  now : Nat := 0
  methodNow : Nat := 0
  queryErr : Bool := false
  createErr : Bool := false
  draw : Nat := 0
deriving DecidableEq, Repr

/-- What a handler call leaves: the handler state, the task snapshots it passed to
`db.Create` and `db.Save`, in order, and the response sent (`Except.error` when the
call panicked). -/
structure Outcome where
  h : TaskHandler
  writes : List Task
  resp : Except String Response

/-- The request body `SubmitImagineRequest`. -/
structure SubmitImagineRequest where
  Prompt : String := ""
  Base64Array : List String := []
  BotType : String := ""
  State : String := ""
  NotifyHook : String := ""
  AccountFilter : Option entity.AccountFilter := none
  Mode : GenerationSpeedMode := ""
deriving DecidableEq, Repr

/-- The request body `SubmitChangeRequest`; `Index` is a pointer, `none` when nil. -/
structure SubmitChangeRequest where
  TaskID : String := ""
  Action : TaskAction := ""
  Index : Option Int := none
  State : String := ""
  NotifyHook : String := ""
  AccountFilter : Option entity.AccountFilter := none
deriving DecidableEq, Repr

/-- The handler `SubmitImagine`, up to the response; `body` is the result of
`c.ShouldBindJSON(&req)`. The goroutine it spawns is `SubmitImagineAsync`. -/
def SubmitImagine (h : TaskHandler) (c : Context) (body : Except String SubmitImagineRequest) :
    Outcome :=
  match body with
  | .error err => ⟨h, [], .ok ⟨400, ErrorResult 40000 ("参数错误: " ++ err)⟩⟩
  | .ok req =>
    let userID := c.userID.getD "guest"
    let clientIP := c.ClientIP
    let task : Task :=
      { ID := c.uuid, UserID := userID, BotType := BotTypeMidjourney,
        Action := TaskActionImagine, Status := TaskStatus.NotStart, Prompt := req.Prompt,
        Description := "/imagine " ++ req.Prompt, State := req.State, ClientIP := clientIP,
        Mode := req.Mode, AccountFilter := req.AccountFilter }
    let task := if req.BotType = "NIJI_JOURNEY" then { task with BotType := BotTypeNijijourney }
      else task
    let task := { task with SubmitTime := some c.now }
    if c.createErr then ⟨h, [], .ok ⟨500, ErrorResult 50000 "创建任务失败"⟩⟩
    else
      let db := h.db.Create task
      match h.discordManager.GetAvailableInstance c.draw with
      | .error e => ⟨{ h with db := db }, [task], .error e⟩
      | .ok (none, m) =>
        let failed := task.Fail "没有可用的Discord实例" c.methodNow
        ⟨{ db := db.Save failed, discordManager := m }, [task, failed],
          .ok ⟨503, ErrorResult 50300 "没有可用的Discord实例"⟩⟩
      | .ok (some inst, m) =>
        let started := task.Start c.methodNow
        let started := { started with InstanceID := inst.ID }
        ⟨{ db := db.Save started, discordManager := m }, [task, started],
          .ok ⟨200, SuccessResult started.ID⟩⟩

/-- The goroutine of `SubmitImagine`, run on the task it started: the simulated
completion. -/
def SubmitImagineAsync (h : TaskHandler) (task : Task) (now : Nat) : TaskHandler × Task :=
  let task := task.Success now
  let task := { task with ImageURL := "https://example.com/image.jpg" }
  ({ h with db := h.db.Save task }, task)

/-- The handler `SubmitChange`. -/
def SubmitChange (h : TaskHandler) (c : Context) (body : Except String SubmitChangeRequest) :
    Outcome :=
  match body with
  | .error err => ⟨h, [], .ok ⟨400, ErrorResult 40000 ("参数错误: " ++ err)⟩⟩
  | .ok req =>
    if c.queryErr then ⟨h, [], .ok ⟨500, ErrorResult 50000 "查询任务失败"⟩⟩
    else
      match h.db.First req.TaskID with
      | none => ⟨h, [], .ok ⟨404, ErrorResult 40400 "关联任务不存在"⟩⟩
      | some parentTask =>
        if parentTask.Status ≠ TaskStatus.Success then
          ⟨h, [], .ok ⟨400, ErrorResult 40000 "关联任务状态错误"⟩⟩
        else
          let userID := c.userID.getD "guest"
          let task : Task :=
            { ID := c.uuid, ParentID := parentTask.ID, UserID := userID,
              BotType := parentTask.BotType, RealBotType := parentTask.RealBotType,
              Action := req.Action, Status := TaskStatus.NotStart,
              Prompt := parentTask.Prompt, PromptEn := parentTask.PromptEn,
              State := req.State, ClientIP := c.ClientIP,
              InstanceID := parentTask.InstanceID }
          let described : Except String Task :=
            if req.Action = TaskActionUpscale then
              match req.Index with
              | none => .error "nil pointer dereference"
              | some i => .ok { task with Description := "/up " ++ req.TaskID ++ " U" ++ toString i }
            else if req.Action = TaskActionVariation then
              match req.Index with
              | none => .error "nil pointer dereference"
              | some i => .ok { task with Description := "/up " ++ req.TaskID ++ " V" ++ toString i }
            else if req.Action = TaskActionReroll then
              .ok { task with Description := "/up " ++ req.TaskID ++ " R" }
            else .ok task
          match described with
          | .error e => ⟨h, [], .error e⟩
          | .ok task =>
            let task := { task with SubmitTime := some c.now }
            if c.createErr then ⟨h, [], .ok ⟨500, ErrorResult 50000 "创建任务失败"⟩⟩
            else
              let db := h.db.Create task
              let started := task.Start c.methodNow
              ⟨{ h with db := db.Save started }, [task, started],
                .ok ⟨200, SuccessResult started.ID⟩⟩

/-- The request body of `SubmitBlend`. -/
structure SubmitBlendRequest where
  Base64Array : List String := []
  Dimensions : String := ""
  State : String := ""
  NotifyHook : String := ""
  AccountFilter : Option entity.AccountFilter := none
deriving DecidableEq, Repr

/-- The handler `SubmitBlend`. -/
def SubmitBlend (h : TaskHandler) (c : Context) (body : Except String SubmitBlendRequest) :
    Outcome :=
  match body with
  | .error err => ⟨h, [], .ok ⟨400, ErrorResult 40000 ("参数错误: " ++ err)⟩⟩
  | .ok req =>
    let userID := c.userID.getD "guest"
    let task : Task :=
      { ID := c.uuid, UserID := userID, BotType := BotTypeMidjourney,
        Action := TaskActionBlend, Status := TaskStatus.NotStart, Description := "/blend",
        State := req.State, ClientIP := c.ClientIP, AccountFilter := req.AccountFilter }
    let task := { task with SubmitTime := some c.now }
    if c.createErr then ⟨h, [], .ok ⟨500, ErrorResult 50000 "创建任务失败"⟩⟩
    else
      let db := h.db.Create task
      let started := task.Start c.methodNow
      ⟨{ h with db := db.Save started }, [task, started], .ok ⟨200, SuccessResult started.ID⟩⟩

/-- The request body of `SubmitShorten`. -/
structure SubmitShortenRequest where
  Prompt : String := ""
  State : String := ""
  NotifyHook : String := ""
  AccountFilter : Option entity.AccountFilter := none
deriving DecidableEq, Repr

/-- The handler `SubmitShorten`. -/
def SubmitShorten (h : TaskHandler) (c : Context) (body : Except String SubmitShortenRequest) :
    Outcome :=
  match body with
  | .error err => ⟨h, [], .ok ⟨400, ErrorResult 40000 ("参数错误: " ++ err)⟩⟩
  | .ok req =>
    let userID := c.userID.getD "guest"
    let task : Task :=
      { ID := c.uuid, UserID := userID, BotType := BotTypeMidjourney,
        Action := TaskActionShorten, Status := TaskStatus.NotStart, Prompt := req.Prompt,
        Description := "/shorten " ++ req.Prompt, State := req.State, ClientIP := c.ClientIP,
        AccountFilter := req.AccountFilter }
    let task := { task with SubmitTime := some c.now }
    if c.createErr then ⟨h, [], .ok ⟨500, ErrorResult 50000 "创建任务失败"⟩⟩
    else
      let db := h.db.Create task
      let started := task.Start c.methodNow
      ⟨{ h with db := db.Save started }, [task, started], .ok ⟨200, SuccessResult started.ID⟩⟩

/-- The request body of `SubmitShow`. -/
structure SubmitShowRequest where
  TaskID : String := ""
  State : String := ""
  NotifyHook : String := ""
  AccountFilter : Option entity.AccountFilter := none
deriving DecidableEq, Repr

/-- The handler `SubmitShow`. -/
def SubmitShow (h : TaskHandler) (c : Context) (body : Except String SubmitShowRequest) :
    Outcome :=
  match body with
  | .error err => ⟨h, [], .ok ⟨400, ErrorResult 40000 ("参数错误: " ++ err)⟩⟩
  | .ok req =>
    if c.queryErr then ⟨h, [], .ok ⟨500, ErrorResult 50000 "查询任务失败"⟩⟩
    else
      match h.db.First req.TaskID with
      | none => ⟨h, [], .ok ⟨404, ErrorResult 40400 "关联任务不存在"⟩⟩
      | some parentTask =>
        let userID := c.userID.getD "guest"
        let task : Task :=
          { ID := c.uuid, ParentID := parentTask.ID, UserID := userID,
            BotType := parentTask.BotType, Action := TaskActionShow,
            Status := TaskStatus.NotStart, Description := "/show " ++ req.TaskID,
            State := req.State, ClientIP := c.ClientIP, AccountFilter := req.AccountFilter,
            InstanceID := parentTask.InstanceID }
        let task := { task with SubmitTime := some c.now }
        if c.createErr then ⟨h, [], .ok ⟨500, ErrorResult 50000 "创建任务失败"⟩⟩
        else
          let db := h.db.Create task
          let started := task.Start c.methodNow
          ⟨{ h with db := db.Save started }, [task, started],
            .ok ⟨200, SuccessResult started.ID⟩⟩

/-- The request body of `SubmitAction`. -/
structure SubmitActionRequest where
  TaskID : String := ""
  CustomID : String := ""
  State : String := ""
  NotifyHook : String := ""
deriving DecidableEq, Repr

/-- The handler `SubmitAction`. -/
def SubmitAction (h : TaskHandler) (c : Context) (body : Except String SubmitActionRequest) :
    Outcome :=
  match body with
  | .error err => ⟨h, [], .ok ⟨400, ErrorResult 40000 ("参数错误: " ++ err)⟩⟩
  | .ok req =>
    if c.queryErr then ⟨h, [], .ok ⟨500, ErrorResult 50000 "查询任务失败"⟩⟩
    else
      match h.db.First req.TaskID with
      | none => ⟨h, [], .ok ⟨404, ErrorResult 40400 "关联任务不存在"⟩⟩
      | some parentTask =>
        let userID := c.userID.getD "guest"
        let task : Task :=
          { ID := c.uuid, ParentID := parentTask.ID, UserID := userID,
            BotType := parentTask.BotType, Action := TaskActionAction,
            Status := TaskStatus.NotStart, Description := "/action " ++ req.CustomID,
            State := req.State, ClientIP := c.ClientIP, InstanceID := parentTask.InstanceID }
        let task := { task with SubmitTime := some c.now }
        if c.createErr then ⟨h, [], .ok ⟨500, ErrorResult 50000 "创建任务失败"⟩⟩
        else
          let db := h.db.Create task
          let started := task.Start c.methodNow
          ⟨{ h with db := db.Save started }, [task, started],
            .ok ⟨200, SuccessResult started.ID⟩⟩

/-- The request body of `SubmitModal`. -/
structure SubmitModalRequest where
  TaskID : String := ""
  Prompt : String := ""
  MaskBase64 : String := ""
  State : String := ""
  NotifyHook : String := ""
deriving DecidableEq, Repr

/-- The handler `SubmitModal`. -/
def SubmitModal (h : TaskHandler) (c : Context) (body : Except String SubmitModalRequest) :
    Outcome :=
  match body with
  | .error err => ⟨h, [], .ok ⟨400, ErrorResult 40000 ("参数错误: " ++ err)⟩⟩
  | .ok req =>
    if c.queryErr then ⟨h, [], .ok ⟨500, ErrorResult 50000 "查询任务失败"⟩⟩
    else
      match h.db.First req.TaskID with
      | none => ⟨h, [], .ok ⟨404, ErrorResult 40400 "关联任务不存在"⟩⟩
      | some parentTask =>
        let userID := c.userID.getD "guest"
        let task : Task :=
          { ID := c.uuid, ParentID := parentTask.ID, UserID := userID,
            BotType := parentTask.BotType, Action := TaskActionModal,
            Status := TaskStatus.NotStart, Prompt := req.Prompt,
            Description := "/modal " ++ req.Prompt, State := req.State,
            ClientIP := c.ClientIP, InstanceID := parentTask.InstanceID }
        let task := { task with SubmitTime := some c.now }
        if c.createErr then ⟨h, [], .ok ⟨500, ErrorResult 50000 "创建任务失败"⟩⟩
        else
          let db := h.db.Create task
          let started := task.Start c.methodNow
          ⟨{ h with db := db.Save started }, [task, started],
            .ok ⟨200, SuccessResult started.ID⟩⟩

/-- The request body of `UploadDiscordImages`. -/
structure UploadDiscordImagesRequest where
  Content : String := ""
deriving DecidableEq, Repr

/-- The handler `UploadDiscordImages`. -/
def UploadDiscordImages (h : TaskHandler) (c : Context)
    (body : Except String UploadDiscordImagesRequest) : Outcome :=
  match body with
  | .error err => ⟨h, [], .ok ⟨400, ErrorResult 40000 ("参数错误: " ++ err)⟩⟩
  | .ok _req =>
    let userID := c.userID.getD "guest"
    match h.discordManager.GetAvailableInstance c.draw with
    | .error e => ⟨h, [], .error e⟩
    | .ok (none, m) =>
      ⟨{ h with discordManager := m }, [], .ok ⟨503, ErrorResult 50300 "没有可用的Discord实例"⟩⟩
    | .ok (some inst, m) =>
      let task : Task :=
        { ID := c.uuid, UserID := userID, BotType := BotTypeMidjourney, Action := "UPLOAD",
          Status := TaskStatus.NotStart, Description := "Upload images to Discord",
          ClientIP := c.ClientIP, InstanceID := inst.ID }
      let task := { task with SubmitTime := some c.now }
      if c.createErr then
        ⟨{ h with discordManager := m }, [], .ok ⟨500, ErrorResult 50000 "创建上传任务失败"⟩⟩
      else
        let db := h.db.Create task
        let started := task.Start c.methodNow
        ⟨{ db := db.Save started, discordManager := m }, [task, started],
          .ok ⟨200, SuccessResult started.ID⟩⟩

/-- The defaulting of `DayDrawLimit` in `AccountHandler.Create` (`handler/account.go`):
`if account.DayDrawLimit == 0 { account.DayDrawLimit = -1 }`. -/
def defaultDayDrawLimit (account : entity.DiscordAccount) : entity.DiscordAccount :=
  if account.DayDrawLimit = 0 then { account with DayDrawLimit := -1 } else account

end handler

end MjProxy


/-! ## Call sequences on a task and runs of submissions -/

namespace MjProxy

open entity discord handler

/-- The rank a status has in the lifecycle
`NOT_START < SUBMITTED < IN_PROGRESS < SUCCESS, FAILURE, CANCEL`. -/
def statusRank : TaskStatus → Nat
  | TaskStatus.NotStart => 0
  | TaskStatus.Submitted => 1
  | TaskStatus.InProgress => 2
  | TaskStatus.Failure => 3
  | TaskStatus.Success => 3
  | TaskStatus.Cancel => 3

/-- One call of a status-changing method of `Task`. -/
inductive TaskCall where
  | Start
  | Success
  | Fail (reason : String)
  | Cancel
deriving DecidableEq, Repr

/-- The task after the call, made when the clock reads `now`. -/
def TaskCall.apply (call : TaskCall) (t : Task) (now : Nat) : Task :=
  match call with
  | TaskCall.Start => t.Start now
  | TaskCall.Success => t.Success now
  | TaskCall.Fail reason => t.Fail reason now
  | TaskCall.Cancel => t.Cancel now

/-- The statuses observed on a task over a sequence of calls: the status it has, then
the status after each call. -/
def observedStatuses (t : Task) : List (TaskCall × Nat) → List TaskStatus
  | [] => [t.Status]
  | (call, now) :: rest => t.Status :: observedStatuses (call.apply t now) rest

/-- Whether every `Start` of the sequence is called while the task is in `NOT_START`
or `SUBMITTED`. -/
def startsOnlyBeforeProgress (t : Task) : List (TaskCall × Nat) → Bool
  | [] => true
  | (call, now) :: rest =>
    (call != TaskCall.Start || t.Status == TaskStatus.NotStart
        || t.Status == TaskStatus.Submitted)
      && startsOnlyBeforeProgress (call.apply t now) rest

/-- The task record `SubmitImagine` builds for a bound request, as it is passed to
`db.Create`. -/
def newImagineTask (c : Context) (req : SubmitImagineRequest) : Task :=
  { ID := c.uuid, UserID := c.userID.getD "guest",
    BotType := if req.BotType = "NIJI_JOURNEY" then BotTypeNijijourney else BotTypeMidjourney,
    Action := TaskActionImagine, Status := TaskStatus.NotStart, Prompt := req.Prompt,
    Description := "/imagine " ++ req.Prompt, State := req.State, ClientIP := c.ClientIP,
    Mode := req.Mode, AccountFilter := req.AccountFilter, SubmitTime := some c.now }

/-- The outcome of a submission made with context `c` is a dispatch to the pool
`instances`: the success result carrying the task ID is sent, and the task is written
first as created in `NOT_START`, then in `SUBMITTED` with the ID of a worker of the pool
as its `InstanceID`. -/
def DispatchedTo (instances : InstanceMap) (c : Context) (o : Outcome) : Prop :=
  o.resp = .ok ⟨200, SuccessResult c.uuid⟩ ∧
    ∃ (created started : Task) (w : Instance),
      o.writes = [created, started] ∧ created.Status = TaskStatus.NotStart ∧
      started.Status = TaskStatus.Submitted ∧ started.ID = c.uuid ∧
      (∃ k, (k, w) ∈ instances) ∧ started.InstanceID = w.ID

/-- A run of consecutive `SelectAccount` calls with one filter: each call comes with the
order in which its `range` loop visits the map and with its random draw; the run yields
the instances returned, in order, and the selector it leaves, or the panic of the first
call that panics. -/
def selectRun (s : AccountSelector) (filter : Option AccountFilter) :
    List (InstanceMap × Nat) → Except String (List (Option Instance) × AccountSelector)
  | [] => .ok ([], s)
  | (instances, draw) :: rest =>
    match SelectAccount s instances filter draw with
    | .error e => .error e
    | .ok (r, s') =>
      match selectRun s' filter rest with
      | .error e => .error e
      | .ok (rs, s'') => .ok (r :: rs, s'')

/-- Whether `selectByWeight` returns the candidate `x` when the random source yields
`draw`. -/
def returnsCandidate (draw : Nat) (l : List Instance) (x : Instance) : Bool :=
  match selectByWeight draw l with
  | .ok (some y) => y == x
  | _ => false

/-- The sum of the effective weights of a candidate list, as a number (not wrapped). -/
def weightSum (l : List Instance) : Int := (l.map effectiveWeight).sum

/-- The sum of the effective weights of the candidates that come before `x` in the
list. -/
def weightBefore (x : Instance) : List Instance → Int
  | [] => 0
  | y :: ys => if y = x then 0 else effectiveWeight y + weightBefore x ys

/-- One call of `Start` (with the clock readings it takes) or of `Stop` on a manager. -/
inductive ManagerCall where
  | Start (now : config.DiscordAccount → Nat)
  | Stop

/-- A finite sequence of `Start` and `Stop` calls on a manager: the manager it leaves,
or the panic of the first call that panics. -/
def runManagerCalls (m : Manager) : List ManagerCall → Except String Manager
  | [] => .ok m
  | ManagerCall.Start now :: rest => runManagerCalls (m.Start now) rest
  | ManagerCall.Stop :: rest =>
    match m.Stop with
    | .error e => .error e
    | .ok m' => runManagerCalls m' rest

/-- A run of consecutive `SelectAccount` calls in which every call has its own pool (in
the order its `range` loop visits the map), its own filter and its own random draw: the
instances returned, in order, and the selector the run leaves, or the panic of the first
call that panics. -/
def selectCalls (s : AccountSelector) :
    List (InstanceMap × Option AccountFilter × Nat) →
      Except String (List (Option Instance) × AccountSelector)
  | [] => .ok ([], s)
  | (instances, filter, draw) :: rest =>
    match SelectAccount s instances filter draw with
    | .error e => .error e
    | .ok (r, s') =>
      match selectCalls s' rest with
      | .error e => .error e
      | .ok (rs, s'') => .ok (r :: rs, s'')

/-- The button asked of a child whose `custom_id` is a string: it carries the child's
type, style and label and that string. -/
def stringButton (detail : ComponentDetail) : Option CustomComponent :=
  match detail.CustomID with
  | some (.string s) =>
    some { Kind := detail.Kind, Style := detail.Style, Label := detail.Label, CustomID := s }
  | _ => none

/-- Whether the `custom_id` of a child is neither nil nor a string. -/
def nonStringID (detail : ComponentDetail) : Bool :=
  match detail.CustomID with
  | some (.string _) => false
  | some _ => true
  | none => false

/-- The buttons asked of `GetMJButtons` and `GetNijiButtons`: for each component of `Type`
1, in order, one button for each child whose `custom_id` is a string. -/
def stringButtons (comps : List Component) : List CustomComponent :=
  (comps.filter (fun comp => comp.Kind = 1)).flatMap (fun comp =>
    comp.Components.filterMap stringButton)

/-- Whether some child of a component of `Type` 1 has a `custom_id` that is neither nil
nor a string. -/
def hasNonStringID (comps : List Component) : Bool :=
  comps.any (fun comp => comp.Kind = 1 && comp.Components.any nonStringID)

end MjProxy

/-! ## Sample inputs used to evaluate the code -/

namespace MjProxy

open discord

/-- A connected worker with an enabled account. -/
def readyWorker (id : String) (lastPing : Nat) (weight : Int) : Instance :=
  { ID := id, Account := { ID := id, Enabled := true, CoreSize := 1, Weight := weight },
    Connected := true, LastPing := lastPing, hasConn := true }

/-- A pool of three connected, enabled workers with `CoreSize = 1`. -/
def threeWorkerPool : InstanceMap :=
  [("w1", readyWorker "w1" 10 1), ("w2", readyWorker "w2" 20 1), ("w3", readyWorker "w3" 30 1)]

/-- Two connected, enabled workers whose weights are `2^62` each. -/
def heavyWeightPool : InstanceMap :=
  [("w1", readyWorker "w1" 10 (2 ^ 62)), ("w2", readyWorker "w2" 20 (2 ^ 62))]

/-- The stored account record of worker `w1`: enabled, unlocked, with a daily limit of 5
draws and 5 draws made. -/
def exhaustedAccount : entity.DiscordAccount :=
  { ID := "w1", Enabled := true, Lock := false, CoreSize := 1, DayDrawLimit := 5,
    DayDrawCount := 5 }

/-- The worker `w1` of the pool: connected, enabled, configured with a daily limit of 5. -/
def quotaWorker : Instance :=
  { ID := "w1", Account := { ID := "w1", Enabled := true, CoreSize := 1, DayDrawLimit := 5 },
    Connected := true, LastPing := 10, hasConn := true }

/-- A connected, enabled worker whose account runs in `RELAX` mode, does not serve the
Niji bot and has the remix switch off. -/
def relaxOnlyWorker : Instance :=
  { ID := "w1",
    Account := { ID := "w1", Enabled := true, EnableMJ := true, EnableNiji := false,
                 CoreSize := 1, RemixAutoSubmit := false, Mode := "RELAX" },
    Connected := true, LastPing := 10, hasConn := true }

/-- A filter asking for `FAST` mode, the Niji bot and remix enabled. -/
def fastNijiRemixFilter : entity.AccountFilter :=
  { Mode := entity.SpeedModeFast, BotType := entity.BotTypeNijijourney, RemixEnabled := true }

/-- A task that has succeeded. -/
def succeededTask : entity.Task :=
  { ID := "t0", UserID := "guest", BotType := entity.BotTypeMidjourney, InstanceID := "w1",
    Action := entity.TaskActionImagine, Status := entity.TaskStatus.Success,
    Prompt := "a cat", Description := "/imagine a cat", SubmitTime := some 1,
    StartTime := some 2, FinishTime := some 5, ImageURL := "https://example.com/image.jpg",
    Progress := "100%" }

/-- A handler over an empty table and the pool of three workers, the selector being in
its initial `BestWaitIdle` mode. -/
def threeWorkerHandler : handler.TaskHandler :=
  { db := [], discordManager := { instances := threeWorkerPool } }

/-- The context of the `n`-th request of a run. -/
def requestContext (id : String) (n : Nat) : handler.Context :=
  { ClientIP := "10.0.0.1", uuid := id, now := 10 * n, methodNow := 10 * n + 1 }

/-- An imagine request without a filter. -/
def catRequest : handler.SubmitImagineRequest := { Prompt := "a cat" }

/-- The handler after three imagine submissions, none of which has completed. -/
def threeInFlight : handler.TaskHandler :=
  (handler.SubmitImagine
    (handler.SubmitImagine
      (handler.SubmitImagine threeWorkerHandler (requestContext "t1" 1) (.ok catRequest)).h
      (requestContext "t2" 2) (.ok catRequest)).h
    (requestContext "t3" 3) (.ok catRequest)).h

/-- A table holding one task that is submitted and not finished. -/
def pendingParentDB : handler.DB :=
  [{ ID := "p1", UserID := "guest", BotType := entity.BotTypeMidjourney, InstanceID := "w1",
     Action := entity.TaskActionImagine, Status := entity.TaskStatus.Submitted,
     Prompt := "a cat", Description := "/imagine a cat", SubmitTime := some 1,
     StartTime := some 2, Progress := "0%" }]

/-- A connected, enabled worker with an explicit sort key. -/
def sortedWorker (id : String) (sortKey : Int) : Instance :=
  { ID := id, Account := { ID := id, Enabled := true, CoreSize := 1, SortKey := sortKey },
    Connected := true, LastPing := 10, hasConn := true }

/-- A pool of three workers, supplied in the order `w3`, `w1`, `w2`, whose sort keys
order them as `w1`, `w3`, `w2`. -/
def sortedKeyPool : InstanceMap :=
  [("w3", sortedWorker "w3" 2), ("w1", sortedWorker "w1" 1), ("w2", sortedWorker "w2" 3)]

/-- Three candidates with weights `2^63 - 1`, `2^63 - 1` and 3, whose sum `2^64 + 1` wraps
to 1. -/
def wrappingWeights : List Instance :=
  [readyWorker "w1" 10 9223372036854775807, readyWorker "w2" 20 9223372036854775807,
    readyWorker "w3" 30 3]

/-- Two candidates with weights 1 and 3. -/
def oneThreeWeights : List Instance := [readyWorker "w1" 10 1, readyWorker "w2" 20 3]

/-- A handshake that succeeds: the dial works, the first message is a Hello (opcode 10)
whose payload parses, and the Identify message is written. -/
def goodHandshake : Handshake :=
  { dialErr := false, hello := some { Op := 10, D := "heartbeat_interval: 41250" },
    payloadErr := false, writeErr := false }

/-- Three configured accounts: `a1` and `a3` enabled, `a2` disabled. -/
def sampleAccounts : List config.DiscordAccount :=
  [{ ID := "a1", Enabled := true, UserToken := "tok1" }, { ID := "a2", Enabled := false },
   { ID := "a3", Enabled := true, UserToken := "tok3" }]

/-- A clock that reads 100 at every account. -/
def sampleClock : config.DiscordAccount → Nat := fun _ => 100

/-- One action row whose two children have the `custom_id` values `"MJ::JOB::upsample::1"`
(a string) and `7` (a JSON number). -/
def numericIDComponents : List entity.Component :=
  [{ Kind := 1,
     Components := [{ Kind := 2, CustomID := some (.string "MJ::JOB::upsample::1"), Style := 2,
                      Label := "U1" },
                    { Kind := 2, CustomID := some (.float64 "7"), Style := 2, Label := "U2" }] }]

/-- A select-menu row (type 3), and an action row whose children have a string
`custom_id`, none, and a string `custom_id`. -/
def stringIDComponents : List entity.Component :=
  [{ Kind := 3, Components := [{ Kind := 3, CustomID := some (.string "menu") }] },
   { Kind := 1,
     Components := [{ Kind := 2, CustomID := some (.string "MJ::JOB::upsample::1"), Style := 2,
                      Label := "U1" },
                    { Kind := 2, Style := 5, Label := "Web" },
                    { Kind := 2, CustomID := some (.string "MJ::JOB::reroll::0"), Style := 2,
                      Label := "R" }] }]

/-- Three `Polling` calls over the pool of three sorted workers; the filter of the second
call pins an ID that no worker has. -/
def pollingCallsWithMiss : List (InstanceMap × Option entity.AccountFilter × Nat) :=
  [(sortedKeyPool, none, 0), (sortedKeyPool, some { InstanceID := "w9" }, 0),
   (sortedKeyPool, none, 0)]

end MjProxy

namespace MjProxy

open discord handler

/-! ## Properties of the runtime primitives -/

theorem mem_orderedInsertLess {α : Type} (less : α → α → Bool) (x y : α) (l : List α) :
    y ∈ orderedInsertLess less x l ↔ y = x ∨ y ∈ l := by
  induction l with
  | nil => simp [orderedInsertLess]
  | cons z zs ih =>
    unfold orderedInsertLess
    split
    · simp
    · simp [ih]; tauto

theorem mem_foldl_orderedInsertLess {α : Type} (less : α → α → Bool) (y : α) (l acc : List α) :
    y ∈ l.foldl (fun acc x => orderedInsertLess less x acc) acc ↔ y ∈ acc ∨ y ∈ l := by
  induction l generalizing acc with
  | nil => simp
  | cons z zs ih => simp [ih, mem_orderedInsertLess]; tauto

theorem mem_sortSlice {α : Type} (less : α → α → Bool) (y : α) (l : List α) :
    y ∈ sortSlice less l ↔ y ∈ l := by
  simp [sortSlice, mem_foldl_orderedInsertLess]

theorem sortSlice_ne_nil {α : Type} (less : α → α → Bool) (l : List α) (h : l ≠ []) :
    sortSlice less l ≠ [] := by
  obtain ⟨x, hx⟩ := List.exists_mem_of_ne_nil l h
  exact List.ne_nil_of_mem ((mem_sortSlice less x l).2 hx)

theorem index_mem {α : Type} (xs : List α) (i : Int) (x : α) (h : index xs i = .ok x) :
    x ∈ xs := by
  unfold index at h
  split at h
  · cases h
  · split at h
    · rename_i y hy
      cases h
      exact List.getElem?_mem hy
    · cases h

theorem index_ok_of_lt {α : Type} (xs : List α) (i : Int) (h0 : 0 ≤ i) (h1 : i < xs.length) :
    ∃ x, index xs i = .ok x := by
  unfold index
  have hlt : i.toNat < xs.length := by omega
  rw [if_neg (by omega)]
  rw [List.getElem?_eq_getElem hlt]
  exact ⟨_, rfl⟩

theorem Intn_ok_of_pos (draw : Nat) (n : Int) (h : 0 < n) :
    ∃ r, Intn draw n = .ok r ∧ 0 ≤ r ∧ r < n := by
  refine ⟨(draw : Int) % n, ?_, Int.emod_nonneg _ (by omega), Int.emod_lt_of_pos _ h⟩
  simp [Intn, not_le.mpr h]

theorem Intn_bounds (draw : Nat) (n r : Int) (h : Intn draw n = .ok r) : 0 ≤ r ∧ r < n := by
  unfold Intn at h
  split at h
  · cases h
  · cases h
    rename_i hn
    exact ⟨Int.emod_nonneg _ (by omega), Int.emod_lt_of_pos _ (by omega)⟩

/-! ## The selector: what a returned worker satisfies -/

theorem isAvailable_iff (filter : Option entity.AccountFilter) (inst : Instance) :
    isAvailable filter inst = true ↔
      inst.Connected = true ∧ inst.Account.Enabled = true ∧
        ∀ f, filter = some f → f.InstanceID = "" ∨ f.InstanceID = inst.ID := by
  unfold isAvailable Instance.IsConnected Instance.GetAccount
  cases hc : inst.Connected <;> cases he : inst.Account.Enabled <;> cases filter <;>
    simp [hc, he]

theorem mem_getAvailableInstances (instances : InstanceMap)
    (filter : Option entity.AccountFilter) (inst : Instance) :
    inst ∈ getAvailableInstances instances filter ↔
      (∃ k, (k, inst) ∈ instances) ∧ isAvailable filter inst = true := by
  simp [getAvailableInstances]

theorem selectBestWaitIdle_mem (l : List Instance) (x : Instance)
    (h : selectBestWaitIdle l = some x) : x ∈ l := by
  unfold selectBestWaitIdle at h
  split at h
  · cases h
  · exact (mem_sortSlice _ x l).1 (List.mem_of_mem_head? h)

theorem selectRandom_mem (draw : Nat) (l : List Instance) (x : Instance)
    (h : selectRandom draw l = .ok (some x)) : x ∈ l := by
  unfold selectRandom at h
  split at h
  · cases h
  · cases hI : Intn draw l.length with
    | error e => simp [hI, bind, Except.bind] at h
    | ok idx =>
      cases hx : index l idx with
      | error e => simp [hI, hx, bind, Except.bind] at h
      | ok y =>
        simp [hI, hx, bind, Except.bind, pure, Except.pure] at h
        subst h
        exact index_mem l idx y hx

theorem weightScan_mem (r : Int) (l : List Instance) (cur : Int) (x : Instance)
    (h : weightScan r cur l = some x) : x ∈ l := by
  induction l generalizing cur with
  | nil => simp [weightScan] at h
  | cons y ys ih =>
    simp only [weightScan] at h
    split at h
    · cases h; simp
    · exact List.mem_cons_of_mem _ (ih _ h)

theorem selectByWeight_mem (draw : Nat) (l : List Instance) (x : Instance)
    (h : selectByWeight draw l = .ok (some x)) : x ∈ l := by
  unfold selectByWeight at h
  split at h
  · cases h
  · simp only at h
    split at h
    · exact selectRandom_mem draw l x h
    · cases hI : Intn draw (totalWeight l) with
      | error e => simp [hI, bind, Except.bind] at h
      | ok r =>
        simp only [hI, bind, Except.bind] at h
        split at h
        · rename_i y hy
          simp [pure, Except.pure] at h
          subst h
          exact weightScan_mem _ _ _ _ hy
        · simp [pure, Except.pure] at h
          exact List.mem_of_mem_head? h

theorem selectByPolling_mem (s s' : AccountSelector) (l : List Instance) (x : Instance)
    (h : selectByPolling s l = .ok (some x, s')) : x ∈ l := by
  unfold selectByPolling at h
  split at h
  · cases h
  · simp only at h
    cases hx : index (sortSlice pollingLess l)
        (Int.tmod s.pollingIndex (sortSlice pollingLess l).length) with
    | error e => simp [hx, bind, Except.bind] at h
    | ok y =>
      simp [hx, bind, Except.bind, pure, Except.pure] at h
      obtain ⟨h1, _⟩ := h
      subst h1
      exact (mem_sortSlice _ _ _).1 (index_mem _ _ _ hx)

theorem SelectAccount_mem_available (s s' : AccountSelector) (instances : InstanceMap)
    (filter : Option entity.AccountFilter) (draw : Nat) (x : Instance)
    (h : SelectAccount s instances filter draw = .ok (some x, s')) :
    x ∈ getAvailableInstances instances filter := by
  unfold SelectAccount at h
  simp only at h
  split at h
  · cases h
  split at h
  · simp only [Except.ok.injEq, Prod.mk.injEq] at h
    exact selectBestWaitIdle_mem _ _ h.1
  split at h
  · cases hr : selectRandom draw (getAvailableInstances instances filter) with
    | error e => simp [hr, Except.map] at h
    | ok r =>
      simp only [hr, Except.map, Except.ok.injEq, Prod.mk.injEq] at h
      exact selectRandom_mem draw _ x (by rw [hr, h.1])
  split at h
  · cases hr : selectByWeight draw (getAvailableInstances instances filter) with
    | error e => simp [hr, Except.map] at h
    | ok r =>
      simp only [hr, Except.map, Except.ok.injEq, Prod.mk.injEq] at h
      exact selectByWeight_mem draw _ x (by rw [hr, h.1])
  split at h
  · exact selectByPolling_mem _ _ _ _ h
  · simp only [Except.ok.injEq, Prod.mk.injEq] at h
    exact selectBestWaitIdle_mem _ _ h.1

/-- C1: for every pool map, every filter (nil included), every selector state (so every
mode string, recognised or not) and every random draw, an instance returned by
`SelectAccount` is an entry of the pool map, is connected, has an enabled account and,
when the filter pins a non-empty `InstanceID`, carries that ID. -/
theorem SelectAccount_returns_eligible_entry (s s' : AccountSelector) (instances : InstanceMap)
    (filter : Option entity.AccountFilter) (draw : Nat) (inst : Instance)
    (h : SelectAccount s instances filter draw = .ok (some inst, s')) :
    (∃ k, (k, inst) ∈ instances) ∧ inst.IsConnected = true ∧
      inst.GetAccount.Enabled = true ∧
      ∀ f, filter = some f → f.InstanceID ≠ "" → inst.ID = f.InstanceID := by
  have hmem := SelectAccount_mem_available s s' instances filter draw inst h
  obtain ⟨hk, hav⟩ := (mem_getAvailableInstances instances filter inst).1 hmem
  obtain ⟨hc, he, hf⟩ := (isAvailable_iff filter inst).1 hav
  refine ⟨hk, hc, he, ?_⟩
  intro f hfilter hne
  rcases hf f hfilter with h0 | h1
  · exact absurd h0 hne
  · exact h1.symm

/-- C1 at a concrete input: in `Polling` mode with cursor 4 and a filter pinned to `w2`, the
three-worker pool yields `w2`. -/
theorem SelectAccount_returns_eligible_entry_witness :
    SelectAccount { mode := AccountSelectPolling, pollingIndex := 4 } threeWorkerPool
        (some { InstanceID := "w2" }) 0
      = .ok (some (readyWorker "w2" 20 1), { mode := AccountSelectPolling, pollingIndex := 5 }) ∧
    ((∃ k, (k, readyWorker "w2" 20 1) ∈ threeWorkerPool) ∧
      (readyWorker "w2" 20 1).IsConnected = true ∧
      (readyWorker "w2" 20 1).GetAccount.Enabled = true ∧
      ∀ f, some ({ InstanceID := "w2" } : entity.AccountFilter) = some f →
        f.InstanceID ≠ "" → (readyWorker "w2" 20 1).ID = f.InstanceID) :=
  ⟨rfl,
   SelectAccount_returns_eligible_entry { mode := AccountSelectPolling, pollingIndex := 4 }
     { mode := AccountSelectPolling, pollingIndex := 5 } threeWorkerPool
     (some { InstanceID := "w2" }) 0 (readyWorker "w2" 20 1) rfl⟩

/-! ## The selector: when a worker is returned -/

theorem length_orderedInsertLess {α : Type} (less : α → α → Bool) (x : α) (l : List α) :
    (orderedInsertLess less x l).length = l.length + 1 := by
  induction l with
  | nil => simp [orderedInsertLess]
  | cons z zs ih =>
    unfold orderedInsertLess
    split <;> simp [ih]

theorem length_foldl_orderedInsertLess {α : Type} (less : α → α → Bool) (l acc : List α) :
    (l.foldl (fun acc x => orderedInsertLess less x acc) acc).length = acc.length + l.length := by
  induction l generalizing acc with
  | nil => simp
  | cons z zs ih => simp [ih, length_orderedInsertLess]; omega

theorem length_sortSlice {α : Type} (less : α → α → Bool) (l : List α) :
    (sortSlice less l).length = l.length := by
  simp [sortSlice, length_foldl_orderedInsertLess]

theorem selectBestWaitIdle_isSome (l : List Instance) (h : l ≠ []) :
    ∃ x, selectBestWaitIdle l = some x := by
  unfold selectBestWaitIdle
  rw [if_neg (by simpa using h)]
  cases hs : sortSlice bestWaitIdleLess l with
  | nil => exact absurd hs (sortSlice_ne_nil _ l h)
  | cons y ys => exact ⟨y, rfl⟩

theorem selectRandom_ok (draw : Nat) (l : List Instance) (h : l ≠ []) :
    ∃ x, selectRandom draw l = .ok (some x) := by
  unfold selectRandom
  rw [if_neg (by simpa using h)]
  have hpos : (0 : Int) < (l.length : Int) := by
    have := List.length_pos.mpr h
    omega
  obtain ⟨r, hr, h0, h1⟩ := Intn_ok_of_pos draw l.length hpos
  obtain ⟨x, hx⟩ := index_ok_of_lt l r h0 h1
  exact ⟨x, by simp [hr, hx, bind, Except.bind, pure, Except.pure]⟩

theorem selectByWeight_ok (draw : Nat) (l : List Instance) (h : l ≠ [])
    (hw : 0 ≤ totalWeight l) : ∃ x, selectByWeight draw l = .ok (some x) := by
  unfold selectByWeight
  rw [if_neg (by simpa using h)]
  simp only
  split
  · exact selectRandom_ok draw l h
  · rename_i hne
    obtain ⟨r, hr, _, _⟩ := Intn_ok_of_pos draw (totalWeight l) (by omega)
    simp only [hr, bind, Except.bind]
    split
    · exact ⟨_, rfl⟩
    · cases l with
      | nil => exact absurd rfl h
      | cons y ys => exact ⟨y, rfl⟩

theorem selectByPolling_ok (s : AccountSelector) (l : List Instance) (h : l ≠ [])
    (hp : 0 ≤ s.pollingIndex) :
    ∃ x, selectByPolling s l
      = .ok (some x, { s with pollingIndex := wrapInt (s.pollingIndex + 1) }) := by
  unfold selectByPolling
  rw [if_neg (by simpa using h)]
  have hpos : (0 : Int) < ((sortSlice pollingLess l).length : Int) := by
    rw [length_sortSlice]
    have := List.length_pos.mpr h
    omega
  obtain ⟨x, hx⟩ := index_ok_of_lt (sortSlice pollingLess l)
    (Int.tmod s.pollingIndex (sortSlice pollingLess l).length)
    (Int.tmod_nonneg _ hp) (Int.tmod_lt_of_pos _ hpos)
  exact ⟨x, by simp [hx, bind, Except.bind, pure, Except.pure]⟩

/-- Whatever the mode, a normal return of `SelectAccount` is nil exactly when no
instance of the pool is available. -/
theorem SelectAccount_nil_iff (s s' : AccountSelector) (instances : InstanceMap)
    (filter : Option entity.AccountFilter) (draw : Nat) (r : Option Instance)
    (h : SelectAccount s instances filter draw = .ok (r, s')) :
    r = none ↔ getAvailableInstances instances filter = [] := by
  constructor
  · intro hr
    subst hr
    by_contra hne
    unfold SelectAccount at h
    simp only at h
    rw [if_neg (by simpa using hne)] at h
    obtain ⟨x, hx⟩ := selectBestWaitIdle_isSome _ hne
    split at h
    · simp [hx] at h
    split at h
    · obtain ⟨y, hy⟩ := selectRandom_ok draw _ hne
      simp [hy, Except.map] at h
    split at h
    · cases hr : selectByWeight draw (getAvailableInstances instances filter) with
      | error e => simp [hr, Except.map] at h
      | ok r =>
        cases r with
        | some y => simp [hr, Except.map] at h
        | none =>
          exfalso
          unfold selectByWeight at hr
          rw [if_neg (by simpa using hne)] at hr
          simp only at hr
          split at hr
          · obtain ⟨y, hy⟩ := selectRandom_ok draw _ hne
            simp [hy] at hr
          · cases hI : Intn draw (totalWeight (getAvailableInstances instances filter)) with
            | error e => simp [hI, bind, Except.bind] at hr
            | ok q =>
              simp only [hI, bind, Except.bind] at hr
              split at hr
              · simp [pure, Except.pure] at hr
              · simp [pure, Except.pure] at hr
                exact hne hr
    split at h
    · unfold selectByPolling at h
      rw [if_neg (by simpa using hne)] at h
      simp only at h
      cases hx2 : index (sortSlice pollingLess (getAvailableInstances instances filter))
          (Int.tmod s.pollingIndex
            (sortSlice pollingLess (getAvailableInstances instances filter)).length) with
      | error e => simp [hx2, bind, Except.bind] at h
      | ok y => simp [hx2, bind, Except.bind, pure, Except.pure] at h
    · simp [hx] at h
  · intro hnil
    unfold SelectAccount at h
    simp [hnil] at h
    exact h.1.symm

/-- Outside the two panics (a negative wrapped weight sum in `Weight` mode, a negative
cursor in `Polling` mode), `SelectAccount` returns, and returns a worker whenever one is
available. -/
theorem SelectAccount_total_of_no_panic (s : AccountSelector) (instances : InstanceMap)
    (filter : Option entity.AccountFilter) (draw : Nat)
    (hw : s.mode = AccountSelectWeight →
      0 ≤ totalWeight (getAvailableInstances instances filter))
    (hp : s.mode = AccountSelectPolling → 0 ≤ s.pollingIndex) :
    ∃ r s', SelectAccount s instances filter draw = .ok (r, s') ∧
      (getAvailableInstances instances filter ≠ [] → r ≠ none) := by
  by_cases hne : getAvailableInstances instances filter = []
  · exact ⟨none, s, by simp [SelectAccount, hne], fun h => absurd hne h⟩
  · have key : ∃ r s', SelectAccount s instances filter draw = .ok (r, s') := by
      unfold SelectAccount
      simp only
      rw [if_neg (by simpa using hne)]
      split
      · exact ⟨_, _, rfl⟩
      split
      · obtain ⟨y, hy⟩ := selectRandom_ok draw _ hne
        exact ⟨some y, s, by simp [hy, Except.map]⟩
      split
      · rename_i hm
        obtain ⟨y, hy⟩ := selectByWeight_ok draw _ hne (hw hm)
        exact ⟨some y, s, by simp [hy, Except.map]⟩
      split
      · rename_i hm
        obtain ⟨y, hy⟩ := selectByPolling_ok s _ hne (hp hm)
        exact ⟨_, _, hy⟩
      · exact ⟨_, _, rfl⟩
    obtain ⟨r, s', hr⟩ := key
    refine ⟨r, s', hr, fun _ hnone => hne ?_⟩
    exact (SelectAccount_nil_iff s s' instances filter draw r hr).1 hnone

/-! ## Evaluations of the selector -/

/-- C2, the code at the failing input: in `Weight` mode, on a pool of two connected, enabled
workers of weight `2^62` each and with no filter, both workers are eligible, the sum of the
weights wraps to `-2^63`, the guard `totalWeight == 0` does not fire and `rand.Intn` panics:
`SelectAccount` returns neither nil nor a worker, whatever the random draw. -/
theorem SelectAccount_weight_overflow_panics (draw : Nat) :
    getAvailableInstances heavyWeightPool none
        = [readyWorker "w1" 10 (2 ^ 62), readyWorker "w2" 20 (2 ^ 62)] ∧
      totalWeight (getAvailableInstances heavyWeightPool none) = -2 ^ 63 ∧
      SelectAccount { mode := AccountSelectWeight } heavyWeightPool none draw
        = .error "invalid argument to Intn" := by
  have hav : getAvailableInstances heavyWeightPool none
      = [readyWorker "w1" 10 (2 ^ 62), readyWorker "w2" 20 (2 ^ 62)] := rfl
  have htot : totalWeight (getAvailableInstances heavyWeightPool none) = -2 ^ 63 := by
    rw [hav]; decide
  refine ⟨hav, htot, ?_⟩
  have hmode : (AccountSelectWeight = AccountSelectBestWaitIdle) = False := by decide
  have hmode2 : (AccountSelectWeight = AccountSelectRandom) = False := by decide
  unfold SelectAccount
  simp only [hav, hmode, hmode2, if_false, if_true]
  unfold selectByWeight
  rw [← hav, htot]
  simp [hav, Intn, bind, Except.bind, Except.map]

/-- C3, the code at the failing input: the account of worker `w1` has `DayDrawLimit = 5` and
`DayDrawCount = 5`, so `IsAcceptNewTask` refuses it, yet `SelectAccount`, which reads only
the connection flag and `Enabled`, returns `w1` in each of the four modes, whatever the
random draw. -/
theorem SelectAccount_returns_exhausted_worker (draw : Nat) :
    exhaustedAccount.ID = quotaWorker.ID ∧
      exhaustedAccount.DayDrawLimit = 5 ∧ exhaustedAccount.DayDrawCount = 5 ∧
      exhaustedAccount.IsAcceptNewTask = false ∧
      SelectAccount { mode := AccountSelectBestWaitIdle } [("w1", quotaWorker)] none draw
        = .ok (some quotaWorker, { mode := AccountSelectBestWaitIdle }) ∧
      SelectAccount { mode := AccountSelectRandom } [("w1", quotaWorker)] none draw
        = .ok (some quotaWorker, { mode := AccountSelectRandom }) ∧
      SelectAccount { mode := AccountSelectWeight } [("w1", quotaWorker)] none draw
        = .ok (some quotaWorker, { mode := AccountSelectWeight }) ∧
      SelectAccount { mode := AccountSelectPolling } [("w1", quotaWorker)] none draw
        = .ok (some quotaWorker, { mode := AccountSelectPolling, pollingIndex := 1 }) := by
  have hav : getAvailableInstances [("w1", quotaWorker)] none = [quotaWorker] := rfl
  refine ⟨rfl, rfl, rfl, rfl, rfl, ?_, ?_, rfl⟩
  · have h1 : (AccountSelectRandom = AccountSelectBestWaitIdle) = False := by decide
    unfold SelectAccount
    simp only [hav, h1, if_false, if_true]
    simp [selectRandom, Intn, index, bind, Except.bind, Except.map, pure, Except.pure]
  · have h1 : (AccountSelectWeight = AccountSelectBestWaitIdle) = False := by decide
    have h2 : (AccountSelectWeight = AccountSelectRandom) = False := by decide
    have ht : totalWeight [quotaWorker] = 1 := by decide
    have hw : wrapInt (effectiveWeight quotaWorker) = 1 := by decide
    unfold SelectAccount
    simp only [hav, h1, h2, if_false, if_true]
    unfold selectByWeight
    rw [ht]
    simp [Intn, weightScan, hw, bind, Except.bind, Except.map, pure, Except.pure]

/-- The filter fields `Mode`, `BotType`, `RemixEnabled` and `Modes` have no effect on
`SelectAccount`: a filter selects like the filter that keeps only its `InstanceID`. -/
theorem SelectAccount_reads_only_InstanceID (s : AccountSelector) (instances : InstanceMap)
    (f : entity.AccountFilter) (draw : Nat) :
    SelectAccount s instances (some f) draw
      = SelectAccount s instances (some { InstanceID := f.InstanceID }) draw := by
  have h : isAvailable (some f) = isAvailable (some { InstanceID := f.InstanceID }) := by
    funext inst
    simp [isAvailable]
  have hg : getAvailableInstances instances (some f)
      = getAvailableInstances instances (some { InstanceID := f.InstanceID }) := by
    unfold getAvailableInstances
    rw [h]
  unfold SelectAccount
  rw [hg]

/-- C5, the code at the failing input: the only worker runs in `RELAX` mode, does not serve
the Niji bot and has remix off; for a filter that asks for `FAST`, `NIJI_JOURNEY` and remix
enabled, `SelectAccount` returns that worker (here in the default `BestWaitIdle` mode and
in `Polling` mode). -/
theorem SelectAccount_ignores_mode_bot_remix :
    relaxOnlyWorker.GetAccount.Mode ≠ fastNijiRemixFilter.Mode ∧
      relaxOnlyWorker.GetAccount.EnableNiji = false ∧
      relaxOnlyWorker.GetAccount.RemixAutoSubmit = false ∧
      fastNijiRemixFilter.Mode ≠ "" ∧ fastNijiRemixFilter.BotType ≠ "" ∧
      fastNijiRemixFilter.RemixEnabled = true ∧
      SelectAccount { mode := AccountSelectBestWaitIdle } [("w1", relaxOnlyWorker)]
          (some fastNijiRemixFilter) 0
        = .ok (some relaxOnlyWorker, { mode := AccountSelectBestWaitIdle }) ∧
      SelectAccount { mode := AccountSelectPolling } [("w1", relaxOnlyWorker)]
          (some fastNijiRemixFilter) 0
        = .ok (some relaxOnlyWorker, { mode := AccountSelectPolling, pollingIndex := 1 }) :=
  ⟨by decide, rfl, rfl, by decide, by decide, rfl, rfl, rfl⟩

/-! ## Status transitions of a task -/

/-- C6, counterexample: on a task that has succeeded (`IsFinished` is true) `Start()` is not
rejected, it changes `Status` to `SUBMITTED` and `Progress` to `"0%"`; `Fail` changes
`Status`, `FinishTime`, `FailReason` and `Progress`; `Cancel` changes `Status`,
`FinishTime` and `Progress`; a second `Success` changes `FinishTime`. -/
theorem finished_task_is_mutated :
    succeededTask.IsFinished = true ∧
      (succeededTask.Start 9).Status = entity.TaskStatus.Submitted ∧
      (succeededTask.Start 9).Status ≠ succeededTask.Status ∧
      (succeededTask.Start 9).Progress ≠ succeededTask.Progress ∧
      (succeededTask.Fail "timeout" 9).Status ≠ succeededTask.Status ∧
      (succeededTask.Fail "timeout" 9).FinishTime ≠ succeededTask.FinishTime ∧
      (succeededTask.Fail "timeout" 9).FailReason ≠ succeededTask.FailReason ∧
      (succeededTask.Fail "timeout" 9).Progress ≠ succeededTask.Progress ∧
      (succeededTask.Cancel 9).Status ≠ succeededTask.Status ∧
      (succeededTask.Cancel 9).FinishTime ≠ succeededTask.FinishTime ∧
      (succeededTask.Success 9).FinishTime ≠ succeededTask.FinishTime := by
  decide

/-- C6, amended: on a task whose status is `SUCCESS`, `FAILURE` or `CANCEL` none of the four
calls is rejected. `Start` changes `Status` to `SUBMITTED`, sets `Progress` to `"0%"` and leaves
`FinishTime` and `FailReason` as they were; `Success`, `Fail` and `Cancel` set `Status` to
`SUCCESS`, `FAILURE`, `CANCEL`, stamp `FinishTime` and set `Progress` (`"100%"`, `""`, `""`);
`Fail` stores the reason, `Success` and `Cancel` leave `FailReason` as it was; after
`Success`, `Fail` and `Cancel` the task is still finished. -/
theorem finished_task_transitions (t : entity.Task) (now : Nat) (reason : String)
    (hfin : t.IsFinished = true) :
    ((t.Start now).Status = entity.TaskStatus.Submitted ∧ (t.Start now).Status ≠ t.Status ∧
        (t.Start now).Progress = "0%" ∧
        (t.Start now).FinishTime = t.FinishTime ∧ (t.Start now).FailReason = t.FailReason ∧
        (t.Start now).IsFinished = false) ∧
      ((t.Success now).Status = entity.TaskStatus.Success ∧
        (t.Success now).FinishTime = some now ∧ (t.Success now).Progress = "100%" ∧
        (t.Success now).FailReason = t.FailReason ∧ (t.Success now).IsFinished = true) ∧
      ((t.Fail reason now).Status = entity.TaskStatus.Failure ∧
        (t.Fail reason now).FinishTime = some now ∧ (t.Fail reason now).Progress = "" ∧
        (t.Fail reason now).FailReason = reason ∧ (t.Fail reason now).IsFinished = true) ∧
      ((t.Cancel now).Status = entity.TaskStatus.Cancel ∧
        (t.Cancel now).FinishTime = some now ∧ (t.Cancel now).Progress = "" ∧
        (t.Cancel now).FailReason = t.FailReason ∧ (t.Cancel now).IsFinished = true) := by
  have hne : (t.Start now).Status ≠ t.Status := by
    cases hs : t.Status <;> simp [entity.Task.IsFinished, hs] at hfin <;>
      simp [entity.Task.Start]
  exact ⟨⟨rfl, hne, rfl, rfl, rfl, rfl⟩, ⟨rfl, rfl, rfl, rfl, rfl⟩, ⟨rfl, rfl, rfl, rfl, rfl⟩,
    ⟨rfl, rfl, rfl, rfl, rfl⟩⟩

/-- C6 (amended) at a concrete input: the succeeded sample task. -/
theorem finished_task_transitions_witness :
    succeededTask.IsFinished = true ∧
      (succeededTask.Start 9).Status = entity.TaskStatus.Submitted ∧
      (succeededTask.Fail "timeout" 9).FailReason = "timeout" ∧
      (succeededTask.Cancel 9).FinishTime = some 9 :=
  have h := finished_task_transitions succeededTask 9 "timeout" (by decide)
  ⟨by decide, h.1.1, h.2.2.1.2.2.2.1, h.2.2.2.2.1⟩

/-- C7, counterexample: `Start()` on a task in `SUCCESS` (rank 3) leaves it in `SUBMITTED`
(rank 1): the status rank decreases across the call, so the observed statuses
`SUCCESS, SUBMITTED` regress. -/
theorem status_rank_can_decrease :
    observedStatuses succeededTask [(TaskCall.Start, 9)]
        = [entity.TaskStatus.Success, entity.TaskStatus.Submitted] ∧
      statusRank (TaskCall.Start.apply succeededTask 9).Status
        < statusRank succeededTask.Status ∧
      ¬ List.Chain' (· ≤ ·)
          ((observedStatuses succeededTask [(TaskCall.Start, 9)]).map statusRank) := by
  refine ⟨by decide, by decide, ?_⟩
  have hobs : (observedStatuses succeededTask [(TaskCall.Start, 9)]).map statusRank = [3, 1] := by
    decide
  rw [hobs]
  simp

theorem statusRank_le_apply (t : entity.Task) (call : TaskCall) (now : Nat)
    (h : call ≠ TaskCall.Start ∨ t.Status = entity.TaskStatus.NotStart
      ∨ t.Status = entity.TaskStatus.Submitted) :
    statusRank t.Status ≤ statusRank (call.apply t now).Status := by
  cases call with
  | Start =>
    rcases h with h | h | h
    · exact absurd rfl h
    · simp [TaskCall.apply, entity.Task.Start, h, statusRank]
    · simp [TaskCall.apply, entity.Task.Start, h, statusRank]
  | Success => cases hs : t.Status <;> simp [TaskCall.apply, entity.Task.Success, statusRank]
  | Fail reason => cases hs : t.Status <;> simp [TaskCall.apply, entity.Task.Fail, statusRank]
  | Cancel => cases hs : t.Status <;> simp [TaskCall.apply, entity.Task.Cancel, statusRank]

/-- C7, amended: with the ranks `NOT_START < SUBMITTED < IN_PROGRESS < SUCCESS, FAILURE,
CANCEL`, for every task in any status and every finite sequence of calls to `Start`,
`Success`, `Fail` and `Cancel` in which `Start` is only called while the task is in
`NOT_START` or `SUBMITTED`, the status rank never decreases from one call to the next. -/
theorem status_rank_monotone (t : entity.Task) (calls : List (TaskCall × Nat))
    (h : startsOnlyBeforeProgress t calls = true) :
    List.Chain' (· ≤ ·) ((observedStatuses t calls).map statusRank) := by
  induction calls generalizing t with
  | nil => simp [observedStatuses]
  | cons c rest ih =>
    obtain ⟨call, now⟩ := c
    simp only [startsOnlyBeforeProgress, Bool.and_eq_true, Bool.or_eq_true, bne_iff_ne, ne_eq,
      beq_iff_eq] at h
    obtain ⟨hcall, hrest⟩ := h
    have hstep : statusRank t.Status ≤ statusRank (call.apply t now).Status :=
      statusRank_le_apply t call now (by tauto)
    have htail := ih (call.apply t now) hrest
    simp only [observedStatuses, List.map_cons]
    refine List.Chain'.cons' htail ?_
    intro y hy
    cases rest with
    | nil =>
      simp [observedStatuses] at hy
      subst hy
      exact hstep
    | cons c2 rest2 =>
      obtain ⟨call2, now2⟩ := c2
      simp [observedStatuses] at hy
      subst hy
      exact hstep

/-- C7 (amended) at a concrete input: a fresh task started twice, then failed, succeeded and
cancelled. -/
theorem status_rank_monotone_witness :
    startsOnlyBeforeProgress ({ ID := "t1" } : entity.Task)
        [(TaskCall.Start, 1), (TaskCall.Start, 2), (TaskCall.Fail "timeout", 3),
          (TaskCall.Success, 4), (TaskCall.Cancel, 5)] = true ∧
      List.Chain' (· ≤ ·)
        ((observedStatuses ({ ID := "t1" } : entity.Task)
          [(TaskCall.Start, 1), (TaskCall.Start, 2), (TaskCall.Fail "timeout", 3),
            (TaskCall.Success, 4), (TaskCall.Cancel, 5)]).map statusRank) :=
  ⟨by decide, status_rank_monotone _ _ (by decide)⟩

/-! ## The submission handlers -/

theorem DB_First_Save_Create (db : DB) (t t' : entity.Task) (hid : t'.ID = t.ID)
    (hfresh : db.First t.ID = none) : ((db.Create t).Save t').First t.ID = some t' := by
  have hany : (db.Create t).any (fun r => r.ID == t'.ID) = true := by
    simp [DB.Create, hid]
  have hmap : ∀ l : DB, DB.First l t.ID = none →
      List.find? (fun r => r.ID == t.ID)
        ((l ++ [t]).map (fun r => if r.ID == t'.ID then t' else r)) = some t' := by
    intro l
    induction l with
    | nil => intro _; simp [hid]
    | cons r rs ih =>
      intro hnone
      simp only [DB.First, List.find?_cons] at hnone
      cases hr : (r.ID == t.ID) with
      | true => simp [hr] at hnone
      | false =>
        simp only [hr] at hnone
        have hr2 : (r.ID == t'.ID) = false := by rw [hid]; exact hr
        simp only [List.cons_append, List.map_cons, hr2, Bool.false_eq_true, if_false,
          List.find?_cons, hr]
        exact ih hnone
  unfold DB.Save
  rw [if_pos hany]
  exact hmap db hfresh

theorem SubmitImagine_of_no_worker (h : TaskHandler) (c : Context)
    (req : SubmitImagineRequest) (m : Manager) (hcreate : c.createErr = false)
    (hsel : h.discordManager.GetAvailableInstance c.draw = .ok (none, m)) :
    SubmitImagine h c (.ok req)
      = ⟨{ db := (h.db.Create (newImagineTask c req)).Save
                  ((newImagineTask c req).Fail "没有可用的Discord实例" c.methodNow),
           discordManager := m },
         [newImagineTask c req,
           (newImagineTask c req).Fail "没有可用的Discord实例" c.methodNow],
         .ok ⟨503, ErrorResult 50300 "没有可用的Discord实例"⟩⟩ := by
  by_cases hbot : req.BotType = "NIJI_JOURNEY" <;>
    simp only [SubmitImagine, newImagineTask, hcreate, hsel, hbot, if_true, if_false] <;> rfl

theorem SubmitImagine_of_worker (h : TaskHandler) (c : Context)
    (req : SubmitImagineRequest) (m : Manager) (inst : Instance) (hcreate : c.createErr = false)
    (hsel : h.discordManager.GetAvailableInstance c.draw = .ok (some inst, m)) :
    SubmitImagine h c (.ok req)
      = ⟨{ db := (h.db.Create (newImagineTask c req)).Save
                  { (newImagineTask c req).Start c.methodNow with InstanceID := inst.ID },
           discordManager := m },
         [newImagineTask c req,
           { (newImagineTask c req).Start c.methodNow with InstanceID := inst.ID }],
         .ok ⟨200, SuccessResult c.uuid⟩⟩ := by
  by_cases hbot : req.BotType = "NIJI_JOURNEY" <;>
    simp only [SubmitImagine, newImagineTask, hcreate, hsel, hbot, if_true, if_false] <;> rfl

/-- C8: in `SubmitImagine`, whenever the task record has been created and the selector
returns no worker, the caller receives the error result with code 50300 (status 503), not a
success result; the task is written twice, first as created in `NOT_START` and then in
`FAILURE` with the non-empty reason, its `InstanceID` is empty in both snapshots and no
snapshot is in `SUBMITTED`; and when the task ID is fresh the stored row is the failed
task. -/
theorem SubmitImagine_no_worker_fails_task (h : TaskHandler) (c : Context)
    (req : SubmitImagineRequest) (m : Manager) (hcreate : c.createErr = false)
    (hsel : h.discordManager.GetAvailableInstance c.draw = .ok (none, m)) :
    (SubmitImagine h c (.ok req)).resp
        = .ok ⟨503, ErrorResult 50300 "没有可用的Discord实例"⟩ ∧
      (SubmitImagine h c (.ok req)).resp ≠ .ok ⟨200, SuccessResult c.uuid⟩ ∧
      ∃ created failed : entity.Task,
        (SubmitImagine h c (.ok req)).writes = [created, failed] ∧
        created.ID = c.uuid ∧ created.Status = entity.TaskStatus.NotStart ∧
        created.InstanceID = "" ∧
        failed = created.Fail "没有可用的Discord实例" c.methodNow ∧
        failed.ID = c.uuid ∧ failed.Status = entity.TaskStatus.Failure ∧
        failed.FailReason ≠ "" ∧ failed.InstanceID = "" ∧
        (∀ t ∈ (SubmitImagine h c (.ok req)).writes, t.Status ≠ entity.TaskStatus.Submitted) ∧
        (h.db.First c.uuid = none →
          (SubmitImagine h c (.ok req)).h.db.First c.uuid = some failed) := by
  have hreason : ("没有可用的Discord实例" : String) ≠ "" := by decide
  rw [SubmitImagine_of_no_worker h c req m hcreate hsel]
  refine ⟨rfl, by simp [SuccessResult, ErrorResult], newImagineTask c req, _, rfl, rfl, rfl, rfl,
    rfl, rfl, rfl, hreason, rfl, ?_, ?_⟩
  · intro t ht
    simp only [List.mem_cons, List.mem_singleton, List.not_mem_nil, or_false] at ht
    rcases ht with ht | ht <;> subst ht <;> exact fun hh => entity.TaskStatus.noConfusion hh
  · intro hfresh
    exact DB_First_Save_Create h.db _ _ rfl hfresh

/-- C8 at a concrete input: an imagine request on a handler whose pool is empty. -/
theorem SubmitImagine_no_worker_fails_task_witness :
    (requestContext "t1" 1).createErr = false ∧
      ({ } : TaskHandler).discordManager.GetAvailableInstance (requestContext "t1" 1).draw
        = .ok (none, { }) ∧
      (SubmitImagine { } (requestContext "t1" 1) (.ok catRequest)).resp
        = .ok ⟨503, ErrorResult 50300 "没有可用的Discord实例"⟩ :=
  ⟨rfl, rfl,
    (SubmitImagine_no_worker_fails_task { } (requestContext "t1" 1) catRequest { } rfl rfl).1⟩

theorem GetAvailableInstance_bestWaitIdle (m : Manager) (draw : Nat)
    (hmode : m.selector.mode = AccountSelectBestWaitIdle)
    (hav : getAvailableInstances m.instances none ≠ []) :
    ∃ w, w ∈ getAvailableInstances m.instances none ∧
      m.GetAvailableInstance draw = .ok (some w, m) := by
  obtain ⟨w, hw⟩ := selectBestWaitIdle_isSome _ hav
  refine ⟨w, selectBestWaitIdle_mem _ _ hw, ?_⟩
  unfold Manager.GetAvailableInstance Manager.GetAvailableInstanceWithFilter SelectAccount
  simp only
  rw [if_neg (by simpa using hav), if_pos hmode, hw]
  rfl

theorem SubmitImagine_bestWaitIdle_dispatches (h : TaskHandler) (c : Context)
    (req : SubmitImagineRequest) (hmode : h.discordManager.selector.mode = AccountSelectBestWaitIdle)
    (hav : getAvailableInstances h.discordManager.instances none ≠ [])
    (hcreate : c.createErr = false) :
    (SubmitImagine h c (.ok req)).h.discordManager = h.discordManager ∧
      DispatchedTo h.discordManager.instances c (SubmitImagine h c (.ok req)) := by
  obtain ⟨w, hw, hsel⟩ := GetAvailableInstance_bestWaitIdle h.discordManager c.draw hmode hav
  rw [SubmitImagine_of_worker h c req h.discordManager w hcreate hsel]
  refine ⟨rfl, rfl, newImagineTask c req, _, w, rfl, rfl, rfl, rfl, ?_, rfl⟩
  exact ((mem_getAvailableInstances _ _ w).1 hw).1

/-- C4, counterexample: the pool holds three connected, enabled workers with `CoreSize = 1`
and the selector is in `BestWaitIdle` mode; after three imagine submissions, whose tasks are
all stored as `SUBMITTED` on worker `w3`, a fourth `SubmitImagine` without a filter is not
rejected: the caller gets the success result and the task is stored as `SUBMITTED` with
`InstanceID = "w3"`. -/
theorem fourth_imagine_not_rejected :
    (∀ e ∈ threeWorkerPool, e.2.IsConnected = true ∧ e.2.GetAccount.Enabled = true ∧
        e.2.GetAccount.CoreSize = 1) ∧
      threeWorkerHandler.discordManager.selector.mode = AccountSelectBestWaitIdle ∧
      threeInFlight.db.map (fun t => (t.ID, t.Status, t.InstanceID))
        = [("t1", entity.TaskStatus.Submitted, "w3"), ("t2", entity.TaskStatus.Submitted, "w3"),
           ("t3", entity.TaskStatus.Submitted, "w3")] ∧
      (SubmitImagine threeInFlight (requestContext "t4" 4) (.ok catRequest)).resp
        = .ok ⟨200, SuccessResult "t4"⟩ ∧
      ((SubmitImagine threeInFlight (requestContext "t4" 4) (.ok catRequest)).h.db.First "t4").map
          (fun t => (t.Status, t.InstanceID))
        = some (entity.TaskStatus.Submitted, "w3") := by
  refine ⟨by decide, rfl, rfl, rfl, rfl⟩

/-- C4, amended: with a pool of three connected, enabled workers each with `CoreSize = 1`
and the `BestWaitIdle` strategy, each of four imagine submissions whose task record is
created is dispatched, the fourth one, made while the first three are in flight, included:
the caller gets the success result and the task is written as `SUBMITTED`, bound to a
worker of the pool. The selector consults neither `CoreSize` nor the tasks in flight. -/
theorem fourth_imagine_is_dispatched (h0 : TaskHandler) (k1 k2 k3 : String)
    (w1 w2 w3 : Instance) (c1 c2 c3 c4 : Context) (r1 r2 r3 r4 : SubmitImagineRequest)
    (hpool : h0.discordManager.instances = [(k1, w1), (k2, w2), (k3, w3)])
    (hmode : h0.discordManager.selector.mode = AccountSelectBestWaitIdle)
    (hw1 : w1.IsConnected = true ∧ w1.GetAccount.Enabled = true ∧ w1.GetAccount.CoreSize = 1)
    (_hw2 : w2.IsConnected = true ∧ w2.GetAccount.Enabled = true ∧ w2.GetAccount.CoreSize = 1)
    (_hw3 : w3.IsConnected = true ∧ w3.GetAccount.Enabled = true ∧ w3.GetAccount.CoreSize = 1)
    (hc1 : c1.createErr = false) (hc2 : c2.createErr = false) (hc3 : c3.createErr = false)
    (hc4 : c4.createErr = false) :
    DispatchedTo [(k1, w1), (k2, w2), (k3, w3)] c1 (SubmitImagine h0 c1 (.ok r1)) ∧
      DispatchedTo [(k1, w1), (k2, w2), (k3, w3)] c2
        (SubmitImagine (SubmitImagine h0 c1 (.ok r1)).h c2 (.ok r2)) ∧
      DispatchedTo [(k1, w1), (k2, w2), (k3, w3)] c3
        (SubmitImagine (SubmitImagine (SubmitImagine h0 c1 (.ok r1)).h c2 (.ok r2)).h c3
          (.ok r3)) ∧
      DispatchedTo [(k1, w1), (k2, w2), (k3, w3)] c4
        (SubmitImagine
          (SubmitImagine (SubmitImagine (SubmitImagine h0 c1 (.ok r1)).h c2 (.ok r2)).h c3
            (.ok r3)).h c4 (.ok r4)) := by
  have hav : ∀ m : Manager, m = h0.discordManager →
      getAvailableInstances m.instances none ≠ [] := by
    intro m hm
    have hmem : w1 ∈ getAvailableInstances m.instances none := by
      rw [mem_getAvailableInstances, hm, hpool]
      refine ⟨⟨k1, by simp⟩, ?_⟩
      rw [isAvailable_iff]
      exact ⟨hw1.1, hw1.2.1, fun f hf => by cases hf⟩
    exact List.ne_nil_of_mem hmem
  obtain ⟨e1, d1⟩ := SubmitImagine_bestWaitIdle_dispatches h0 c1 r1 hmode (hav _ rfl) hc1
  obtain ⟨e2, d2⟩ := SubmitImagine_bestWaitIdle_dispatches (SubmitImagine h0 c1 (.ok r1)).h c2 r2
    (by rw [e1]; exact hmode) (hav _ e1) hc2
  obtain ⟨e3, d3⟩ := SubmitImagine_bestWaitIdle_dispatches
    (SubmitImagine (SubmitImagine h0 c1 (.ok r1)).h c2 (.ok r2)).h c3 r3
    (by rw [e2, e1]; exact hmode) (hav _ (by rw [e2, e1])) hc3
  obtain ⟨_, d4⟩ := SubmitImagine_bestWaitIdle_dispatches
    (SubmitImagine (SubmitImagine (SubmitImagine h0 c1 (.ok r1)).h c2 (.ok r2)).h c3 (.ok r3)).h
    c4 r4 (by rw [e3, e2, e1]; exact hmode) (hav _ (by rw [e3, e2, e1])) hc4
  rw [e3, e2, e1, hpool] at d4
  rw [e2, e1, hpool] at d3
  rw [e1, hpool] at d2
  rw [hpool] at d1
  exact ⟨d1, d2, d3, d4⟩

/-- C4 (amended) at a concrete input: the fourth request on the three-worker pool. -/
theorem fourth_imagine_is_dispatched_witness :
    threeWorkerHandler.discordManager.instances = threeWorkerPool ∧
      threeWorkerHandler.discordManager.selector.mode = AccountSelectBestWaitIdle ∧
      (∀ e ∈ threeWorkerPool, e.2.IsConnected = true ∧ e.2.GetAccount.Enabled = true ∧
        e.2.GetAccount.CoreSize = 1) ∧
      DispatchedTo threeWorkerPool (requestContext "t4" 4)
        (SubmitImagine threeInFlight (requestContext "t4" 4) (.ok catRequest)) :=
  ⟨rfl, rfl, by decide,
    (fourth_imagine_is_dispatched threeWorkerHandler "w1" "w2" "w3" (readyWorker "w1" 10 1)
      (readyWorker "w2" 20 1) (readyWorker "w3" 30 1) (requestContext "t1" 1)
      (requestContext "t2" 2) (requestContext "t3" 3) (requestContext "t4" 4) catRequest
      catRequest catRequest catRequest rfl rfl ⟨rfl, rfl, rfl⟩ ⟨rfl, rfl, rfl⟩ ⟨rfl, rfl, rfl⟩
      rfl rfl rfl rfl).2.2.2⟩

/-- C9, the code on every bound request whose record is created: `SubmitBlend` and
`SubmitShorten` call `Start()` on a task they never bind to a worker, so the task is written
as `SUBMITTED` with an empty `InstanceID`, and the success result is sent. -/
theorem SubmitBlend_SubmitShorten_start_unbound_task (h : TaskHandler) (c : Context)
    (blend : SubmitBlendRequest) (shorten : SubmitShortenRequest) :
    ((SubmitBlend h { c with createErr := false } (.ok blend)).resp
        = .ok ⟨200, SuccessResult c.uuid⟩ ∧
      ∃ created started : entity.Task,
        (SubmitBlend h { c with createErr := false } (.ok blend)).writes = [created, started] ∧
        started = created.Start c.methodNow ∧
        started.Status = entity.TaskStatus.Submitted ∧ started.InstanceID = "") ∧
    ((SubmitShorten h { c with createErr := false } (.ok shorten)).resp
        = .ok ⟨200, SuccessResult c.uuid⟩ ∧
      ∃ created started : entity.Task,
        (SubmitShorten h { c with createErr := false } (.ok shorten)).writes
          = [created, started] ∧
        started = created.Start c.methodNow ∧
        started.Status = entity.TaskStatus.Submitted ∧ started.InstanceID = "") :=
  ⟨⟨rfl, _, _, rfl, rfl, rfl, rfl⟩, ⟨rfl, _, _, rfl, rfl, rfl, rfl⟩⟩

/-- C10: for every change request that binds (whatever its action, `UPSCALE`, `VARIATION`
and `REROLL` included) whose parent query finds a task with a status other than `SUCCESS`,
`SubmitChange` answers with status 400 and the error result of code 40000, writes no task
and leaves the table as it was. -/
theorem SubmitChange_rejects_parent_not_success (h : TaskHandler) (c : Context)
    (req : SubmitChangeRequest) (parentTask : entity.Task) (hquery : c.queryErr = false)
    (hfind : h.db.First req.TaskID = some parentTask)
    (hstatus : parentTask.Status ≠ entity.TaskStatus.Success) :
    (SubmitChange h c (.ok req)).resp = .ok ⟨400, ErrorResult 40000 "关联任务状态错误"⟩ ∧
      (ErrorResult 40000 "关联任务状态错误").Code = 40000 ∧
      (SubmitChange h c (.ok req)).writes = [] ∧
      (SubmitChange h c (.ok req)).h = h := by
  have hout : SubmitChange h c (.ok req)
      = ⟨h, [], .ok ⟨400, ErrorResult 40000 "关联任务状态错误"⟩⟩ := by
    unfold SubmitChange
    simp only [hquery, hfind, Bool.false_eq_true, if_false]
    rw [if_pos hstatus]
  rw [hout]
  exact ⟨rfl, rfl, rfl, rfl⟩

/-- C10 at a concrete input: an `UPSCALE` request on a parent that is still `SUBMITTED`. -/
theorem SubmitChange_rejects_parent_not_success_witness :
    (requestContext "t2" 2).queryErr = false ∧
      DB.First pendingParentDB "p1" = pendingParentDB.head? ∧
      (SubmitChange { db := pendingParentDB } (requestContext "t2" 2)
          (.ok { TaskID := "p1", Action := entity.TaskActionUpscale, Index := some 1 })).resp
        = .ok ⟨400, ErrorResult 40000 "关联任务状态错误"⟩ ∧
      (SubmitChange { db := pendingParentDB } (requestContext "t2" 2)
          (.ok { TaskID := "p1", Action := entity.TaskActionUpscale, Index := some 1 })).h.db
        = pendingParentDB :=
  have w := SubmitChange_rejects_parent_not_success { db := pendingParentDB }
    (requestContext "t2" 2)
    { TaskID := "p1", Action := entity.TaskActionUpscale, Index := some 1 }
    { ID := "p1", UserID := "guest", BotType := entity.BotTypeMidjourney, InstanceID := "w1",
      Action := entity.TaskActionImagine, Status := entity.TaskStatus.Submitted,
      Prompt := "a cat", Description := "/imagine a cat", SubmitTime := some 1,
      StartTime := some 2, Progress := "0%" }
    rfl rfl (by decide)
  ⟨rfl, rfl, w.1, by rw [w.2.2.2]⟩

/-! ## Child tasks -/

/-- C11, the code on every parent: whatever the status of the parent task `p` (so also
`NOT_START`, `SUBMITTED`, `IN_PROGRESS`, `FAILURE` and `CANCEL`), when the table holds `p`
and the child record is created, `SubmitShow`, `SubmitAction` and `SubmitModal` create a
child task with `ParentID = p.ID`, start it and send the success result; they do not read
`p.Status`. -/
theorem child_created_whatever_parent_status (p : entity.Task) (c : Context)
    (m : Manager) (req1 : SubmitShowRequest) (req2 : SubmitActionRequest)
    (req3 : SubmitModalRequest) :
    ((SubmitShow { db := [p], discordManager := m }
          { c with queryErr := false, createErr := false }
          (.ok { req1 with TaskID := p.ID })).resp = .ok ⟨200, SuccessResult c.uuid⟩ ∧
      ∃ child : entity.Task,
        (SubmitShow { db := [p], discordManager := m }
          { c with queryErr := false, createErr := false }
          (.ok { req1 with TaskID := p.ID })).writes = [child, child.Start c.methodNow] ∧
        child.ParentID = p.ID ∧ child.Action = entity.TaskActionShow) ∧
    ((SubmitAction { db := [p], discordManager := m }
          { c with queryErr := false, createErr := false }
          (.ok { req2 with TaskID := p.ID })).resp = .ok ⟨200, SuccessResult c.uuid⟩ ∧
      ∃ child : entity.Task,
        (SubmitAction { db := [p], discordManager := m }
          { c with queryErr := false, createErr := false }
          (.ok { req2 with TaskID := p.ID })).writes = [child, child.Start c.methodNow] ∧
        child.ParentID = p.ID ∧ child.Action = entity.TaskActionAction) ∧
    ((SubmitModal { db := [p], discordManager := m }
          { c with queryErr := false, createErr := false }
          (.ok { req3 with TaskID := p.ID })).resp = .ok ⟨200, SuccessResult c.uuid⟩ ∧
      ∃ child : entity.Task,
        (SubmitModal { db := [p], discordManager := m }
          { c with queryErr := false, createErr := false }
          (.ok { req3 with TaskID := p.ID })).writes = [child, child.Start c.methodNow] ∧
        child.ParentID = p.ID ∧ child.Action = entity.TaskActionModal) := by
  have hfirst : DB.First [p] p.ID = some p := by simp [DB.First]
  refine ⟨?_, ?_, ?_⟩
  · simp only [SubmitShow, hfirst, Bool.false_eq_true, if_false]
    exact ⟨rfl, _, rfl, rfl, rfl⟩
  · simp only [SubmitAction, hfirst, Bool.false_eq_true, if_false]
    exact ⟨rfl, _, rfl, rfl, rfl⟩
  · simp only [SubmitModal, hfirst, Bool.false_eq_true, if_false]
    exact ⟨rfl, _, rfl, rfl, rfl⟩

theorem SubmitChange_child_inherits (h : TaskHandler) (c : Context) (req : SubmitChangeRequest)
    (t : entity.Task) (ht : t ∈ (SubmitChange h c (.ok req)).writes) :
    ∃ p, h.db.First req.TaskID = some p ∧ t.ParentID = p.ID ∧ t.InstanceID = p.InstanceID := by
  unfold SubmitChange at ht
  simp only at ht
  split at ht
  · simp at ht
  cases hp : h.db.First req.TaskID with
  | none => simp [hp] at ht
  | some p =>
    refine ⟨p, rfl, ?_⟩
    simp only [hp] at ht
    split at ht
    · simp at ht
    split at ht
    · simp at ht
    · rename_i task hdesc
      have htask : task.ParentID = p.ID ∧ task.InstanceID = p.InstanceID := by
        split at hdesc
        · split at hdesc
          · cases hdesc
          · cases hdesc; exact ⟨rfl, rfl⟩
        · split at hdesc
          · split at hdesc
            · cases hdesc
            · cases hdesc; exact ⟨rfl, rfl⟩
          · split at hdesc
            · cases hdesc; exact ⟨rfl, rfl⟩
            · cases hdesc; exact ⟨rfl, rfl⟩
      split at ht
      · simp at ht
      · simp only [List.mem_cons, List.mem_singleton, List.not_mem_nil, or_false] at ht
        rcases ht with ht | ht <;> subst ht <;> exact htask

theorem SubmitShow_child_inherits (h : TaskHandler) (c : Context) (req : SubmitShowRequest)
    (t : entity.Task) (ht : t ∈ (SubmitShow h c (.ok req)).writes) :
    ∃ p, h.db.First req.TaskID = some p ∧ t.ParentID = p.ID ∧ t.InstanceID = p.InstanceID := by
  unfold SubmitShow at ht
  simp only at ht
  split at ht
  · simp at ht
  cases hp : h.db.First req.TaskID with
  | none => simp [hp] at ht
  | some p =>
    refine ⟨p, rfl, ?_⟩
    simp only [hp] at ht
    split at ht
    · simp at ht
    · simp only [List.mem_cons, List.mem_singleton, List.not_mem_nil, or_false] at ht
      rcases ht with ht | ht <;> subst ht <;> exact ⟨rfl, rfl⟩

theorem SubmitAction_child_inherits (h : TaskHandler) (c : Context) (req : SubmitActionRequest)
    (t : entity.Task) (ht : t ∈ (SubmitAction h c (.ok req)).writes) :
    ∃ p, h.db.First req.TaskID = some p ∧ t.ParentID = p.ID ∧ t.InstanceID = p.InstanceID := by
  unfold SubmitAction at ht
  simp only at ht
  split at ht
  · simp at ht
  cases hp : h.db.First req.TaskID with
  | none => simp [hp] at ht
  | some p =>
    refine ⟨p, rfl, ?_⟩
    simp only [hp] at ht
    split at ht
    · simp at ht
    · simp only [List.mem_cons, List.mem_singleton, List.not_mem_nil, or_false] at ht
      rcases ht with ht | ht <;> subst ht <;> exact ⟨rfl, rfl⟩

theorem SubmitModal_child_inherits (h : TaskHandler) (c : Context) (req : SubmitModalRequest)
    (t : entity.Task) (ht : t ∈ (SubmitModal h c (.ok req)).writes) :
    ∃ p, h.db.First req.TaskID = some p ∧ t.ParentID = p.ID ∧ t.InstanceID = p.InstanceID := by
  unfold SubmitModal at ht
  simp only at ht
  split at ht
  · simp at ht
  cases hp : h.db.First req.TaskID with
  | none => simp [hp] at ht
  | some p =>
    refine ⟨p, rfl, ?_⟩
    simp only [hp] at ht
    split at ht
    · simp at ht
    · simp only [List.mem_cons, List.mem_singleton, List.not_mem_nil, or_false] at ht
      rcases ht with ht | ht <;> subst ht <;> exact ⟨rfl, rfl⟩

theorem SubmitShow_ignores_pool (db : DB) (m m' : Manager) (c : Context)
    (body : Except String SubmitShowRequest) :
    (SubmitShow ⟨db, m⟩ c body).writes = (SubmitShow ⟨db, m'⟩ c body).writes ∧
      (SubmitShow ⟨db, m⟩ c body).resp = (SubmitShow ⟨db, m'⟩ c body).resp ∧
      (SubmitShow ⟨db, m⟩ c body).h.db = (SubmitShow ⟨db, m'⟩ c body).h.db ∧
      (SubmitShow ⟨db, m⟩ c body).h.discordManager = m := by
  cases body with
  | error e => exact ⟨rfl, rfl, rfl, rfl⟩
  | ok req =>
    cases hq : c.queryErr <;> cases hp : DB.First db req.TaskID <;> cases hc : c.createErr <;>
      simp [SubmitShow, hq, hp, hc]

theorem SubmitAction_ignores_pool (db : DB) (m m' : Manager) (c : Context)
    (body : Except String SubmitActionRequest) :
    (SubmitAction ⟨db, m⟩ c body).writes = (SubmitAction ⟨db, m'⟩ c body).writes ∧
      (SubmitAction ⟨db, m⟩ c body).resp = (SubmitAction ⟨db, m'⟩ c body).resp ∧
      (SubmitAction ⟨db, m⟩ c body).h.db = (SubmitAction ⟨db, m'⟩ c body).h.db ∧
      (SubmitAction ⟨db, m⟩ c body).h.discordManager = m := by
  cases body with
  | error e => exact ⟨rfl, rfl, rfl, rfl⟩
  | ok req =>
    cases hq : c.queryErr <;> cases hp : DB.First db req.TaskID <;> cases hc : c.createErr <;>
      simp [SubmitAction, hq, hp, hc]

theorem SubmitModal_ignores_pool (db : DB) (m m' : Manager) (c : Context)
    (body : Except String SubmitModalRequest) :
    (SubmitModal ⟨db, m⟩ c body).writes = (SubmitModal ⟨db, m'⟩ c body).writes ∧
      (SubmitModal ⟨db, m⟩ c body).resp = (SubmitModal ⟨db, m'⟩ c body).resp ∧
      (SubmitModal ⟨db, m⟩ c body).h.db = (SubmitModal ⟨db, m'⟩ c body).h.db ∧
      (SubmitModal ⟨db, m⟩ c body).h.discordManager = m := by
  cases body with
  | error e => exact ⟨rfl, rfl, rfl, rfl⟩
  | ok req =>
    cases hq : c.queryErr <;> cases hp : DB.First db req.TaskID <;> cases hc : c.createErr <;>
      simp [SubmitModal, hq, hp, hc]

theorem SubmitChange_ignores_pool (db : DB) (m m' : Manager) (c : Context)
    (body : Except String SubmitChangeRequest) :
    (SubmitChange ⟨db, m⟩ c body).writes = (SubmitChange ⟨db, m'⟩ c body).writes ∧
      (SubmitChange ⟨db, m⟩ c body).resp = (SubmitChange ⟨db, m'⟩ c body).resp ∧
      (SubmitChange ⟨db, m⟩ c body).h.db = (SubmitChange ⟨db, m'⟩ c body).h.db ∧
      (SubmitChange ⟨db, m⟩ c body).h.discordManager = m := by
  cases body with
  | error e => exact ⟨rfl, rfl, rfl, rfl⟩
  | ok req =>
    cases hq : c.queryErr
    · cases hp : DB.First db req.TaskID with
      | none => simp [SubmitChange, hq, hp]
      | some p =>
        have d1 : entity.TaskActionReroll ≠ entity.TaskActionUpscale := by decide
        have d2 : entity.TaskActionReroll ≠ entity.TaskActionVariation := by decide
        have d3 : entity.TaskActionVariation ≠ entity.TaskActionUpscale := by decide
        by_cases hs : p.Status = entity.TaskStatus.Success
        · cases hc : c.createErr <;> cases hi : req.Index <;>
            by_cases h1 : req.Action = entity.TaskActionUpscale <;>
            by_cases h2 : req.Action = entity.TaskActionVariation <;>
            by_cases h3 : req.Action = entity.TaskActionReroll <;>
            simp [SubmitChange, hq, hp, hs, hc, hi, h1, h2, h3, d1, d2, d3]
        · simp [SubmitChange, hq, hp, hs]
    · simp [SubmitChange, hq]

/-- C12: every task written by `SubmitChange`, `SubmitShow`, `SubmitAction` or `SubmitModal`
(the child as created and as started) has the `ID` of the parent task found for the request
as its `ParentID` and the parent's `InstanceID` as its `InstanceID`; and the handlers do not
consult the selector: the tasks written, the response and the table they leave are the same
whatever the pool and the select mode of the manager (`m'` in place of the manager of `h`),
and the manager is left as it was. -/
theorem child_inherits_parent_worker (h : TaskHandler) (m' : Manager) (c : Context)
    (change : SubmitChangeRequest) (showReq : SubmitShowRequest) (action : SubmitActionRequest)
    (modal : SubmitModalRequest) :
    ((∀ t ∈ (SubmitChange h c (.ok change)).writes, ∃ p, h.db.First change.TaskID = some p ∧
          t.ParentID = p.ID ∧ t.InstanceID = p.InstanceID) ∧
      (∀ t ∈ (SubmitShow h c (.ok showReq)).writes, ∃ p, h.db.First showReq.TaskID = some p ∧
          t.ParentID = p.ID ∧ t.InstanceID = p.InstanceID) ∧
      (∀ t ∈ (SubmitAction h c (.ok action)).writes, ∃ p, h.db.First action.TaskID = some p ∧
          t.ParentID = p.ID ∧ t.InstanceID = p.InstanceID) ∧
      (∀ t ∈ (SubmitModal h c (.ok modal)).writes, ∃ p, h.db.First modal.TaskID = some p ∧
          t.ParentID = p.ID ∧ t.InstanceID = p.InstanceID)) ∧
    (((SubmitChange h c (.ok change)).writes
          = (SubmitChange { h with discordManager := m' } c (.ok change)).writes ∧
        (SubmitChange h c (.ok change)).resp
          = (SubmitChange { h with discordManager := m' } c (.ok change)).resp ∧
        (SubmitChange h c (.ok change)).h.db
          = (SubmitChange { h with discordManager := m' } c (.ok change)).h.db ∧
        (SubmitChange h c (.ok change)).h.discordManager = h.discordManager) ∧
      ((SubmitShow h c (.ok showReq)).writes
          = (SubmitShow { h with discordManager := m' } c (.ok showReq)).writes ∧
        (SubmitShow h c (.ok showReq)).resp
          = (SubmitShow { h with discordManager := m' } c (.ok showReq)).resp ∧
        (SubmitShow h c (.ok showReq)).h.db
          = (SubmitShow { h with discordManager := m' } c (.ok showReq)).h.db ∧
        (SubmitShow h c (.ok showReq)).h.discordManager = h.discordManager) ∧
      ((SubmitAction h c (.ok action)).writes
          = (SubmitAction { h with discordManager := m' } c (.ok action)).writes ∧
        (SubmitAction h c (.ok action)).resp
          = (SubmitAction { h with discordManager := m' } c (.ok action)).resp ∧
        (SubmitAction h c (.ok action)).h.db
          = (SubmitAction { h with discordManager := m' } c (.ok action)).h.db ∧
        (SubmitAction h c (.ok action)).h.discordManager = h.discordManager) ∧
      ((SubmitModal h c (.ok modal)).writes
          = (SubmitModal { h with discordManager := m' } c (.ok modal)).writes ∧
        (SubmitModal h c (.ok modal)).resp
          = (SubmitModal { h with discordManager := m' } c (.ok modal)).resp ∧
        (SubmitModal h c (.ok modal)).h.db
          = (SubmitModal { h with discordManager := m' } c (.ok modal)).h.db ∧
        (SubmitModal h c (.ok modal)).h.discordManager = h.discordManager)) :=
  ⟨⟨fun t ht => SubmitChange_child_inherits h c change t ht,
    fun t ht => SubmitShow_child_inherits h c showReq t ht,
    fun t ht => SubmitAction_child_inherits h c action t ht,
    fun t ht => SubmitModal_child_inherits h c modal t ht⟩,
   SubmitChange_ignores_pool h.db h.discordManager m' c (.ok change),
   SubmitShow_ignores_pool h.db h.discordManager m' c (.ok showReq),
   SubmitAction_ignores_pool h.db h.discordManager m' c (.ok action),
   SubmitModal_ignores_pool h.db h.discordManager m' c (.ok modal)⟩

/-- C12 at a concrete input: an `UPSCALE` child of the succeeded sample task, created by a
handler over the three-worker pool, is bound to the parent's worker `w1` and is the same
when the pool is empty. -/
theorem child_inherits_parent_worker_witness :
    (SubmitChange { db := [succeededTask], discordManager := { instances := threeWorkerPool } }
        (requestContext "t5" 5)
        (.ok { TaskID := "t0", Action := entity.TaskActionUpscale, Index := some 2 })).writes.map
        (fun t => (t.ParentID, t.InstanceID, t.Status, t.Description))
      = [("t0", "w1", entity.TaskStatus.NotStart, "/up t0 U2"),
         ("t0", "w1", entity.TaskStatus.Submitted, "/up t0 U2")] ∧
    (SubmitChange { db := [succeededTask], discordManager := { instances := threeWorkerPool } }
        (requestContext "t5" 5)
        (.ok { TaskID := "t0", Action := entity.TaskActionUpscale, Index := some 2 })).writes
      = (SubmitChange { db := [succeededTask], discordManager := { } }
        (requestContext "t5" 5)
        (.ok { TaskID := "t0", Action := entity.TaskActionUpscale, Index := some 2 })).writes :=
  ⟨by decide,
   (child_inherits_parent_worker
      { db := [succeededTask], discordManager := { instances := threeWorkerPool } } { }
      (requestContext "t5" 5)
      { TaskID := "t0", Action := entity.TaskActionUpscale, Index := some 2 } { } { } { }).2.1.1⟩

/-! ## Sorting: order and uniqueness of the result of `sortSlice` -/

theorem perm_orderedInsertLess {α : Type} (less : α → α → Bool) (x : α) (l : List α) :
    (orderedInsertLess less x l).Perm (x :: l) := by
  induction l with
  | nil => simp [orderedInsertLess]
  | cons y ys ih =>
    unfold orderedInsertLess
    split
    · exact List.Perm.refl _
    · exact (List.Perm.cons y ih).trans (List.Perm.swap x y ys)

theorem perm_foldl_orderedInsertLess {α : Type} (less : α → α → Bool) (l acc : List α) :
    (l.foldl (fun acc x => orderedInsertLess less x acc) acc).Perm (l ++ acc) := by
  induction l generalizing acc with
  | nil => simp
  | cons y ys ih =>
    simp only [List.foldl_cons, List.cons_append]
    refine (ih _).trans ?_
    exact (List.Perm.append_left ys (perm_orderedInsertLess less y acc)).trans List.perm_middle

theorem perm_sortSlice {α : Type} (less : α → α → Bool) (l : List α) :
    (sortSlice less l).Perm l := by
  have h := perm_foldl_orderedInsertLess less l []
  simpa [sortSlice] using h

theorem pairwise_orderedInsertLess {α : Type} (less : α → α → Bool)
    (hasymm : ∀ a b, less a b = true → less b a = false)
    (htrans : ∀ a b c, less a b = true → less b c = true → less a c = true)
    (x : α) (l : List α) (hl : l.Pairwise (fun a b => less b a = false)) :
    (orderedInsertLess less x l).Pairwise (fun a b => less b a = false) := by
  induction l with
  | nil => simp [orderedInsertLess]
  | cons y ys ih =>
    rw [List.pairwise_cons] at hl
    obtain ⟨hy, hys⟩ := hl
    unfold orderedInsertLess
    split
    · rename_i hxy
      refine List.Pairwise.cons ?_ (List.Pairwise.cons hy hys)
      intro z hz
      rcases List.mem_cons.1 hz with hz | hz
      · subst hz; exact hasymm _ _ hxy
      · cases hzx : less z x with
        | false => rfl
        | true =>
          have hzy := htrans z x y hzx hxy
          rw [hy z hz] at hzy
          exact absurd hzy (by simp)
    · rename_i hxy
      refine List.Pairwise.cons ?_ (ih hys)
      intro z hz
      rcases (mem_orderedInsertLess less x z ys).1 hz with hz | hz
      · subst hz; simpa using hxy
      · exact hy z hz

theorem pairwise_sortSlice {α : Type} (less : α → α → Bool)
    (hasymm : ∀ a b, less a b = true → less b a = false)
    (htrans : ∀ a b c, less a b = true → less b c = true → less a c = true) (l : List α) :
    (sortSlice less l).Pairwise (fun a b => less b a = false) := by
  have key : ∀ (l acc : List α), acc.Pairwise (fun a b => less b a = false) →
      (l.foldl (fun acc x => orderedInsertLess less x acc) acc).Pairwise
        (fun a b => less b a = false) := by
    intro l
    induction l with
    | nil => intro acc h; simpa using h
    | cons y ys ih =>
      intro acc h
      exact ih _ (pairwise_orderedInsertLess less hasymm htrans y acc h)
  exact key l [] List.Pairwise.nil

theorem head_sortSlice_minimal {α : Type} (less : α → α → Bool)
    (hasymm : ∀ a b, less a b = true → less b a = false)
    (htrans : ∀ a b c, less a b = true → less b c = true → less a c = true) (l : List α)
    (x : α) (hx : (sortSlice less l).head? = some x) : x ∈ l ∧ ∀ y ∈ l, less y x = false := by
  have hp := pairwise_sortSlice less hasymm htrans l
  cases hs : sortSlice less l with
  | nil => simp [hs] at hx
  | cons z zs =>
    rw [hs] at hx hp
    simp only [List.head?_cons, Option.some.injEq] at hx
    subst hx
    have hmem : ∀ y, y ∈ l ↔ y ∈ z :: zs := fun y => by rw [← hs, mem_sortSlice]
    refine ⟨(hmem z).2 (List.mem_cons_self _ _), ?_⟩
    intro y hy
    rcases List.mem_cons.1 ((hmem y).1 hy) with h | h
    · subst h
      cases hyy : less y y with
      | false => rfl
      | true => have := hasymm y y hyy; rw [hyy] at this; exact absurd this (by simp)
    · exact (List.pairwise_cons.1 hp).1 y h

theorem sorted_perm_unique {α : Type} (less : α → α → Bool) (l₁ l₂ : List α)
    (hperm : l₁.Perm l₂) (h₁ : l₁.Pairwise (fun a b => less b a = false))
    (h₂ : l₂.Pairwise (fun a b => less b a = false))
    (hcmp : l₁.Pairwise (fun a b => less a b = true ∨ less b a = true)) : l₁ = l₂ := by
  induction l₁ generalizing l₂ with
  | nil => exact (List.Perm.nil_eq hperm)
  | cons a t₁ ih =>
    cases l₂ with
    | nil => exact absurd hperm.symm (List.Perm.nil_eq · |> fun h => by cases h)
    | cons b t₂ =>
      have hab : a = b := by
        by_contra hne
        have hb : b ∈ t₁ := by
          have : b ∈ a :: t₁ := hperm.symm.subset (List.mem_cons_self _ _)
          rcases List.mem_cons.1 this with h | h
          · exact absurd h.symm hne
          · exact h
        have ha : a ∈ t₂ := by
          have : a ∈ b :: t₂ := hperm.subset (List.mem_cons_self _ _)
          rcases List.mem_cons.1 this with h | h
          · exact absurd h hne
          · exact h
        have h1 := (List.pairwise_cons.1 h₁).1 b hb
        have h2 := (List.pairwise_cons.1 h₂).1 a ha
        rcases (List.pairwise_cons.1 hcmp).1 b hb with h | h
        · rw [h2] at h; exact absurd h (by simp)
        · rw [h1] at h; exact absurd h (by simp)
      subst hab
      rw [ih t₂ hperm.cons_inv (List.pairwise_cons.1 h₁).2 (List.pairwise_cons.1 h₂).2
        (List.pairwise_cons.1 hcmp).2]

/-! ## The strategies `BestWaitIdle` and `Polling` -/

theorem bestWaitIdleLess_asymm (a b : Instance) (h : bestWaitIdleLess a b = true) :
    bestWaitIdleLess b a = false := by
  simp only [bestWaitIdleLess, decide_eq_true_eq, decide_eq_false_iff_not] at *
  omega

theorem bestWaitIdleLess_trans (a b c : Instance) (h₁ : bestWaitIdleLess a b = true)
    (h₂ : bestWaitIdleLess b c = true) : bestWaitIdleLess a c = true := by
  simp only [bestWaitIdleLess, decide_eq_true_eq] at *
  omega

theorem pollingLess_iff (a b : Instance) :
    pollingLess a b = true ↔
      a.Account.SortKey < b.Account.SortKey ∨
        (a.Account.SortKey = b.Account.SortKey ∧ a.Account.ID < b.Account.ID) := by
  unfold pollingLess Instance.GetAccount
  by_cases h : a.Account.SortKey = b.Account.SortKey
  · simp [h]
  · simp [h]

theorem pollingLess_asymm (a b : Instance) (h : pollingLess a b = true) :
    pollingLess b a = false := by
  cases hba : pollingLess b a with
  | false => rfl
  | true =>
    rw [pollingLess_iff] at h hba
    rcases h with h | ⟨h1, h2⟩ <;> rcases hba with h' | ⟨h1', h2'⟩
    · omega
    · omega
    · omega
    · exact absurd h2' (lt_asymm h2)

theorem pollingLess_trans (a b c : Instance) (h₁ : pollingLess a b = true)
    (h₂ : pollingLess b c = true) : pollingLess a c = true := by
  rw [pollingLess_iff] at *
  rcases h₁ with h | ⟨h1, h2⟩ <;> rcases h₂ with h' | ⟨h1', h2'⟩
  · left; omega
  · left; omega
  · left; omega
  · right; exact ⟨by omega, lt_trans h2 h2'⟩

theorem pollingLess_total_of_ne (a b : Instance) (h : a.Account.ID ≠ b.Account.ID) :
    pollingLess a b = true ∨ pollingLess b a = true := by
  rw [pollingLess_iff, pollingLess_iff]
  rcases lt_trichotomy a.Account.SortKey b.Account.SortKey with hs | hs | hs
  · exact Or.inl (Or.inl hs)
  · rcases lt_or_gt_of_ne h with hi | hi
    · exact Or.inl (Or.inr ⟨hs, hi⟩)
    · exact Or.inr (Or.inr ⟨hs.symm, hi⟩)
  · exact Or.inr (Or.inl hs)

/-- C15, counterexample: of two candidates with `LastPing` 10 and 20, `selectBestWaitIdle`
returns the one with `LastPing` 20, not the oldest; of two candidates with equal `LastPing`
and IDs `b`, `a` it returns `b` when `b` is supplied first and `a` when `a` is supplied
first. -/
theorem selectBestWaitIdle_returns_latest :
    selectBestWaitIdle [readyWorker "w1" 10 1, readyWorker "w2" 20 1]
        = some (readyWorker "w2" 20 1) ∧
      (readyWorker "w1" 10 1).LastPing < (readyWorker "w2" 20 1).LastPing ∧
      selectBestWaitIdle [readyWorker "b" 10 1, readyWorker "a" 10 1]
        = some (readyWorker "b" 10 1) ∧
      selectBestWaitIdle [readyWorker "a" 10 1, readyWorker "b" 10 1]
        = some (readyWorker "a" 10 1) ∧
      (readyWorker "a" 10 1).ID < (readyWorker "b" 10 1).ID := by
  refine ⟨by decide, by decide, by decide, by decide, ?_⟩
  show ("a" : String) < "b"
  rw [String.lt_iff_toList_lt]
  decide

/-- C15, amended: for every non-empty candidate list `selectBestWaitIdle` returns a candidate
with the most recent `LastPing` (no candidate's `LastPing` is after its); when it is the only
candidate with that `LastPing`, it is returned whatever the order in which the candidates are
supplied. -/
theorem selectBestWaitIdle_returns_most_recent (l : List Instance) (hne : l ≠ []) :
    ∃ x, selectBestWaitIdle l = some x ∧ x ∈ l ∧ (∀ y ∈ l, y.LastPing ≤ x.LastPing) ∧
      ((∀ y ∈ l, y.LastPing = x.LastPing → y = x) →
        ∀ l' : List Instance, l'.Perm l → selectBestWaitIdle l' = some x) := by
  have hmax : ∀ (l : List Instance) (x : Instance), selectBestWaitIdle l = some x →
      x ∈ l ∧ ∀ y ∈ l, y.LastPing ≤ x.LastPing := by
    intro l x hx
    unfold selectBestWaitIdle at hx
    split at hx
    · cases hx
    · obtain ⟨hmem, hmin⟩ := head_sortSlice_minimal bestWaitIdleLess bestWaitIdleLess_asymm
        bestWaitIdleLess_trans l x hx
      refine ⟨hmem, fun y hy => ?_⟩
      have := hmin y hy
      simp only [bestWaitIdleLess, decide_eq_false_iff_not] at this
      omega
  obtain ⟨x, hx⟩ := selectBestWaitIdle_isSome l hne
  obtain ⟨hmem, hle⟩ := hmax l x hx
  refine ⟨x, hx, hmem, hle, ?_⟩
  intro huniq l' hperm
  have hne' : l' ≠ [] := by
    intro h
    subst h
    exact hne hperm.symm.eq_nil
  obtain ⟨x', hx'⟩ := selectBestWaitIdle_isSome l' hne'
  obtain ⟨hmem', hle'⟩ := hmax l' x' hx'
  have h1 : x'.LastPing ≤ x.LastPing := hle x' (hperm.subset hmem')
  have h2 : x.LastPing ≤ x'.LastPing := hle' x (hperm.symm.subset hmem)
  have : x' = x := huniq x' (hperm.subset hmem') (by omega)
  rw [hx', this]

/-- C15 (amended) at a concrete input: two candidates with `LastPing` 10 and 20. -/
theorem selectBestWaitIdle_returns_most_recent_witness :
    [readyWorker "w1" 10 1, readyWorker "w2" 20 1] ≠ [] ∧
      ∃ x, selectBestWaitIdle [readyWorker "w1" 10 1, readyWorker "w2" 20 1] = some x ∧
        x ∈ [readyWorker "w1" 10 1, readyWorker "w2" 20 1] ∧
        (∀ y ∈ [readyWorker "w1" 10 1, readyWorker "w2" 20 1], y.LastPing ≤ x.LastPing) ∧
        ((∀ y ∈ [readyWorker "w1" 10 1, readyWorker "w2" 20 1],
            y.LastPing = x.LastPing → y = x) →
          ∀ l' : List Instance, l'.Perm [readyWorker "w1" 10 1, readyWorker "w2" 20 1] →
            selectBestWaitIdle l' = some x) :=
  ⟨by decide, selectBestWaitIdle_returns_most_recent _ (by decide)⟩

theorem SelectAccount_polling (s : AccountSelector) (instances : InstanceMap)
    (filter : Option entity.AccountFilter) (draw : Nat) (hmode : s.mode = AccountSelectPolling)
    (hne : getAvailableInstances instances filter ≠ []) :
    SelectAccount s instances filter draw
      = selectByPolling s (getAvailableInstances instances filter) := by
  have h1 : ¬ AccountSelectPolling = AccountSelectBestWaitIdle := by decide
  have h2 : ¬ AccountSelectPolling = AccountSelectRandom := by decide
  have h3 : ¬ AccountSelectPolling = AccountSelectWeight := by decide
  unfold SelectAccount
  simp only [hmode]
  rw [if_neg (by simpa using hne), if_neg h1, if_neg h2, if_neg h3]
  simp

theorem selectByPolling_from_zero (s : AccountSelector) (l : List Instance)
    (hzero : s.pollingIndex = 0) (hne : l ≠ []) :
    ∃ x, (sortSlice pollingLess l).head? = some x ∧
      selectByPolling s l = .ok (some x, { s with pollingIndex := 1 }) := by
  unfold selectByPolling
  rw [if_neg (by simpa using hne), hzero]
  cases hs : sortSlice pollingLess l with
  | nil => exact absurd hs (sortSlice_ne_nil _ l hne)
  | cons y ys =>
    refine ⟨y, rfl, ?_⟩
    have hw : wrapInt 1 = 1 := by decide
    simp [index, bind, Except.bind, pure, Except.pure, hw]

/-- C16: for every selector state and every mode `m`, after `SetSelectMode(m)` the mode is `m`
and the cursor is 0 (and `SetAccountSelectMode` of the manager changes nothing but the
selector); hence, after a switch to `Polling`, a selection over a pool with at least one
available instance returns the first candidate of the list sorted by (`Sort`, account `ID`),
a candidate that no available candidate precedes in that order, and leaves the cursor
at 1. -/
theorem SetSelectMode_resets_cursor (s : AccountSelector) (m : AccountSelectMode)
    (mgr : Manager) :
    (SetSelectMode s m).mode = m ∧ (SetSelectMode s m).pollingIndex = 0 ∧
      mgr.SetAccountSelectMode m
        = { mgr with selector := { mode := m, pollingIndex := 0 } } ∧
      ∀ (instances : InstanceMap) (filter : Option entity.AccountFilter) (draw : Nat),
        getAvailableInstances instances filter ≠ [] →
        ∃ x, SelectAccount (SetSelectMode s AccountSelectPolling) instances filter draw
            = .ok (some x, { mode := AccountSelectPolling, pollingIndex := 1 }) ∧
          (sortSlice pollingLess (getAvailableInstances instances filter)).head? = some x ∧
          x ∈ getAvailableInstances instances filter ∧
          ∀ y ∈ getAvailableInstances instances filter, pollingLess y x = false := by
  refine ⟨rfl, rfl, rfl, ?_⟩
  intro instances filter draw hne
  obtain ⟨x, hhead, hsel⟩ := selectByPolling_from_zero (SetSelectMode s AccountSelectPolling)
    (getAvailableInstances instances filter) rfl hne
  obtain ⟨hmem, hmin⟩ := head_sortSlice_minimal pollingLess pollingLess_asymm pollingLess_trans
    _ x hhead
  refine ⟨x, ?_, hhead, hmem, hmin⟩
  rw [SelectAccount_polling _ instances filter draw rfl hne, hsel]
  rfl

/-- C16 at a concrete input: a selector in `Weight` mode with cursor 7 is switched to `Polling`;
on the three-worker pool supplied in the order `w3`, `w1`, `w2`, with sort keys 2, 1, 3, the
next selection returns `w1`. -/
theorem SetSelectMode_resets_cursor_witness :
    (SetSelectMode { mode := AccountSelectWeight, pollingIndex := 7 } AccountSelectPolling)
        = { mode := AccountSelectPolling, pollingIndex := 0 } ∧
      SelectAccount
          (SetSelectMode { mode := AccountSelectWeight, pollingIndex := 7 } AccountSelectPolling)
          sortedKeyPool none 0
        = .ok (some (sortedWorker "w1" 1), { mode := AccountSelectPolling, pollingIndex := 1 }) :=
  have h := SetSelectMode_resets_cursor { mode := AccountSelectWeight, pollingIndex := 7 }
    AccountSelectPolling { }
  ⟨by rw [AccountSelector.mk.injEq]; exact ⟨h.1, h.2.1⟩, rfl⟩

/-! ## Round robin: fairness of a run of `Polling` selections -/

theorem wrapInt_of_range (z : Int) (h0 : -2 ^ 63 ≤ z) (h1 : z < 2 ^ 63) : wrapInt z = z := by
  unfold wrapInt
  rw [Int.emod_eq_of_lt (by omega) (by omega)]
  omega

theorem countP_residue_range (N p b : Nat) (hN : 0 < N) (hp : p < N) :
    (List.range b).countP (fun i => decide (i % N = p))
      = b / N + if p < b % N then 1 else 0 := by
  have h := Nat.count_modEq_card b hN p
  rw [Nat.mod_eq_of_lt hp] at h
  rw [← h]
  unfold Nat.count
  congr 1
  funext i
  simp [Nat.ModEq, Nat.mod_eq_of_lt hp]

theorem countP_window_add_prefix (P : Nat → Bool) (c n : Nat) :
    (List.range' c n).countP P + (List.range c).countP P = (List.range (c + n)).countP P := by
  have h := List.range'_append 0 c n 1
  simp only [Nat.zero_add, Nat.one_mul] at h
  rw [List.range_eq_range', List.range_eq_range', Nat.add_comm c n, ← h, List.countP_append]
  omega

theorem div_mod_of_eq (N x d m : Nat) (hN : 0 < N) (h : m + N * d = x) (hm : m < N) :
    x / N = d ∧ x % N = m := (Nat.div_mod_unique hN).2 ⟨h, hm⟩

/-- Among `n` consecutive numbers, those with a given residue modulo `N` number
`⌊n / N⌋` or `⌈n / N⌉`. -/
theorem countP_residue_window (N p c n : Nat) (hN : 0 < N) (hp : p < N) :
    (List.range' c n).countP (fun i => decide (i % N = p)) = n / N ∨
      (List.range' c n).countP (fun i => decide (i % N = p)) = (n + N - 1) / N := by
  have hsub := countP_window_add_prefix (fun i => decide (i % N = p)) c n
  rw [countP_residue_range N p c hN hp, countP_residue_range N p (c + n) hN hp] at hsub
  have hc := Nat.div_add_mod c N
  have hn := Nat.div_add_mod n N
  have hs : c % N < N := Nat.mod_lt _ hN
  have hr : n % N < N := Nat.mod_lt _ hN
  generalize c / N = a at *
  generalize c % N = s at *
  generalize n / N = q at *
  generalize n % N = r at *
  generalize hf : List.countP (fun i => decide (i % N = p)) (List.range' c n) = f at *
  have hmul : N * (a + q) = N * a + N * q := Nat.mul_add N a q
  have hmul1 : N * (a + q + 1) = N * a + N * q + N := by rw [Nat.mul_add, Nat.mul_add]; omega
  have hmulq1 : N * (q + 1) = N * q + N := by rw [Nat.mul_add]; omega
  have hceil : (n + N - 1) / N = if r = 0 then q else q + 1 := by
    split_ifs with h0
    · exact (div_mod_of_eq N _ q (N - 1) hN (by omega) (by omega)).1
    · exact (div_mod_of_eq N _ (q + 1) (r - 1) hN (by omega) (by omega)).1
  rw [hceil]
  by_cases hsr : s + r < N
  · obtain ⟨hd, hm⟩ := div_mod_of_eq N (c + n) (a + q) (s + r) hN (by omega) hsr
    rw [hd, hm] at hsub
    split_ifs at hsub ⊢ <;> omega
  · obtain ⟨hd, hm⟩ := div_mod_of_eq N (c + n) (a + q + 1) (s + r - N) hN (by omega) (by omega)
    rw [hd, hm] at hsub
    split_ifs at hsub ⊢ <;> omega

theorem getAvailableInstances_perm (pool pool' : InstanceMap)
    (filter : Option entity.AccountFilter) (h : pool'.Perm pool) :
    (getAvailableInstances pool' filter).Perm (getAvailableInstances pool filter) := by
  unfold getAvailableInstances
  exact (h.map Prod.snd).filter _

/-- With pairwise distinct account IDs, the sorted candidate list does not depend on the
order in which the candidates are supplied. -/
theorem sortSlice_pollingLess_perm (l l' : List Instance) (hperm : l'.Perm l)
    (hdist : l.Pairwise (fun a b => a.Account.ID ≠ b.Account.ID)) :
    sortSlice pollingLess l' = sortSlice pollingLess l := by
  have hp : (sortSlice pollingLess l').Perm (sortSlice pollingLess l) :=
    (perm_sortSlice pollingLess l').trans (hperm.trans (perm_sortSlice pollingLess l).symm)
  have hd' : (sortSlice pollingLess l').Pairwise (fun a b => a.Account.ID ≠ b.Account.ID) :=
    (List.Perm.pairwise_iff (fun {a b} (h : a.Account.ID ≠ b.Account.ID) => h.symm)
      ((perm_sortSlice pollingLess l').trans hperm)).2 hdist
  exact sorted_perm_unique pollingLess _ _ hp
    (pairwise_sortSlice pollingLess pollingLess_asymm pollingLess_trans l')
    (pairwise_sortSlice pollingLess pollingLess_asymm pollingLess_trans l)
    (hd'.imp (fun {a b} h => pollingLess_total_of_ne a b h))

theorem index_natCast {α : Type} (xs : List α) (k : Nat) (hk : k < xs.length) :
    index xs (k : Int) = .ok (xs.get ⟨k, hk⟩) := by
  unfold index
  rw [if_neg (by omega)]
  simp [List.getElem?_eq_getElem hk]

theorem SelectAccount_polling_step (c : Nat) (hc : c < 2 ^ 63) (instances : InstanceMap)
    (filter : Option entity.AccountFilter) (draw : Nat) (S : List Instance)
    (hS : sortSlice pollingLess (getAvailableInstances instances filter) = S) (hne : S ≠ []) :
    SelectAccount { mode := AccountSelectPolling, pollingIndex := (c : Int) } instances filter draw
      = .ok (S[c % S.length]?,
          { mode := AccountSelectPolling, pollingIndex := wrapInt ((c : Int) + 1) }) := by
  have hav : getAvailableInstances instances filter ≠ [] := by
    intro h
    rw [h] at hS
    exact hne hS.symm
  have hpos : 0 < S.length := List.length_pos.mpr hne
  have hk : c % S.length < S.length := Nat.mod_lt _ hpos
  rw [SelectAccount_polling _ instances filter draw rfl hav]
  unfold selectByPolling
  rw [if_neg (by simpa using hav)]
  simp only [hS]
  have htmod : Int.tmod (c : Int) (S.length : Int) = ((c % S.length : Nat) : Int) := by
    rw [Int.tmod_eq_emod (by omega) (by omega)]
    exact (Int.natCast_mod c S.length).symm
  rw [htmod, index_natCast S _ hk]
  simp [bind, Except.bind, pure, Except.pure, List.getElem?_eq_getElem hk]

theorem selectRun_polling (filter : Option entity.AccountFilter) (S : List Instance)
    (hne : S ≠ []) (calls : List (InstanceMap × Nat))
    (hS : ∀ call ∈ calls, sortSlice pollingLess (getAvailableInstances call.1 filter) = S)
    (c : Nat) (hbound : c + calls.length ≤ 2 ^ 63) (hc : c < 2 ^ 63) :
    selectRun { mode := AccountSelectPolling, pollingIndex := (c : Int) } filter calls
      = .ok ((List.range' c calls.length).map (fun i => S[i % S.length]?),
          { mode := AccountSelectPolling,
            pollingIndex := if calls.length = 0 then (c : Int)
              else wrapInt (((c + calls.length : Nat) : Int)) }) := by
  induction calls generalizing c with
  | nil => simp [selectRun]
  | cons call rest ih =>
    obtain ⟨instances, draw⟩ := call
    have hstep := SelectAccount_polling_step c hc instances filter draw S
      (hS (instances, draw) (List.mem_cons_self _ _)) hne
    simp only [List.length_cons] at hbound
    by_cases hrest : rest = []
    · subst hrest
      simp [selectRun, hstep, List.range']
    · have hlen : 0 < rest.length := List.length_pos.mpr hrest
      have hw : wrapInt ((c : Int) + 1) = ((c + 1 : Nat) : Int) := by
        rw [wrapInt_of_range _ (by omega) (by omega)]
        push_cast
        rfl
      have ih' := ih (fun call hcall => hS call (List.mem_cons_of_mem _ hcall)) (c + 1)
        (by omega) (by omega)
      simp only [selectRun, hstep, hw, ih']
      have hl : rest.length ≠ 0 := by omega
      simp only [List.length_cons, List.range', List.map_cons, if_neg hl]
      have e : c + 1 + rest.length = c + (rest.length + 1) := by omega
      simp [e]

theorem count_polling_results (S : List Instance) (hnd : S.Nodup) (w : Instance) (hw : w ∈ S)
    (c n : Nat) :
    ((List.range' c n).map (fun i => S[i % S.length]?)).count (some w) = n / S.length ∨
      ((List.range' c n).map (fun i => S[i % S.length]?)).count (some w)
        = (n + S.length - 1) / S.length := by
  obtain ⟨p, hp, hpw⟩ := List.getElem_of_mem hw
  have hpos : 0 < S.length := by omega
  have hcount : ((List.range' c n).map (fun i => S[i % S.length]?)).count (some w)
      = (List.range' c n).countP (fun i => decide (i % S.length = p)) := by
    rw [List.count_eq_countP, List.countP_map]
    apply List.countP_congr
    intro i _
    have hi : i % S.length < S.length := Nat.mod_lt _ hpos
    simp only [Function.comp, List.getElem?_eq_getElem hi, beq_iff_eq, Option.some.injEq,
      decide_eq_true_eq]
    rw [← hpw]
    exact hnd.getElem_inj_iff
  rw [hcount]
  exact countP_residue_window S.length p c n hpos hp

/-- C13, amended: in `Polling` mode, for a fixed pool (visited in any order at each call)
whose available candidates are `N >= 1` workers with pairwise distinct account IDs, and
starting from any cursor `c >= 0` with `c + N + k <= 2^63` (so that the cursor does not
wrap during the run), a run of `N + k` consecutive `SelectAccount` calls returns, and
returns each of the `N` workers either `⌊(N+k)/N⌋` or `⌈(N+k)/N⌉` times. -/
theorem polling_run_is_fair (pool : InstanceMap) (filter : Option entity.AccountFilter)
    (calls : List (InstanceMap × Nat)) (c k : Nat)
    (hne : getAvailableInstances pool filter ≠ [])
    (hdist : (getAvailableInstances pool filter).Pairwise
      (fun a b => a.Account.ID ≠ b.Account.ID))
    (hperm : ∀ call ∈ calls, call.1.Perm pool)
    (hlen : calls.length = (getAvailableInstances pool filter).length + k)
    (hbound : c + calls.length ≤ 2 ^ 63) :
    ∃ results s',
      selectRun { mode := AccountSelectPolling, pollingIndex := (c : Int) } filter calls
        = .ok (results, s') ∧
      results.length = calls.length ∧
      ∀ w ∈ getAvailableInstances pool filter,
        results.count (some w)
            = calls.length / (getAvailableInstances pool filter).length ∨
          results.count (some w)
            = (calls.length + (getAvailableInstances pool filter).length - 1)
                / (getAvailableInstances pool filter).length := by
  have hN : 0 < (getAvailableInstances pool filter).length := List.length_pos.mpr hne
  have hSne : sortSlice pollingLess (getAvailableInstances pool filter) ≠ [] :=
    sortSlice_ne_nil _ _ hne
  have hS : ∀ call ∈ calls, sortSlice pollingLess (getAvailableInstances call.1 filter)
      = sortSlice pollingLess (getAvailableInstances pool filter) := fun call hcall =>
    sortSlice_pollingLess_perm _ _ (getAvailableInstances_perm pool call.1 filter
      (hperm call hcall)) hdist
  have hrun := selectRun_polling filter _ hSne calls hS c hbound (by omega)
  have hnd : (sortSlice pollingLess (getAvailableInstances pool filter)).Nodup := by
    have h1 : (getAvailableInstances pool filter).Nodup :=
      hdist.imp (fun {a b} h hab => h (by rw [hab]))
    exact (perm_sortSlice pollingLess _).nodup_iff.2 h1
  refine ⟨_, _, hrun, by simp, ?_⟩
  intro w hw
  have hcount := count_polling_results _ hnd w ((mem_sortSlice _ w _).2 hw) c calls.length
  simp only [length_sortSlice] at hcount ⊢
  exact hcount

/-- C13 (amended) at a concrete input: four calls from cursor 5 on the pool of three workers
with distinct sort keys, visited in two different orders. -/
theorem polling_run_is_fair_witness :
    (selectRun { mode := AccountSelectPolling, pollingIndex := 5 } none
        [(sortedKeyPool, 0), (sortedKeyPool.reverse, 0), (sortedKeyPool, 0),
          (sortedKeyPool.reverse, 0)]).map (fun r => r.1.map (fun o => o.map Instance.ID))
      = .ok [some "w2", some "w1", some "w3", some "w2"] ∧
    ∃ results s',
      selectRun { mode := AccountSelectPolling, pollingIndex := ((5 : Nat) : Int) } none
          [(sortedKeyPool, 0), (sortedKeyPool.reverse, 0), (sortedKeyPool, 0),
            (sortedKeyPool.reverse, 0)]
        = .ok (results, s') ∧
      results.length = 4 ∧
      ∀ w ∈ getAvailableInstances sortedKeyPool none,
        results.count (some w) = 4 / 3 ∨ results.count (some w) = (4 + 3 - 1) / 3 :=
  ⟨rfl,
   polling_run_is_fair sortedKeyPool none
     [(sortedKeyPool, 0), (sortedKeyPool.reverse, 0), (sortedKeyPool, 0),
       (sortedKeyPool.reverse, 0)] 5 1 (by decide)
     (by
      have h : getAvailableInstances sortedKeyPool none
          = [sortedWorker "w3" 2, sortedWorker "w1" 1, sortedWorker "w2" 3] := rfl
      rw [h]
      simp [sortedWorker])
     (by
      intro call hcall
      simp only [List.mem_cons, List.mem_singleton, List.not_mem_nil, or_false] at hcall
      rcases hcall with h | h | h | h <;> subst h
      · exact List.Perm.refl _
      · exact List.reverse_perm _
      · exact List.Perm.refl _
      · exact List.reverse_perm _)
     rfl (by decide)⟩

/-- C13, counterexample: with three available workers and the cursor at `2^63 - 1`, the
first of three `Polling` selections returns a worker and wraps the cursor to `-2^63`, and the
second one computes the index `-2` and panics: the run of `N + 0` calls returns nothing. -/
theorem polling_run_panics_at_wrap :
    (getAvailableInstances sortedKeyPool none).length = 3 ∧
      (0 : Int) ≤ 2 ^ 63 - 1 ∧
      (SelectAccount { mode := AccountSelectPolling, pollingIndex := 2 ^ 63 - 1 } sortedKeyPool
          none 0).map (fun r => r.2.pollingIndex) = .ok (-2 ^ 63) ∧
      Int.tmod (-2 ^ 63) 3 = -2 ∧
      selectRun { mode := AccountSelectPolling, pollingIndex := 2 ^ 63 - 1 } none
          [(sortedKeyPool, 0), (sortedKeyPool, 0), (sortedKeyPool, 0)]
        = .error "index out of range" :=
  ⟨rfl, by decide, rfl, by decide, rfl⟩

/-! ## Weighted selection -/

theorem effectiveWeight_pos (x : Instance) : 1 ≤ effectiveWeight x := by
  unfold effectiveWeight
  split <;> omega

theorem weightSum_cons (y : Instance) (ys : List Instance) :
    weightSum (y :: ys) = effectiveWeight y + weightSum ys := by
  simp [weightSum]

theorem weightSum_nonneg (l : List Instance) : 0 ≤ weightSum l := by
  induction l with
  | nil => simp [weightSum]
  | cons y ys ih =>
    rw [weightSum_cons]
    have := effectiveWeight_pos y
    omega

theorem length_le_weightSum (l : List Instance) : (l.length : Int) ≤ weightSum l := by
  induction l with
  | nil => simp [weightSum]
  | cons y ys ih =>
    rw [weightSum_cons]
    have := effectiveWeight_pos y
    simp only [List.length_cons]
    push_cast
    omega

theorem foldl_wrap_eq (l : List Instance) (acc : Int) (h0 : 0 ≤ acc)
    (h1 : acc + weightSum l < 2 ^ 63) :
    l.foldl (fun a inst => wrapInt (a + effectiveWeight inst)) acc = acc + weightSum l := by
  induction l generalizing acc with
  | nil => simp [weightSum]
  | cons y ys ih =>
    rw [weightSum_cons] at h1
    have hy := effectiveWeight_pos y
    have hs := weightSum_nonneg ys
    simp only [List.foldl_cons]
    rw [wrapInt_of_range _ (by omega) (by omega), ih _ (by omega) (by omega), weightSum_cons]
    omega

theorem totalWeight_eq_weightSum (l : List Instance) (h : weightSum l < 2 ^ 63) :
    totalWeight l = weightSum l := by
  unfold totalWeight
  rw [foldl_wrap_eq l 0 (le_refl _) (by omega)]
  omega

theorem weightBefore_nonneg (x : Instance) (l : List Instance) : 0 ≤ weightBefore x l := by
  induction l with
  | nil => simp [weightBefore]
  | cons y ys ih =>
    unfold weightBefore
    have := effectiveWeight_pos y
    split <;> omega

theorem weightBefore_add_le (x : Instance) (l : List Instance) (hx : x ∈ l) :
    weightBefore x l + effectiveWeight x ≤ weightSum l := by
  induction l with
  | nil => simp at hx
  | cons y ys ih =>
    rw [weightSum_cons]
    unfold weightBefore
    have hs := weightSum_nonneg ys
    split
    · rename_i h; subst h; omega
    · rename_i h
      rcases List.mem_cons.1 hx with h' | h'
      · exact absurd h'.symm h
      · have := ih h'
        omega

theorem weightScan_none (r : Int) (l : List Instance) (cur : Int) (h0 : 0 ≤ cur)
    (hcr : cur ≤ r) (h1 : cur + weightSum l < 2 ^ 63) (h : weightScan r cur l = none) :
    cur + weightSum l ≤ r := by
  induction l generalizing cur with
  | nil => simpa [weightSum] using hcr
  | cons y ys ih =>
    rw [weightSum_cons] at h1 ⊢
    have hy := effectiveWeight_pos y
    have hs := weightSum_nonneg ys
    simp only [weightScan] at h
    rw [wrapInt_of_range _ (by omega) (by omega)] at h
    split at h
    · cases h
    · have := ih _ (by omega) (by omega) (by omega) h
      omega

theorem weightScan_eq_some_iff (r : Int) (l : List Instance) (cur : Int) (x : Instance)
    (hnd : l.Nodup) (hx : x ∈ l) (h0 : 0 ≤ cur) (hcr : cur ≤ r)
    (h1 : cur + weightSum l < 2 ^ 63) :
    weightScan r cur l = some x ↔
      cur + weightBefore x l ≤ r ∧ r < cur + weightBefore x l + effectiveWeight x := by
  induction l generalizing cur with
  | nil => simp at hx
  | cons y ys ih =>
    rw [weightSum_cons] at h1
    have hy := effectiveWeight_pos y
    have hs := weightSum_nonneg ys
    have hb := weightBefore_nonneg x ys
    obtain ⟨hynot, hnd'⟩ := List.nodup_cons.1 hnd
    simp only [weightScan]
    rw [wrapInt_of_range _ (by omega) (by omega)]
    by_cases hyx : y = x
    · subst hyx
      simp only [weightBefore, if_true]
      split
      · simp only [true_iff]
        omega
      · rename_i hgt
        constructor
        · intro h
          exact absurd (weightScan_mem _ _ _ _ h) hynot
        · intro h
          omega
    · have hx' : x ∈ ys := by
        rcases List.mem_cons.1 hx with h | h
        · exact absurd h.symm hyx
        · exact h
      simp only [weightBefore, if_neg hyx]
      split
      · rename_i hgt
        simp only [Option.some.injEq, hyx, false_iff]
        omega
      · rename_i hgt
        rw [ih _ hnd' hx' (by omega) (by omega) (by omega)]
        constructor <;> intro h <;> omega

theorem returnsCandidate_eq_decide (l : List Instance) (x : Instance) (r : Nat)
    (hnd : l.Nodup) (hx : x ∈ l) (hW : weightSum l < 2 ^ 63) (hr : (r : Int) < weightSum l) :
    returnsCandidate r l x
      = decide (weightBefore x l ≤ (r : Int) ∧
          (r : Int) < weightBefore x l + effectiveWeight x) := by
  have hne : l ≠ [] := List.ne_nil_of_mem hx
  have hlen := length_le_weightSum l
  have hpos : 0 < l.length := List.length_pos.mpr hne
  have htot := totalWeight_eq_weightSum l hW
  have hI : Intn r (weightSum l) = .ok (r : Int) := by
    unfold Intn
    rw [if_neg (by omega), Int.emod_eq_of_lt (by omega) hr]
  unfold returnsCandidate selectByWeight
  rw [if_neg (by omega)]
  simp only [htot]
  rw [if_neg (by omega), hI]
  simp only [bind, Except.bind]
  cases hscan : weightScan (r : Int) 0 l with
  | none =>
    have := weightScan_none (r : Int) l 0 (le_refl _) (by omega) (by omega) hscan
    omega
  | some y =>
    have hiff := weightScan_eq_some_iff (r : Int) l 0 x hnd hx (le_refl _) (by omega) (by omega)
    rw [hscan] at hiff
    simp only [Option.some.injEq, zero_add] at hiff
    simp only [pure, Except.pure]
    by_cases hyx : y = x
    · rw [decide_eq_true (hiff.1 hyx)]
      simp [hyx]
    · rw [decide_eq_false (fun h => hyx (hiff.2 h))]
      simp [hyx]

theorem countP_interval (W a b : Nat) (hab : a ≤ b) :
    (List.range W).countP (fun r => decide (a ≤ r ∧ r < b))
      = (if b ≤ W then b else W) - (if a ≤ W then a else W) := by
  induction W with
  | zero =>
    simp only [List.range_zero, List.countP_nil]
    split_ifs <;> omega
  | succ n ih =>
    rw [List.range_succ, List.countP_append, ih]
    simp only [List.countP_cons, List.countP_nil, zero_add]
    split_ifs <;> simp_all <;> omega

/-- Without overflow the weighted selection is proportional: when the candidates are
pairwise distinct and their effective weights sum to `W < 2^63`, then among the draw values
`0, ..., W - 1` exactly `effectiveWeight x` make `selectByWeight` return the candidate `x`. -/
theorem selectByWeight_proportional (l : List Instance) (x : Instance) (hnd : l.Nodup)
    (hx : x ∈ l) (hW : weightSum l < 2 ^ 63) :
    (List.range (weightSum l).toNat).countP (fun r => returnsCandidate r l x)
      = (effectiveWeight x).toNat := by
  have hb := weightBefore_nonneg x l
  have hw := effectiveWeight_pos x
  have hle := weightBefore_add_le x l hx
  have hcongr : (List.range (weightSum l).toNat).countP (fun r => returnsCandidate r l x)
      = (List.range (weightSum l).toNat).countP
          (fun r => decide ((weightBefore x l).toNat ≤ r ∧
            r < (weightBefore x l).toNat + (effectiveWeight x).toNat)) := by
    apply List.countP_congr
    intro r hr
    have hr' : (r : Int) < weightSum l := by
      have := List.mem_range.1 hr
      omega
    rw [returnsCandidate_eq_decide l x r hnd hx hW hr']
    simp only [decide_eq_true_eq]
    constructor <;> intro h <;> omega
  rw [hcongr, countP_interval _ _ _ (by omega)]
  split_ifs <;> omega

/-- With weights 1 and 3 the second worker is returned for exactly 3 of the 4 draw values. -/
theorem selectByWeight_one_three :
    weightSum oneThreeWeights = 4 ∧
      (List.range 4).countP (fun r => returnsCandidate r oneThreeWeights (readyWorker "w2" 20 3))
        = 3 := by
  have hsum : weightSum oneThreeWeights = 4 := by decide
  have h := selectByWeight_proportional oneThreeWeights (readyWorker "w2" 20 3) (by decide)
    (by decide) (by rw [hsum]; decide)
  rw [hsum] at h
  exact ⟨hsum, h⟩

theorem selectByWeight_of_negative_total (draw : Nat) (l : List Instance) (hne : l ≠ [])
    (ht : totalWeight l < 0) : selectByWeight draw l = .error "invalid argument to Intn" := by
  unfold selectByWeight
  rw [if_neg (by simpa using hne)]
  simp only
  rw [if_neg (by omega)]
  unfold Intn
  rw [if_pos (by omega)]
  rfl

theorem selectByWeight_of_total_one (draw : Nat) (a : Instance) (rest : List Instance)
    (ht : totalWeight (a :: rest) = 1) (hw : 0 < wrapInt (0 + effectiveWeight a)) :
    selectByWeight draw (a :: rest) = .ok (some a) := by
  unfold selectByWeight
  rw [if_neg (by simp)]
  simp only [ht]
  rw [if_neg (by omega)]
  have hI : Intn draw 1 = .ok 0 := by
    unfold Intn
    rw [if_neg (by omega), Int.emod_one]
  rw [hI]
  simp only [bind, Except.bind, weightScan]
  rw [if_pos hw]
  rfl

theorem weightScan_pair_never_second (r : Int) (a b : Instance) (hab : a ≠ b)
    (hwrap : wrapInt (wrapInt (0 + effectiveWeight a) + effectiveWeight b)
      ≤ wrapInt (0 + effectiveWeight a)) :
    weightScan r 0 [a, b] ≠ some b := by
  simp only [weightScan]
  split
  · intro h
    exact hab (Option.some.inj h)
  · split
    · omega
    · intro h
      cases h

theorem effectiveWeight_heavy_second :
    effectiveWeight (readyWorker "w2" 20 (2 ^ 62)) = 2 ^ 62 := by decide

theorem totalWeight_heavy :
    totalWeight [readyWorker "w1" 10 (2 ^ 62), readyWorker "w2" 20 (2 ^ 62)] = -2 ^ 63 := by
  decide

theorem selectByWeight_heavy_panics (draw : Nat) :
    selectByWeight draw [readyWorker "w1" 10 (2 ^ 62), readyWorker "w2" 20 (2 ^ 62)]
      = .error "invalid argument to Intn" :=
  selectByWeight_of_negative_total draw _ (by simp) (by decide)

theorem weightScan_heavy_never_second (r : Int) :
    weightScan r 0 [readyWorker "w1" 10 (2 ^ 62), readyWorker "w2" 20 (2 ^ 62)]
      ≠ some (readyWorker "w2" 20 (2 ^ 62)) :=
  weightScan_pair_never_second r _ _ (by decide) (by decide)

theorem totalWeight_wrapping : totalWeight wrappingWeights = 1 := by decide

theorem selectByWeight_wrapping (draw : Nat) :
    selectByWeight draw wrappingWeights = .ok (some (readyWorker "w1" 10 9223372036854775807)) :=
  selectByWeight_of_total_one draw _ _ totalWeight_wrapping (by decide)

theorem returnsCandidate_of_eq (draw : Nat) (l : List Instance) (x y : Instance)
    (h : selectByWeight draw l = .ok (some y)) : returnsCandidate draw l x = (y == x) := by
  unfold returnsCandidate
  rw [h]

theorem wrapping_first_ne_third :
    readyWorker "w1" 10 9223372036854775807 ≠ readyWorker "w3" 30 3 := by decide

theorem returnsCandidate_wrapping_third (draw : Nat) :
    returnsCandidate draw wrappingWeights (readyWorker "w3" 30 3) = false :=
  (returnsCandidate_of_eq draw wrappingWeights _ _ (selectByWeight_wrapping draw)).trans
    (beq_eq_false_iff_ne.2 wrapping_first_ne_third)

/-- C14, the code at the failing inputs. With the two candidates of weight `2^62` each (the
input of C2) the sum `W = 2^63` wraps to `-2^63`, `selectByWeight` panics for every draw and
the scan itself never yields the second candidate, whose weight is `2^62`. With the weights
`2^63 - 1`, `2^63 - 1`, `3` (`2^63 - 1` is 9223372036854775807) the sum wraps to 1, and
`selectByWeight` returns the first candidate for every draw: the third candidate, of weight 3,
is returned for no draw value. -/
theorem selectByWeight_overflow_not_proportional (draw : Nat) (r : Int) :
    (effectiveWeight (readyWorker "w2" 20 (2 ^ 62)) = 2 ^ 62 ∧
      totalWeight [readyWorker "w1" 10 (2 ^ 62), readyWorker "w2" 20 (2 ^ 62)] = -2 ^ 63 ∧
      selectByWeight draw [readyWorker "w1" 10 (2 ^ 62), readyWorker "w2" 20 (2 ^ 62)]
        = .error "invalid argument to Intn" ∧
      weightScan r 0 [readyWorker "w1" 10 (2 ^ 62), readyWorker "w2" 20 (2 ^ 62)]
        ≠ some (readyWorker "w2" 20 (2 ^ 62))) ∧
    (effectiveWeight (readyWorker "w3" 30 3) = 3 ∧ totalWeight wrappingWeights = 1 ∧
      selectByWeight draw wrappingWeights = .ok (some (readyWorker "w1" 10 9223372036854775807)) ∧
      returnsCandidate draw wrappingWeights (readyWorker "w3" 30 3) = false) :=
  ⟨⟨effectiveWeight_heavy_second, totalWeight_heavy, selectByWeight_heavy_panics draw,
      weightScan_heavy_never_second r⟩,
    by decide, totalWeight_wrapping, selectByWeight_wrapping draw,
    returnsCandidate_wrapping_third draw⟩

/-! ## The pool: readiness, removal, start and stop -/

/-- C17, the code on every instance: when the handshake succeeds (a Hello with opcode 10 is
read, its payload parses and the Identify message is written), `startInstance` itself sets
`Connected` to true, with Identify as the only message sent and no `READY` dispatch handled;
a freshly built instance of an enabled account is then returned by `SelectAccount`.
`handleDispatch` sets the flag on `READY` as well, and leaves it alone on any other
event. -/
theorem startInstance_marks_connected_before_ready (inst : Instance) (now clock : Nat)
    (hello : DiscordMessage) (msg : DiscordMessage) :
    (startInstance { inst with Connected := false } { hello := some { hello with Op := 10 } }
        now).inst.Connected = true ∧
      (startInstance { inst with Connected := false } { hello := some { hello with Op := 10 } }
        now).sent = [identifyMessage inst] ∧
      (newInstance { ID := "a1", Enabled := true } clock).Connected = false ∧
      SelectAccount { }
          [("a1", (startInstance (newInstance { ID := "a1", Enabled := true } clock)
            goodHandshake now).inst)] none 0
        = .ok (some (startInstance (newInstance { ID := "a1", Enabled := true } clock)
            goodHandshake now).inst, { }) ∧
      (handleDispatch inst { msg with T := "READY" }).Connected = true ∧
      (msg.T ≠ "READY" → handleDispatch inst msg = inst) := by
  refine ⟨rfl, rfl, rfl, rfl, ?_, ?_⟩
  · simp [handleDispatch]
  · intro h
    simp [handleDispatch, h]

theorem mapGet_eq_none_iff {β : Type} (m : List (String × β)) (k : String) :
    mapGet m k = none ↔ ∀ e ∈ m, e.1 ≠ k := by
  unfold mapGet
  simp [List.find?_eq_none]

theorem mapGet_mapDelete_self {β : Type} (m : List (String × β)) (k : String) :
    mapGet (mapDelete m k) k = none := by
  rw [mapGet_eq_none_iff]
  intro e he
  unfold mapDelete at he
  simpa using (List.mem_filter.1 he).2

theorem mapGet_mapDelete_of_ne {β : Type} (m : List (String × β)) (k k' : String)
    (h : k' ≠ k) : mapGet (mapDelete m k) k' = mapGet m k' := by
  unfold mapGet mapDelete
  induction m with
  | nil => rfl
  | cons e es ih =>
    cases h1 : (e.1 != k) <;> cases h2 : (e.1 == k')
    · simp only [List.filter_cons, List.find?_cons, h1, h2, Bool.false_eq_true, if_false]
      exact ih
    · exfalso
      have e1 : e.1 = k := by simpa using h1
      have e2 : e.1 = k' := by simpa using h2
      exact h (e2.symm.trans e1)
    · simp only [List.filter_cons, List.find?_cons, h1, h2, if_true]
      exact ih
    · simp only [List.filter_cons, List.find?_cons, h1, h2, if_true]

theorem mem_mapSet_key {β : Type} (m : List (String × β)) (k : String) (v : β)
    (e : String × β) (he : e ∈ mapSet m k v) : e.1 = k ∨ e ∈ m := by
  unfold mapSet at he
  split at he
  · obtain ⟨e', he', hmap⟩ := List.mem_map.1 he
    split at hmap
    · left; rw [← hmap]
    · right; rw [← hmap]; exact he'
  · rcases List.mem_append.1 he with h | h
    · exact Or.inr h
    · left
      rw [List.mem_singleton.1 h]

theorem key_mem_foldl_mapSet {β : Type} (l acc : List (String × β)) (e : String × β)
    (he : e ∈ l.foldl (fun result x => mapSet result x.1 x.2) acc) :
    (∃ a ∈ acc, a.1 = e.1) ∨ ∃ a ∈ l, a.1 = e.1 := by
  induction l generalizing acc with
  | nil => exact Or.inl ⟨e, he, rfl⟩
  | cons x xs ih =>
    simp only [List.foldl_cons] at he
    rcases ih _ he with ⟨a, ha, hae⟩ | ⟨a, ha, hae⟩
    · rcases mem_mapSet_key acc x.1 x.2 a ha with h | h
      · exact Or.inr ⟨x, List.mem_cons_self _ _, h.symm.trans hae⟩
      · exact Or.inl ⟨a, h, hae⟩
    · exact Or.inr ⟨a, List.mem_cons_of_mem _ ha, hae⟩

/-- C18: for every manager and every `id`, after `RemoveAccount(id)` the pool has no entry for
`id` (`GetInstance(id)` is nil, `GetAllInstances` has no key `id`, and every instance a later
`SelectAccount` over the pool returns is an entry the pool had under another key); when the
pool had an entry for `id`, that instance is the one stopped, with `Connected = false`; the
entries under the other keys are the entries the pool had, in place and unchanged, and the
rest of the manager is as it was. -/
theorem RemoveAccount_removes_only_id (m : Manager) (id : String) :
    (m.RemoveAccount id).1.GetInstance id = none ∧
      (∀ e ∈ (m.RemoveAccount id).1.GetAllInstances, e.1 ≠ id) ∧
      (∀ (s s' : AccountSelector) (filter : Option entity.AccountFilter) (draw : Nat)
          (inst : Instance),
        SelectAccount s (m.RemoveAccount id).1.instances filter draw = .ok (some inst, s') →
          ∃ k, k ≠ id ∧ (k, inst) ∈ m.instances) ∧
      (∀ inst, m.GetInstance id = some inst →
        (m.RemoveAccount id).2 = some (stopInstance inst) ∧
          (stopInstance inst).Connected = false) ∧
      (m.GetInstance id = none → m.RemoveAccount id = (m, none)) ∧
      (∀ k, k ≠ id → (m.RemoveAccount id).1.GetInstance k = m.GetInstance k) ∧
      (m.RemoveAccount id).1.instances = m.instances.filter (fun e => e.1 != id) ∧
      (m.RemoveAccount id).1.selector = m.selector ∧
      (m.RemoveAccount id).1.started = m.started ∧
      (m.RemoveAccount id).1.accounts = m.accounts := by
  have hinst : (m.RemoveAccount id).1.instances = m.instances.filter (fun e => e.1 != id) := by
    unfold Manager.RemoveAccount
    cases hg : mapGet m.instances id with
    | some inst => rfl
    | none =>
      have hall := (mapGet_eq_none_iff m.instances id).1 hg
      simp only
      symm
      rw [List.filter_eq_self]
      intro e he
      simpa using hall e he
  have hget : ∀ k, (m.RemoveAccount id).1.GetInstance k = mapGet (mapDelete m.instances id) k := by
    intro k
    unfold Manager.GetInstance
    rw [hinst]
    rfl
  refine ⟨?_, ?_, ?_, ?_, ?_, ?_, hinst, ?_, ?_, ?_⟩
  · rw [hget]
    exact mapGet_mapDelete_self _ _
  · intro e he
    unfold Manager.GetAllInstances at he
    rcases key_mem_foldl_mapSet _ _ e he with ⟨a, ha, _⟩ | ⟨a, ha, hae⟩
    · simp at ha
    · rw [hinst] at ha
      rw [← hae]
      simpa using (List.mem_filter.1 ha).2
  · intro s s' filter draw inst hsel
    have hmem := SelectAccount_mem_available s s' _ filter draw inst hsel
    obtain ⟨⟨k, hk⟩, _⟩ := (mem_getAvailableInstances _ filter inst).1 hmem
    rw [hinst] at hk
    obtain ⟨hk1, hk2⟩ := List.mem_filter.1 hk
    exact ⟨k, by simpa using hk2, hk1⟩
  · intro inst hg
    unfold Manager.GetInstance at hg
    unfold Manager.RemoveAccount
    rw [hg]
    exact ⟨rfl, rfl⟩
  · intro hg
    unfold Manager.GetInstance at hg
    unfold Manager.RemoveAccount
    rw [hg]
  · intro k hk
    rw [hget]
    exact mapGet_mapDelete_of_ne _ _ _ hk
  · unfold Manager.RemoveAccount
    cases mapGet m.instances id <;> rfl
  · unfold Manager.RemoveAccount
    cases mapGet m.instances id <;> rfl
  · unfold Manager.RemoveAccount
    cases mapGet m.instances id <;> rfl

/-- C18 at a concrete input: removing `w2` from the three-worker pool. -/
theorem RemoveAccount_removes_only_id_witness :
    (({ instances := threeWorkerPool } : Manager).RemoveAccount "w2").1.instances
        = [("w1", readyWorker "w1" 10 1), ("w3", readyWorker "w3" 30 1)] ∧
      (({ instances := threeWorkerPool } : Manager).RemoveAccount "w2").2.map
          (fun i => (i.ID, i.Connected)) = some ("w2", false) ∧
      (({ instances := threeWorkerPool } : Manager).RemoveAccount "w2").1.GetInstance "w2"
        = none :=
  ⟨by decide, by decide,
    (RemoveAccount_removes_only_id { instances := threeWorkerPool } "w2").1⟩

theorem mapSet_of_fresh {β : Type} (m : List (String × β)) (k : String) (v : β)
    (h : ∀ e ∈ m, e.1 ≠ k) : mapSet m k v = m ++ [(k, v)] := by
  unfold mapSet
  rw [if_neg]
  simp only [List.any_eq_true, beq_iff_eq, not_exists, not_and]
  exact fun e he => h e he

theorem Start_foldl_eq (now : config.DiscordAccount → Nat) (accounts : List config.DiscordAccount)
    (acc : InstanceMap) (hnd : (accounts.map (fun a => a.ID)).Nodup)
    (hfresh : ∀ a ∈ accounts, ∀ e ∈ acc, e.1 ≠ a.ID) :
    accounts.foldl
        (fun acc account =>
          if account.Enabled then mapSet acc account.ID (newInstance account (now account))
          else acc) acc
      = acc ++ (accounts.filter (fun a => a.Enabled)).map
          (fun a => (a.ID, newInstance a (now a))) := by
  induction accounts generalizing acc with
  | nil => simp
  | cons a rest ih =>
    simp only [List.map_cons, List.nodup_cons] at hnd
    obtain ⟨hnot, hnd'⟩ := hnd
    simp only [List.foldl_cons]
    cases hen : a.Enabled with
    | false =>
      rw [if_neg (by simp), List.filter_cons_of_neg (by simp [hen])]
      exact ih acc hnd' (fun b hb e he => hfresh b (List.mem_cons_of_mem _ hb) e he)
    | true =>
      rw [if_pos rfl, List.filter_cons_of_pos (by simp [hen]), List.map_cons]
      rw [mapSet_of_fresh acc a.ID _ (fun e he => hfresh a (List.mem_cons_self _ _) e he)]
      rw [ih _ hnd' ?_]
      · simp
      · intro b hb e he
        rcases List.mem_append.1 he with h | h
        · exact hfresh b (List.mem_cons_of_mem _ hb) e h
        · rw [List.mem_singleton.1 h]
          intro hab
          exact hnot (List.mem_map.2 ⟨b, hb, hab.symm⟩)

theorem mapGet_map_of_mem (f : config.DiscordAccount → Instance)
    (l : List config.DiscordAccount) (hnd : (l.map (fun a => a.ID)).Nodup)
    (a : config.DiscordAccount) (ha : a ∈ l) :
    mapGet (l.map (fun a => (a.ID, f a))) a.ID = some (f a) := by
  induction l with
  | nil => simp at ha
  | cons b rest ih =>
    simp only [List.map_cons, List.nodup_cons] at hnd
    obtain ⟨hnot, hnd'⟩ := hnd
    unfold mapGet
    simp only [List.map_cons, List.find?_cons]
    rcases List.mem_cons.1 ha with h | h
    · subst h
      simp
    · have hne : ¬ b.ID = a.ID := fun hba => hnot (List.mem_map.2 ⟨a, h, hba.symm⟩)
      rw [show (b.ID == a.ID) = false from by simpa using hne]
      exact ih hnd' h

/-- C19: for a manager freshly built by `NewManager` from accounts with pairwise distinct IDs,
after `Start()` the manager is started and the pool holds exactly one entry per enabled
configured account, in the order of the configuration, keyed by the account ID, whose
instance carries that ID and that account and is not yet connected; it holds no entry for a
disabled account; and a second `Start()` changes nothing. -/
theorem Start_builds_enabled_instances (accounts : List config.DiscordAccount)
    (now now' : config.DiscordAccount → Nat)
    (hnd : (accounts.map (fun a => a.ID)).Nodup) :
    ((NewManager accounts).Start now).started = true ∧
      ((NewManager accounts).Start now).instances
        = (accounts.filter (fun a => a.Enabled)).map
            (fun a => (a.ID, newInstance a (now a))) ∧
      (∀ a ∈ accounts, a.Enabled = true →
        ((NewManager accounts).Start now).GetInstance a.ID
            = some (newInstance a (now a)) ∧
          (newInstance a (now a)).ID = a.ID ∧ (newInstance a (now a)).Account = a ∧
          (newInstance a (now a)).Connected = false) ∧
      (∀ a ∈ accounts, a.Enabled = false →
        ((NewManager accounts).Start now).GetInstance a.ID = none) ∧
      ((NewManager accounts).Start now).Start now' = (NewManager accounts).Start now := by
  have hinst : ((NewManager accounts).Start now).instances
      = (accounts.filter (fun a => a.Enabled)).map
          (fun a => (a.ID, newInstance a (now a))) := by
    have h := Start_foldl_eq now accounts [] hnd (fun _ _ e he => by simp at he)
    simpa [Manager.Start, NewManager] using h
  have hnd' : ((accounts.filter (fun a => a.Enabled)).map (fun a => a.ID)).Nodup :=
    (List.filter_sublist accounts).map _ |>.nodup hnd
  refine ⟨rfl, hinst, ?_, ?_, ?_⟩
  · intro a ha hen
    refine ⟨?_, rfl, rfl, rfl⟩
    unfold Manager.GetInstance
    rw [hinst]
    exact mapGet_map_of_mem (fun a => newInstance a (now a)) _ hnd' a
      (List.mem_filter.2 ⟨ha, by simpa using hen⟩)
  · intro a ha hen
    unfold Manager.GetInstance
    rw [hinst, mapGet_eq_none_iff]
    intro e he hea
    obtain ⟨b, hb, hbe⟩ := List.mem_map.1 he
    obtain ⟨hb1, hb2⟩ := List.mem_filter.1 hb
    have hid : b.ID = a.ID := by rw [← hbe] at hea; exact hea
    have hba : b = a := by
      have hinj := List.inj_on_of_nodup_map hnd
      exact hinj hb1 ha hid
    rw [hba, hen] at hb2
    exact absurd hb2 (by simp)
  · simp [Manager.Start, NewManager]

/-- C19 at a concrete input: the sample configuration with `a2` disabled. -/
theorem Start_builds_enabled_instances_witness :
    (sampleAccounts.map (fun a => a.ID)).Nodup ∧
      (((NewManager sampleAccounts).Start sampleClock).instances.map Prod.fst = ["a1", "a3"]) ∧
      ((NewManager sampleAccounts).Start sampleClock).started = true :=
  ⟨by decide, by decide,
    (Start_builds_enabled_instances sampleAccounts sampleClock sampleClock (by decide)).1⟩

theorem Stop_of_not_started (m : Manager) (h : m.started = false) : m.Stop = .ok m := by
  unfold Manager.Stop
  simp [h]

theorem Stop_of_fresh_started (m : Manager) (hs : m.started = true)
    (hc : m.stopChClosed = false) :
    m.Stop = .ok { m with stopChClosed := true,
                          instances := m.instances.map (fun e => (e.1, stopInstance e.2)),
                          started := false } := by
  unfold Manager.Stop
  simp [hs, hc]

theorem Stop_of_closed_started (m : Manager) (hs : m.started = true)
    (hc : m.stopChClosed = true) : m.Stop = .error "close of closed channel" := by
  unfold Manager.Stop
  simp [hs, hc]

/-- C20: `Stop` is not safe in every sequence of `Start` and `Stop` calls. For every
configuration and all clock readings, on a manager built by `NewManager` the sequence
`Start(); Stop(); Start(); Stop()` panics in its second `Stop` with a close of the closed
channel `stopCh`, although the manager is started when that `Stop` is called. The first
`Stop` of the sequence does complete and leaves the manager not started with every
instance not connected, and a `Stop` on a manager that is not started changes nothing. -/
theorem Stop_after_restart_panics (accounts : List config.DiscordAccount)
    (now now' : config.DiscordAccount → Nat) :
    runManagerCalls (NewManager accounts)
        [ManagerCall.Start now, ManagerCall.Stop, ManagerCall.Start now', ManagerCall.Stop]
        = .error "close of closed channel" ∧
      (∃ m, runManagerCalls (NewManager accounts)
          [ManagerCall.Start now, ManagerCall.Stop, ManagerCall.Start now'] = .ok m ∧
        m.started = true ∧ m.stopChClosed = true) ∧
      (∃ m, runManagerCalls (NewManager accounts) [ManagerCall.Start now, ManagerCall.Stop]
          = .ok m ∧ m.started = false ∧ ∀ e ∈ m.instances, e.2.Connected = false) ∧
      (∀ m : Manager, m.started = false →
        runManagerCalls m [ManagerCall.Stop] = .ok m) := by
  have h1 : ((NewManager accounts).Start now).started = true := rfl
  have h2 : ((NewManager accounts).Start now).stopChClosed = false := rfl
  have hstop := Stop_of_fresh_started _ h1 h2
  refine ⟨?_, ?_, ?_, ?_⟩
  · simp only [runManagerCalls, hstop]
    rw [Stop_of_closed_started _ rfl rfl]
  · refine ⟨Manager.Start
        { (NewManager accounts).Start now with
            stopChClosed := true,
            instances := ((NewManager accounts).Start now).instances.map
              (fun e => (e.1, stopInstance e.2)),
            started := false } now', ?_, rfl, rfl⟩
    simp only [runManagerCalls, hstop]
  · refine ⟨{ (NewManager accounts).Start now with
        stopChClosed := true,
        instances := ((NewManager accounts).Start now).instances.map
          (fun e => (e.1, stopInstance e.2)),
        started := false }, ?_, rfl, ?_⟩
    · simp only [runManagerCalls, hstop]
    · intro e he
      obtain ⟨e', _, rfl⟩ := List.mem_map.1 he
      rfl
  · intro m hm
    simp only [runManagerCalls, Stop_of_not_started m hm]

/-! ## Instance calls, the message loop and the handshake -/

/-- C21: for every instance and every prompt, `Instance.SubmitImagine` returns an error
exactly when the instance is not connected (`IsConnected()` is false), and `SendMessage`
returns an error exactly when the instance is not connected or has no socket; the error is
"instance not connected", and neither call changes the instance. -/
theorem Instance_calls_fail_iff_not_connected (i : Instance)
    (prompt channelID content : String) :
    (((i.SubmitImagine prompt).2.isSome = true ↔ i.IsConnected = false) ∧
      ((i.SubmitImagine prompt).2 = none ∨
        (i.SubmitImagine prompt).2 = some "instance not connected") ∧
      (i.SubmitImagine prompt).1 = i) ∧
    (((i.SendMessage channelID content).2.isSome = true ↔
        (i.IsConnected = false ∨ i.hasConn = false)) ∧
      ((i.SendMessage channelID content).2 = none ∨
        (i.SendMessage channelID content).2 = some "instance not connected") ∧
      (i.SendMessage channelID content).1 = i) := by
  unfold Instance.SubmitImagine Instance.SendMessage Instance.IsConnected
  cases i.Connected <;> cases i.hasConn <;> simp

/-- C22, the code on every connected instance: when the message loop reads a message with
opcode 7 (reconnect), the `switch` only logs; the instance is left exactly as it was, with
`Connected` true, the loop goes on to the next read, and the worker is still among the
available instances of a selection. On opcode 9 (invalid session) `Connected` is set to false, the loop returns and
closes the socket, and the worker is no longer available. -/
theorem reconnect_request_leaves_instance_connected (inst : Instance) (msg : DiscordMessage)
    (now : Nat) (writeErr : Bool) (rest : List GatewayEvent)
    (filter : Option entity.AccountFilter) :
    (handleMessage { inst with Connected := true } { msg with Op := 7 } now writeErr
        = .ok ({ inst with Connected := true }, false) ∧
      handleMessages { inst with Connected := true, hasConn := true, ctxDone := false }
          ({ read := some { msg with Op := 7 }, now := now, writeErr := writeErr } :: rest)
        = handleMessages { inst with Connected := true, hasConn := true, ctxDone := false }
            rest ∧
      (handleMessages { inst with Connected := true, hasConn := true, ctxDone := false }
          [{ read := some { msg with Op := 7 }, now := now, writeErr := writeErr }]).map
          (fun r => (r.1.IsConnected, r.2)) = .ok (true, false) ∧
      (handleMessages
          { newInstance { ID := "a1", Enabled := true } now with
              Connected := true, hasConn := true }
          [{ read := some { msg with Op := 7 }, now := now, writeErr := writeErr }]).map
          (fun r => getAvailableInstances [("a1", r.1)] none)
        = .ok [{ newInstance { ID := "a1", Enabled := true } now with
                   Connected := true, hasConn := true }]) ∧
    (handleMessage { inst with Connected := true } { msg with Op := 9 } now writeErr
        = .ok ({ inst with Connected := false }, true) ∧
      handleMessages { inst with Connected := true, hasConn := true, ctxDone := false }
          ({ read := some { msg with Op := 9 }, now := now, writeErr := writeErr } :: rest)
        = .ok ({ inst with Connected := false, hasConn := true, ctxDone := false,
                           connClosed := true }, true) ∧
      isAvailable filter { inst with Connected := false } = false ∧
      (handleMessages
          { newInstance { ID := "a1", Enabled := true } now with
              Connected := true, hasConn := true }
          [{ read := some { msg with Op := 9 }, now := now, writeErr := writeErr }]).map
          (fun r => getAvailableInstances [("a1", r.1)] none)
        = .ok []) := by
  refine ⟨⟨rfl, ?_, rfl, rfl⟩, rfl, rfl, rfl, rfl⟩
  rfl

/-- C23: when the dial succeeds and the first gateway message cannot be read, or its opcode
is not 10, or its payload does not parse as a Hello payload, `connectWebSocket` returns an
error and writes nothing (no Identify); `startInstance` then starts neither the message loop
nor the heartbeat loop and leaves `Connected` and `LastPing` as they were, so an instance
that was not connected (as every instance built by `Start` or `AddAccount` is) stays not
connected. -/
theorem startInstance_fails_on_malformed_hello (inst : Instance) (g : Handshake) (now : Nat)
    (hdial : g.dialErr = false)
    (hbad : g.hello = none ∨
      ∃ hello, g.hello = some hello ∧ (hello.Op ≠ 10 ∨ g.payloadErr = true)) :
    ((connectWebSocket inst g).err.isSome = true ∧ (connectWebSocket inst g).sent = []) ∧
      (startInstance inst g now).sent = [] ∧
      (startInstance inst g now).messageLoop = false ∧
      (startInstance inst g now).heartbeatLoop = false ∧
      (startInstance inst g now).inst.Connected = inst.Connected ∧
      (startInstance inst g now).inst.LastPing = inst.LastPing ∧
      (inst.Connected = false → (startInstance inst g now).inst.IsConnected = false) := by
  have key : ∀ i : Instance, (connectWebSocket i g).err.isSome = true ∧
      (connectWebSocket i g).sent = [] ∧ (connectWebSocket i g).inst.Connected = i.Connected ∧
      (connectWebSocket i g).inst.LastPing = i.LastPing := by
    intro i
    unfold connectWebSocket
    rw [hdial]
    rcases hbad with h | ⟨hello, h, hop | hp⟩
    · simp [h]
    · simp [h, hop]
    · by_cases hop : hello.Op = 10 <;> simp [h, hop, hp]
  obtain ⟨h1, h2, h3, h4⟩ := key { inst with hasCancel := true }
  have hstart : startInstance inst g now
      = ⟨(connectWebSocket { inst with hasCancel := true } g).inst,
          (connectWebSocket { inst with hasCancel := true } g).sent, false, false⟩ := by
    unfold startInstance
    cases herr : (connectWebSocket { inst with hasCancel := true } g).err with
    | none => rw [herr] at h1; simp at h1
    | some e => simp only [herr]
  rw [hstart]
  refine ⟨⟨(key inst).1, (key inst).2.1⟩, h2, rfl, rfl, h3, h4, ?_⟩
  intro hc
  show (connectWebSocket { inst with hasCancel := true } g).inst.Connected = false
  rw [h3]
  exact hc

/-- C23 at a concrete input: the first message has opcode 0. -/
theorem startInstance_fails_on_malformed_hello_witness :
    (startInstance (newInstance { ID := "a1", Enabled := true } 5)
        { hello := some { Op := 0 } } 7).inst.IsConnected = false ∧
      (startInstance (newInstance { ID := "a1", Enabled := true } 5)
        { hello := some { Op := 0 } } 7).sent = [] :=
  ⟨(startInstance_fails_on_malformed_hello (newInstance { ID := "a1", Enabled := true } 5)
      { hello := some { Op := 0 } } 7 rfl
      (Or.inr ⟨{ Op := 0 }, rfl, Or.inl (by decide)⟩)).2.2.2.2.2.2 rfl,
    (startInstance_fails_on_malformed_hello (newInstance { ID := "a1", Enabled := true } 5)
      { hello := some { Op := 0 } } 7 rfl
      (Or.inr ⟨{ Op := 0 }, rfl, Or.inl (by decide)⟩)).2.1⟩

/-! ## Quota predicates of the stored account -/

/-- C26: for every stored account, `IsAcceptNewTask()` is true exactly when the account is
enabled, is not locked, and `DayDrawLimit <= 0` or `DayDrawCount < DayDrawLimit`; an
enabled, unlocked account with `DayDrawLimit = -1` is accepted for every `DayDrawCount`, and
one with `DayDrawLimit = 5` and `DayDrawCount = 5` is refused. -/
theorem IsAcceptNewTask_iff_enabled_unlocked_within_quota (d : entity.DiscordAccount) :
    (d.IsAcceptNewTask = true ↔
        d.Enabled = true ∧ d.Lock = false ∧
          (d.DayDrawLimit ≤ 0 ∨ d.DayDrawCount < d.DayDrawLimit)) ∧
      (∀ count : Int,
        ({ d with Enabled := true, Lock := false, DayDrawLimit := -1,
                  DayDrawCount := count } : entity.DiscordAccount).IsAcceptNewTask = true) ∧
      ({ d with Enabled := true, Lock := false, DayDrawLimit := 5,
                DayDrawCount := 5 } : entity.DiscordAccount).IsAcceptNewTask = false := by
  refine ⟨?_, ?_, ?_⟩
  · unfold entity.DiscordAccount.IsAcceptNewTask
    cases d.Enabled <;> cases d.Lock <;> simp
  · intro count
    simp [entity.DiscordAccount.IsAcceptNewTask]
  · simp [entity.DiscordAccount.IsAcceptNewTask]

/-- C28, the code at `DayDrawLimit = 0`: for every enabled, unlocked account with
`DayDrawCount >= 0` and `DayDrawLimit = 0`, `IsAcceptNewTask()` is true and
`IsContinueDrawing()` is false. For every other `DayDrawLimit` the two agree on such an
account, and so they do on every account as `Create` stores it, which replaces the limit 0
by -1. -/
theorem quota_predicates_differ_at_zero_limit (d : entity.DiscordAccount) :
    (d.Enabled = true → d.Lock = false → 0 ≤ d.DayDrawCount → d.DayDrawLimit = 0 →
        d.IsAcceptNewTask = true ∧ d.IsContinueDrawing = false) ∧
      (({ Enabled := true, Lock := false, DayDrawLimit := 0, DayDrawCount := 0 } :
          entity.DiscordAccount).IsAcceptNewTask = true ∧
        ({ Enabled := true, Lock := false, DayDrawLimit := 0, DayDrawCount := 0 } :
          entity.DiscordAccount).IsContinueDrawing = false) ∧
      (d.Enabled = true → d.Lock = false → 0 ≤ d.DayDrawCount → d.DayDrawLimit ≠ 0 →
        d.IsAcceptNewTask = d.IsContinueDrawing) ∧
      (d.Enabled = true → d.Lock = false → 0 ≤ d.DayDrawCount →
        (defaultDayDrawLimit d).IsAcceptNewTask = (defaultDayDrawLimit d).IsContinueDrawing) := by
  have agree : ∀ e : entity.DiscordAccount, e.Enabled = true → e.Lock = false →
      0 ≤ e.DayDrawCount → e.DayDrawLimit ≠ 0 → e.IsAcceptNewTask = e.IsContinueDrawing := by
    intro e he hl hc hne
    unfold entity.DiscordAccount.IsAcceptNewTask entity.DiscordAccount.IsContinueDrawing
    rw [he, hl]
    simp only [Bool.not_true, Bool.or_false, Bool.false_eq_true, if_false]
    by_cases h1 : e.DayDrawLimit ≤ -1
    · have h2 : ¬ (0 < e.DayDrawLimit) := by omega
      simp [h1, h2]
    · have h2 : 0 < e.DayDrawLimit := by omega
      by_cases h3 : e.DayDrawCount < e.DayDrawLimit
      · have h4 : ¬ (e.DayDrawLimit ≤ e.DayDrawCount) := by omega
        simp [h1, h2, h3, h4]
      · have h4 : e.DayDrawLimit ≤ e.DayDrawCount := by omega
        simp [h1, h2, h3, h4]
  refine ⟨?_, ⟨by decide, by decide⟩, agree d, ?_⟩
  · intro he hl hc h0
    unfold entity.DiscordAccount.IsAcceptNewTask entity.DiscordAccount.IsContinueDrawing
    rw [he, hl, h0]
    constructor
    · simp
    · simp
      omega
  · intro he hl hc
    unfold defaultDayDrawLimit
    by_cases h0 : d.DayDrawLimit = 0
    · rw [if_pos h0]
      exact agree _ he hl hc (by simp)
    · rw [if_neg h0]
      exact agree d he hl hc h0

/-! ## The index of a change request -/

/-- C30, the code on every request without an index: when the parent task is found and is
in status `SUCCESS`, `SubmitChange` with action `UPSCALE` or `VARIATION` and a nil `Index`
panics with a nil pointer dereference while it builds the description; nothing is written
and no response is sent. With an index supplied, and with action `REROLL` without one, the
child is created, started and answered with the success result. -/
theorem SubmitChange_nil_index_panics (h : TaskHandler) (c : Context) (p : entity.Task)
    (req : SubmitChangeRequest) (i : Int) :
    ((SubmitChange { h with db := [{ p with Status := entity.TaskStatus.Success }] }
          { c with queryErr := false }
          (.ok { req with TaskID := p.ID, Action := entity.TaskActionUpscale,
                          Index := none })).resp = .error "nil pointer dereference" ∧
      (SubmitChange { h with db := [{ p with Status := entity.TaskStatus.Success }] }
          { c with queryErr := false }
          (.ok { req with TaskID := p.ID, Action := entity.TaskActionUpscale,
                          Index := none })).writes = []) ∧
    ((SubmitChange { h with db := [{ p with Status := entity.TaskStatus.Success }] }
          { c with queryErr := false }
          (.ok { req with TaskID := p.ID, Action := entity.TaskActionVariation,
                          Index := none })).resp = .error "nil pointer dereference" ∧
      (SubmitChange { h with db := [{ p with Status := entity.TaskStatus.Success }] }
          { c with queryErr := false }
          (.ok { req with TaskID := p.ID, Action := entity.TaskActionVariation,
                          Index := none })).writes = []) ∧
    (SubmitChange { db := [succeededTask] } { uuid := "t1" }
        (.ok { TaskID := "t0", Action := entity.TaskActionUpscale })).resp
      = .error "nil pointer dereference" ∧
    (SubmitChange { h with db := [{ p with Status := entity.TaskStatus.Success }] }
        { c with queryErr := false, createErr := false }
        (.ok { req with TaskID := p.ID, Action := entity.TaskActionUpscale,
                        Index := some i })).resp = .ok ⟨200, SuccessResult c.uuid⟩ ∧
    (SubmitChange { h with db := [{ p with Status := entity.TaskStatus.Success }] }
        { c with queryErr := false, createErr := false }
        (.ok { req with TaskID := p.ID, Action := entity.TaskActionReroll,
                        Index := none })).resp = .ok ⟨200, SuccessResult c.uuid⟩ := by
  have hfirst : DB.First [{ p with Status := entity.TaskStatus.Success }] p.ID
      = some { p with Status := entity.TaskStatus.Success } := by simp [DB.First]
  have d1 : entity.TaskActionVariation ≠ entity.TaskActionUpscale := by decide
  have d2 : entity.TaskActionReroll ≠ entity.TaskActionUpscale := by decide
  have d3 : entity.TaskActionReroll ≠ entity.TaskActionVariation := by decide
  refine ⟨⟨?_, ?_⟩, ⟨?_, ?_⟩, rfl, ?_, ?_⟩ <;>
    simp [SubmitChange, hfirst, d1, d2, d3, entity.Task.Start]

/-! ## Polling: the element returned and the cursor -/

theorem selectByPolling_at_cursor (s : AccountSelector) (l : List Instance) (c : Nat)
    (hcur : s.pollingIndex = (c : Int)) (hne : l ≠ []) :
    selectByPolling s l
      = .ok ((sortSlice pollingLess l)[c % l.length]?,
          { s with pollingIndex := wrapInt ((c : Int) + 1) }) := by
  have hpos : 0 < l.length := List.length_pos.mpr hne
  have hlen : (sortSlice pollingLess l).length = l.length := length_sortSlice _ _
  have hk : c % l.length < (sortSlice pollingLess l).length := by
    rw [hlen]
    exact Nat.mod_lt _ hpos
  unfold selectByPolling
  rw [if_neg (by simpa using hne), hcur]
  simp only [hlen]
  have htmod : Int.tmod (c : Int) (l.length : Int) = ((c % l.length : Nat) : Int) := by
    rw [Int.tmod_eq_emod (by omega) (by omega)]
    exact (Int.natCast_mod c l.length).symm
  rw [htmod, index_natCast _ _ hk]
  simp [bind, Except.bind, pure, Except.pure, List.getElem?_eq_getElem hk]

theorem sortSlice_pollingLess_strict (l : List Instance)
    (hdist : l.Pairwise (fun a b => a.Account.ID ≠ b.Account.ID)) :
    (sortSlice pollingLess l).Pairwise (fun a b =>
      a.Account.SortKey < b.Account.SortKey ∨
        (a.Account.SortKey = b.Account.SortKey ∧ a.Account.ID < b.Account.ID)) := by
  have hsorted := pairwise_sortSlice pollingLess pollingLess_asymm pollingLess_trans l
  have hd : (sortSlice pollingLess l).Pairwise (fun a b => a.Account.ID ≠ b.Account.ID) :=
    ((perm_sortSlice pollingLess l).pairwise_iff (fun {a b} h => Ne.symm h)).2 hdist
  refine (hsorted.and hd).imp ?_
  intro a b hab
  rcases pollingLess_total_of_ne a b hab.2 with h | h
  · exact (pollingLess_iff a b).1 h
  · rw [hab.1] at h
    cases h

/-- C24: for every non-empty candidate list of `n` workers with pairwise distinct account
IDs and every cursor value `c >= 0`, `selectByPolling` returns the element at index
`c mod n` of the candidates sorted by account `Sort` ascending and then account `ID`
ascending (a rearrangement of the candidates in which each element precedes the next in
that order), and it returns the same worker for every permutation of the candidate list. -/
theorem selectByPolling_returns_sorted_at_cursor (s : AccountSelector) (l : List Instance)
    (c : Nat) (hcur : s.pollingIndex = (c : Int)) (hne : l ≠ [])
    (hdist : l.Pairwise (fun a b => a.Account.ID ≠ b.Account.ID)) :
    ∃ x, (sortSlice pollingLess l)[c % l.length]? = some x ∧
      (sortSlice pollingLess l).Perm l ∧
      (sortSlice pollingLess l).Pairwise (fun a b =>
        a.Account.SortKey < b.Account.SortKey ∨
          (a.Account.SortKey = b.Account.SortKey ∧ a.Account.ID < b.Account.ID)) ∧
      ∀ l' : List Instance, l'.Perm l →
        selectByPolling s l'
          = .ok (some x, { s with pollingIndex := wrapInt ((c : Int) + 1) }) := by
  have hpos : 0 < l.length := List.length_pos.mpr hne
  have hk : c % l.length < (sortSlice pollingLess l).length := by
    rw [length_sortSlice]
    exact Nat.mod_lt _ hpos
  refine ⟨(sortSlice pollingLess l)[c % l.length], List.getElem?_eq_getElem hk,
    perm_sortSlice _ _, sortSlice_pollingLess_strict l hdist, ?_⟩
  intro l' hperm
  have hne' : l' ≠ [] := by
    intro h
    rw [h] at hperm
    exact hne (List.Perm.eq_nil hperm.symm)
  rw [selectByPolling_at_cursor s l' c hcur hne', sortSlice_pollingLess_perm l l' hperm hdist,
    hperm.length_eq, List.getElem?_eq_getElem hk]

/-- C24 at a concrete input: the three sorted workers supplied as `w3`, `w1`, `w2`, with
the cursor at 4. -/
theorem selectByPolling_returns_sorted_at_cursor_witness :
    ∃ x, (sortSlice pollingLess (sortedKeyPool.map Prod.snd))[4 % 3]? = some x ∧
      (sortSlice pollingLess (sortedKeyPool.map Prod.snd)).Perm (sortedKeyPool.map Prod.snd) ∧
      (sortSlice pollingLess (sortedKeyPool.map Prod.snd)).Pairwise (fun a b =>
        a.Account.SortKey < b.Account.SortKey ∨
          (a.Account.SortKey = b.Account.SortKey ∧ a.Account.ID < b.Account.ID)) ∧
      ∀ l' : List Instance, l'.Perm (sortedKeyPool.map Prod.snd) →
        selectByPolling { mode := AccountSelectPolling, pollingIndex := 4 } l'
          = .ok (some x, { mode := AccountSelectPolling, pollingIndex := wrapInt (4 + 1) }) :=
  selectByPolling_returns_sorted_at_cursor { mode := AccountSelectPolling, pollingIndex := 4 }
    (sortedKeyPool.map Prod.snd) 4 rfl (by decide) (by decide)

theorem SelectAccount_of_no_candidate (s : AccountSelector) (instances : InstanceMap)
    (filter : Option entity.AccountFilter) (draw : Nat)
    (h : getAvailableInstances instances filter = []) :
    SelectAccount s instances filter draw = .ok (none, s) := by
  unfold SelectAccount
  simp [h]

theorem SelectAccount_polling_advances (s : AccountSelector) (instances : InstanceMap)
    (filter : Option entity.AccountFilter) (draw : Nat) (c : Nat)
    (hmode : s.mode = AccountSelectPolling) (hcur : s.pollingIndex = (c : Int))
    (hne : getAvailableInstances instances filter ≠ []) :
    ∃ x, SelectAccount s instances filter draw
      = .ok (some x, { s with pollingIndex := wrapInt ((c : Int) + 1) }) := by
  rw [SelectAccount_polling s instances filter draw hmode hne,
    selectByPolling_at_cursor s _ c hcur hne]
  have hpos : 0 < (getAvailableInstances instances filter).length := List.length_pos.mpr hne
  have hk : c % (getAvailableInstances instances filter).length
      < (sortSlice pollingLess (getAvailableInstances instances filter)).length := by
    rw [length_sortSlice]
    exact Nat.mod_lt _ hpos
  exact ⟨_, by rw [List.getElem?_eq_getElem hk]⟩

theorem selectCalls_polling_cursor
    (calls : List (InstanceMap × Option entity.AccountFilter × Nat)) (c : Nat)
    (hb : c + calls.length < 2 ^ 63) :
    ∃ results s', selectCalls { mode := AccountSelectPolling, pollingIndex := (c : Int) } calls
        = .ok (results, s') ∧
      s'.mode = AccountSelectPolling ∧
      s'.pollingIndex
        = ((c + calls.countP (fun call =>
            !(getAvailableInstances call.1 call.2.1).isEmpty) : Nat) : Int) ∧
      results.length = calls.length ∧
      results.countP Option.isSome
        = calls.countP (fun call => !(getAvailableInstances call.1 call.2.1).isEmpty) := by
  induction calls generalizing c with
  | nil => exact ⟨[], _, rfl, rfl, by simp, rfl, rfl⟩
  | cons call rest ih =>
    obtain ⟨instances, filter, draw⟩ := call
    simp only [List.length_cons] at hb
    by_cases hav : getAvailableInstances instances filter = []
    · obtain ⟨results, s', hrun, hmode, hcur, hlen, hcount⟩ := ih c (by omega)
      refine ⟨none :: results, s', ?_, hmode, ?_, by simp [hlen], ?_⟩
      · simp only [selectCalls, SelectAccount_of_no_candidate _ _ _ _ hav, hrun]
      · rw [hcur]
        simp [hav]
      · simp [hav, hcount]
    · obtain ⟨x, hx⟩ := SelectAccount_polling_advances
        { mode := AccountSelectPolling, pollingIndex := (c : Int) } instances filter draw c
        rfl rfl hav
      have hw : wrapInt ((c : Int) + 1) = ((c + 1 : Nat) : Int) := by
        rw [wrapInt_of_range _ (by omega) (by omega)]
        push_cast
        rfl
      obtain ⟨results, s', hrun, hmode, hcur, hlen, hcount⟩ := ih (c + 1) (by omega)
      refine ⟨some x :: results, s', ?_, hmode, ?_, by simp [hlen], ?_⟩
      · simp only [selectCalls, hx, hw, hrun]
      · rw [hcur]
        have he : (getAvailableInstances instances filter).isEmpty = false := by
          cases hl : getAvailableInstances instances filter with
          | nil => exact absurd hl hav
          | cons y ys => rfl
        simp only [List.countP_cons, he, Bool.not_false, if_true]
        push_cast
        ring
      · have he : (getAvailableInstances instances filter).isEmpty = false := by
          cases hl : getAvailableInstances instances filter with
          | nil => exact absurd hl hav
          | cons y ys => rfl
        simp [he, hcount]

/-- C25, counterexample: in `Polling` mode a `SelectAccount` call over an empty pool, or
with a filter that no worker matches, leaves the cursor where it was; after the three calls
of `pollingCallsWithMiss`, of which the second finds no candidate, the cursor is 2. -/
theorem polling_cursor_stays_without_candidate :
    SelectAccount (SetSelectMode { } AccountSelectPolling) [] none 0
        = .ok (none, { mode := AccountSelectPolling, pollingIndex := 0 }) ∧
      SelectAccount { mode := AccountSelectPolling, pollingIndex := 1 } sortedKeyPool
          (some { InstanceID := "w9" }) 0
        = .ok (none, { mode := AccountSelectPolling, pollingIndex := 1 }) ∧
      pollingCallsWithMiss.length = 3 ∧
      (selectCalls (SetSelectMode { } AccountSelectPolling) pollingCallsWithMiss).map
          (fun r => (r.1.map (fun w => w.map (fun i => i.ID)), r.2.pollingIndex))
        = .ok ([some "w1", none, some "w3"], 2) := by
  refine ⟨rfl, rfl, rfl, ?_⟩
  rfl

/-- C25, amended: in `Polling` mode a `SelectAccount` call advances the cursor by exactly
one when its candidate set is not empty (whatever its size), and leaves the cursor
unchanged and returns nil when it is empty. Hence after `SetSelectMode(Polling)` and any
run of fewer than `2^63` `SelectAccount` calls, each with its own pool and filter, the run
returns, the mode is still `Polling`, and the cursor equals the number of calls whose
candidate set was not empty, which is the number of calls that returned a worker. -/
theorem polling_cursor_counts_served_calls (s0 : AccountSelector)
    (calls : List (InstanceMap × Option entity.AccountFilter × Nat))
    (hlen : calls.length < 2 ^ 63) :
    (∃ results s', selectCalls (SetSelectMode s0 AccountSelectPolling) calls
          = .ok (results, s') ∧
        s'.mode = AccountSelectPolling ∧ results.length = calls.length ∧
        s'.pollingIndex
          = (calls.countP (fun call =>
              !(getAvailableInstances call.1 call.2.1).isEmpty) : Nat) ∧
        s'.pollingIndex = (results.countP Option.isSome : Nat)) ∧
      (∀ (c : Nat) (instances : InstanceMap) (filter : Option entity.AccountFilter)
          (draw : Nat), c + 1 < 2 ^ 63 →
        (getAvailableInstances instances filter ≠ [] →
          ∃ x, SelectAccount { mode := AccountSelectPolling, pollingIndex := (c : Int) }
              instances filter draw
            = .ok (some x, { mode := AccountSelectPolling, pollingIndex := (c : Int) + 1 })) ∧
        (getAvailableInstances instances filter = [] →
          SelectAccount { mode := AccountSelectPolling, pollingIndex := (c : Int) }
              instances filter draw
            = .ok (none, { mode := AccountSelectPolling, pollingIndex := (c : Int) }))) := by
  constructor
  · obtain ⟨results, s', hrun, hmode, hcur, hl, hcount⟩ :=
      selectCalls_polling_cursor calls 0 (by omega)
    refine ⟨results, s', hrun, hmode, hl, ?_, ?_⟩
    · rw [hcur]
      simp
    · rw [hcur, hcount]
      simp
  · intro c instances filter draw hc
    constructor
    · intro hne
      obtain ⟨x, hx⟩ := SelectAccount_polling_advances
        { mode := AccountSelectPolling, pollingIndex := (c : Int) } instances filter draw c
        rfl rfl hne
      rw [wrapInt_of_range _ (by omega) (by omega)] at hx
      exact ⟨x, hx⟩
    · intro he
      exact SelectAccount_of_no_candidate _ _ _ _ he

/-- C25, amended, at a concrete input: the three calls of `pollingCallsWithMiss`. -/
theorem polling_cursor_counts_served_calls_witness :
    ∃ results s', selectCalls (SetSelectMode { } AccountSelectPolling) pollingCallsWithMiss
        = .ok (results, s') ∧
      s'.mode = AccountSelectPolling ∧ results.length = pollingCallsWithMiss.length ∧
      s'.pollingIndex
        = (pollingCallsWithMiss.countP (fun call =>
            !(getAvailableInstances call.1 call.2.1).isEmpty) : Nat) ∧
      s'.pollingIndex = (results.countP Option.isSome : Nat) :=
  (polling_cursor_counts_served_calls { } pollingCallsWithMiss (by decide)).1

/-! ## The fallbacks of the weighted selection -/

theorem weightScan_some_of_lt (r : Int) (l : List Instance) (h0 : 0 ≤ r)
    (hW : weightSum l < 2 ^ 63) (hr : r < weightSum l) :
    ∃ x, weightScan r 0 l = some x ∧ x ∈ l := by
  cases hscan : weightScan r 0 l with
  | some x => exact ⟨x, rfl, weightScan_mem r l 0 x hscan⟩
  | none =>
    have := weightScan_none r l 0 (le_refl 0) h0 (by omega) hscan
    omega

/-- C27: for every non-empty candidate list whose effective weights sum to less than `2^63`
(no overflow), the `totalWeight` computed by `selectByWeight` is that sum, is at least the
number of candidates and so is positive, never 0; for every draw `r` with
`0 <= r < totalWeight` the cumulative scan returns a candidate from inside the loop; and
`selectByWeight` returns what the scan returns at the value drawn, so neither the
`totalWeight == 0` branch nor the trailing `return instances[0]` is taken. -/
theorem selectByWeight_fallbacks_unreachable (l : List Instance) (hne : l ≠ [])
    (hW : weightSum l < 2 ^ 63) :
    totalWeight l = weightSum l ∧ (l.length : Int) ≤ totalWeight l ∧ 0 < totalWeight l ∧
      totalWeight l ≠ 0 ∧
      (∀ r : Int, 0 ≤ r → r < totalWeight l → ∃ x, weightScan r 0 l = some x ∧ x ∈ l) ∧
      (∀ draw : Nat, ∃ x, weightScan ((draw : Int) % totalWeight l) 0 l = some x ∧
        selectByWeight draw l = .ok (some x)) := by
  have htot := totalWeight_eq_weightSum l hW
  have hlen := length_le_weightSum l
  have hpos : 0 < l.length := List.length_pos.mpr hne
  have hWpos : 0 < weightSum l := by omega
  rw [htot]
  refine ⟨rfl, hlen, hWpos, by omega, ?_, ?_⟩
  · intro r h0 hr
    exact weightScan_some_of_lt r l h0 hW hr
  · intro draw
    obtain ⟨x, hx, _⟩ := weightScan_some_of_lt ((draw : Int) % weightSum l) l
      (Int.emod_nonneg _ (by omega)) hW (Int.emod_lt_of_pos _ hWpos)
    refine ⟨x, hx, ?_⟩
    unfold selectByWeight
    rw [if_neg (by simpa using hne)]
    simp only [htot]
    rw [if_neg (by omega)]
    simp [Intn, not_le.mpr hWpos, bind, Except.bind, hx, pure, Except.pure]

/-- C27 at a concrete input: the two candidates with weights 1 and 3. -/
theorem selectByWeight_fallbacks_unreachable_witness :
    totalWeight oneThreeWeights = weightSum oneThreeWeights ∧
      (oneThreeWeights.length : Int) ≤ totalWeight oneThreeWeights ∧
      0 < totalWeight oneThreeWeights ∧ totalWeight oneThreeWeights ≠ 0 ∧
      (∀ r : Int, 0 ≤ r → r < totalWeight oneThreeWeights →
        ∃ x, weightScan r 0 oneThreeWeights = some x ∧ x ∈ oneThreeWeights) ∧
      (∀ draw : Nat,
        ∃ x, weightScan ((draw : Int) % totalWeight oneThreeWeights) 0 oneThreeWeights = some x ∧
          selectByWeight draw oneThreeWeights = .ok (some x)) :=
  selectByWeight_fallbacks_unreachable oneThreeWeights (by decide) (by decide)

/-! ## Buttons of the stored account -/

theorem detailButtons_of_string_ids (buttons : List entity.CustomComponent)
    (details : List entity.ComponentDetail) (h : details.any nonStringID = false) :
    entity.detailButtons buttons details = .ok (buttons ++ details.filterMap stringButton) := by
  induction details generalizing buttons with
  | nil => simp [entity.detailButtons]
  | cons d ds ih =>
    simp only [List.any_cons, Bool.or_eq_false_iff] at h
    obtain ⟨hd, hds⟩ := h
    unfold entity.detailButtons
    cases hid : d.CustomID with
    | none =>
      simp only [ih buttons hds]
      simp [List.filterMap_cons, stringButton, hid]
    | some v =>
      cases v with
      | string s =>
        simp only [entity.AnyValue.assertString, ih _ hds]
        simp [List.filterMap_cons, stringButton, hid]
      | float64 t => simp [nonStringID, hid] at hd
      | bool b => simp [nonStringID, hid] at hd
      | object t => simp [nonStringID, hid] at hd
      | array t => simp [nonStringID, hid] at hd

theorem detailButtons_of_non_string_id (buttons : List entity.CustomComponent)
    (details : List entity.ComponentDetail) (h : details.any nonStringID = true) :
    ∃ e, entity.detailButtons buttons details = .error e := by
  induction details generalizing buttons with
  | nil => simp at h
  | cons d ds ih =>
    unfold entity.detailButtons
    cases hid : d.CustomID with
    | none =>
      have hds : ds.any nonStringID = true := by
        simpa [List.any_cons, nonStringID, hid] using h
      exact ih buttons hds
    | some v =>
      cases v with
      | string s =>
        have hds : ds.any nonStringID = true := by
          simpa [List.any_cons, nonStringID, hid] using h
        simp only [entity.AnyValue.assertString]
        exact ih _ hds
      | float64 t => exact ⟨_, rfl⟩
      | bool b => exact ⟨_, rfl⟩
      | object t => exact ⟨_, rfl⟩
      | array t => exact ⟨_, rfl⟩

theorem componentButtons_of_string_ids (buttons : List entity.CustomComponent)
    (comps : List entity.Component) (h : hasNonStringID comps = false) :
    entity.componentButtons buttons comps = .ok (buttons ++ stringButtons comps) := by
  induction comps generalizing buttons with
  | nil => simp [entity.componentButtons, stringButtons]
  | cons comp rest ih =>
    unfold hasNonStringID at h
    simp only [List.any_cons, Bool.or_eq_false_iff] at h
    obtain ⟨hc, hrest⟩ := h
    have hrest' : hasNonStringID rest = false := hrest
    unfold entity.componentButtons
    by_cases hk : comp.Kind = 1
    · rw [if_neg (by simpa using hk)]
      have hd : comp.Components.any nonStringID = false := by simpa [hk] using hc
      rw [detailButtons_of_string_ids buttons _ hd]
      simp only [ih _ hrest']
      simp [stringButtons, List.filter_cons, hk, List.flatMap_cons]
    · rw [if_pos hk, ih buttons hrest']
      simp [stringButtons, List.filter_cons, hk]

theorem componentButtons_of_non_string_id (buttons : List entity.CustomComponent)
    (comps : List entity.Component) (h : hasNonStringID comps = true) :
    ∃ e, entity.componentButtons buttons comps = .error e := by
  induction comps generalizing buttons with
  | nil => simp [hasNonStringID] at h
  | cons comp rest ih =>
    unfold entity.componentButtons
    by_cases hk : comp.Kind = 1
    · rw [if_neg (by simpa using hk)]
      cases hd : comp.Components.any nonStringID with
      | true =>
        obtain ⟨e, he⟩ := detailButtons_of_non_string_id buttons _ hd
        exact ⟨e, by rw [he]⟩
      | false =>
        rw [detailButtons_of_string_ids buttons _ hd]
        have hrest : hasNonStringID rest = true := by
          unfold hasNonStringID at h ⊢
          simpa [List.any_cons, hk, hd] using h
        exact ih _ hrest
    · rw [if_pos hk]
      have hrest : hasNonStringID rest = true := by
        unfold hasNonStringID at h ⊢
        simpa [List.any_cons, hk] using h
      exact ih _ hrest

/-- C29, the code on a `custom_id` that is not a string: on the account whose components
are one action row with the children `custom_id = "MJ::JOB::upsample::1"` and
`custom_id = 7`, `GetMJButtons` panics in the type assertion `detail.CustomID.(string)`,
and so does `GetNijiButtons` on the same list. For every account, either method panics
exactly when some child of a component of `Type` 1 has a `custom_id` that is neither nil
nor a string; otherwise it returns, for each component of `Type` 1 in order, one button per
child with a non-nil `custom_id`, and none for the other components. -/
theorem GetMJButtons_panics_on_non_string_id (d : entity.DiscordAccount) :
    (({ Components := numericIDComponents } : entity.DiscordAccount).GetMJButtons
        = .error "interface conversion: interface \x7b\x7d is float64, not string" ∧
      ({ NijiComponents := numericIDComponents } : entity.DiscordAccount).GetNijiButtons
        = .error "interface conversion: interface \x7b\x7d is float64, not string") ∧
    ((hasNonStringID d.Components = true → ∃ e, d.GetMJButtons = .error e) ∧
      (hasNonStringID d.Components = false →
        d.GetMJButtons = .ok (stringButtons d.Components))) ∧
    ((hasNonStringID d.NijiComponents = true → ∃ e, d.GetNijiButtons = .error e) ∧
      (hasNonStringID d.NijiComponents = false →
        d.GetNijiButtons = .ok (stringButtons d.NijiComponents))) ∧
    ({ Components := stringIDComponents } : entity.DiscordAccount).GetMJButtons
      = .ok [{ Kind := 2, Style := 2, Label := "U1", CustomID := "MJ::JOB::upsample::1" },
             { Kind := 2, Style := 2, Label := "R", CustomID := "MJ::JOB::reroll::0" }] := by
  refine ⟨⟨rfl, rfl⟩, ⟨?_, ?_⟩, ⟨?_, ?_⟩, rfl⟩
  · exact componentButtons_of_non_string_id [] _
  · intro h
    have := componentButtons_of_string_ids [] _ h
    simpa [entity.DiscordAccount.GetMJButtons] using this
  · exact componentButtons_of_non_string_id [] _
  · intro h
    have := componentButtons_of_string_ids [] _ h
    simpa [entity.DiscordAccount.GetNijiButtons] using this

end MjProxy
